import Mathlib

/-!
The ELF decoder of elfp (`src/util.c`, `src/elfp.c`, `src/elfdump.c`).

A shallow embedding of the byte cursor (`FP`, `utilRead8/16/32/64`), of the
decoder (`elfParse` and the static functions it calls), of the parts of the
dump that print the identification, the object type, a note, the type of a
program entry and the name of a section, and of the command line (`src/main.c`), followed by theorems about
them.

Conventions of the embedding

* A byte is a `Nat`; every read reduces it modulo 256 (`uint8_t`).
* Pointers into the file are offsets from `fp->_start`; `fp->data` is such an
  offset.  Pointer arithmetic is not wrapped.
* `FP.reads` is a ghost field: the offsets of the bytes read so far, oldest
  first.  C reads outside the allocation are undefined; here they are recorded
  like any other read and yield 0, so that theorems can speak about whether
  such a read is attempted.
* `FP.diag` is a ghost field: the messages the `ERR` and `WARN` macros of
  `fault.h` print, oldest first (`fault.h` is not among the sources).
* `malloc` is assumed to succeed.  What a block holds when `malloc` returns it
  is indeterminate; `FP.heap`, a ghost field, says what the `ELF` and the
  entries of the two tables hold at that point, and theorems quantify over it.
  The table-entry decoders take the entry they fill as an argument, as the C
  functions do.
* `FP.undefined` is a ghost field: it is set when `elfFree` walks or frees a
  table pointer that was never assigned.
* `memcpy` into a `uint32_t` depends on the byte order of the machine that runs
  the decoder; it is the parameter `hostLE` of the functions concerned.
* A function that prints returns the string it prints; `%d` of a value below
  `2 ^ 31` is its decimal form.  The functions of the C library the dump calls
  are modelled in the section on the C library.
* A block that `malloc` returned is the list of its bytes.  A dump function
  that reads outside such a block, or through a NULL pointer, returns `none`.
* A run of `main` is modelled in a file system `fs`, a map from paths to the
  bytes of the file, and ends in an `Outcome`.
-/

namespace Elfp

/-! ## elfp.h -/

def ELF_CLASS_INVALID : Nat := 0
def ELF_CLASS_32_BIT : Nat := 1
def ELF_CLASS_64_BIT : Nat := 2

def ELF_ENDIAN_INVALID : Nat := 0
def ELF_ENDIAN_LITTLE_ENDIAN : Nat := 1
def ELF_ENDIAN_BIG_ENDIAN : Nat := 2

def ELF_VERSION_INVALID : Nat := 0
def ELF_VERSION_CURRENT : Nat := 1

def ELF_ET_NONE : Nat := 0
def ELF_ET_RELOCATABLE : Nat := 1
def ELF_ET_EXECUTABLE : Nat := 2
def ELF_ET_DYNAMIC : Nat := 3
def ELF_ET_CORE : Nat := 4
def ELF_ET_LOOS : Nat := 0xFE00
def ELF_ET_HIOS : Nat := 0xFEFF
def ELF_ET_LOPROC : Nat := 0xFF00
def ELF_ET_HIPROC : Nat := 0xFFFF

def ELF_PHT_NULL : Nat := 0
def ELF_PHT_LOAD : Nat := 1
def ELF_PHT_DYNAMIC : Nat := 2
def ELF_PHT_INTERP : Nat := 3
def ELF_PHT_NOTE : Nat := 4
def ELF_PHT_SHLIB : Nat := 5
def ELF_PHT_PHDR : Nat := 6
def ELF_PHT_TLS : Nat := 7
def ELF_PHT_LOOS : Nat := 0x60000000
def ELF_PHT_GNU_EH_FRAME : Nat := 0x6474E550
def ELF_PHT_GNU_STACK : Nat := 0x6474E551
def ELF_PHT_GNU_RELRO : Nat := 0x6474E552
def ELF_PHT_GNU_PROPERTY : Nat := 0x6474E553
def ELF_PHT_GNU_SFRAME : Nat := 0x6474E554
def ELF_PHT_SUNBSS : Nat := 0x6FFFFFA
def ELF_PHT_SUNSTACK : Nat := 0x6FFFFFB
def ELF_PHT_HIOS : Nat := 0x6FFFFFFF
def ELF_PHT_LOPROC : Nat := 0x70000000
def ELF_PHT_HIPROC : Nat := 0x7FFFFFFF

def ELF_SHT_NULL : Nat := 0
def ELF_SHT_STRTAB : Nat := 3
def ELF_SHT_NOTE : Nat := 7

def ELF_NT_GNU_ABI : Nat := 1
def ELF_NT_GNU_HWCAP : Nat := 2
def ELF_NT_GNU_BUILDID : Nat := 3

def ELF_NT_GNU_ABI_LINUX : Nat := 0
def ELF_NT_GNU_ABI_HURD : Nat := 1
def ELF_NT_GNU_ABI_SOLARIS : Nat := 2
def ELF_NT_GNU_ABI_FREEBSD : Nat := 3
def ELF_NT_GNU_ABI_NETBSD : Nat := 4
def ELF_NT_GNU_ABI_SYLLABLE : Nat := 5
def ELF_NT_GNU_ABI_NACL : Nat := 6

/-- Structure representing the e_ident field (`ELF_Ident`). -/
structure ELF_Ident where
  class_ : Nat
  endianness : Nat
  version : Nat
  abi : Nat
  abiVersion : Nat
  deriving Repr, DecidableEq, Inhabited

/-- Structure representing the ELF Entry Header (`ELF_Header`). -/
structure ELF_Header where
  ident : ELF_Ident
  type : Nat
  machine : Nat
  version : Nat
  entryPointAddress : Nat
  progHeaderOffset : Nat
  sectHeaderOffset : Nat
  flags : Nat
  headerSize : Nat
  progHeaderEntrySize : Nat
  progHeaderEntryNum : Nat
  sectHeaderEntrySize : Nat
  sectHeaderEntryNum : Nat
  sectHeaderNameIndex : Nat
  deriving Repr, DecidableEq, Inhabited

/-- A note (`ELF_Note`); `desc` is `none` for the NULL pointer. -/
structure ELF_Note where
  namesz : Nat
  descsz : Nat
  type : Nat
  name : List Nat
  desc : Option (List Nat)
  deriving Repr, DecidableEq, Inhabited

/-- What the `void *data` of a table entry points to: nothing (NULL), a block
of bytes, or a note. -/
inductive Data where
  | null
  | bytes (b : List Nat)
  | note (n : ELF_Note)
  deriving Repr, DecidableEq, Inhabited

/-- An entry in the ELF Program Header (`ELF_PHEntry`). -/
structure ELF_PHEntry where
  type : Nat
  flags : Nat
  offset : Nat
  virtualAddr : Nat
  physicalAddr : Nat
  fileSize : Nat
  memSize : Nat
  align : Nat
  data : Data
  deriving Repr, DecidableEq, Inhabited

/-- An entry in the ELF Section Header (`ELF_SHEntry`). -/
structure ELF_SHEntry where
  nameIdx : Nat
  type : Nat
  flags : Nat
  addr : Nat
  offset : Nat
  size : Nat
  link : Nat
  info : Nat
  addrAlign : Nat
  entrySize : Nat
  data : Data
  deriving Repr, DecidableEq, Inhabited

/-- Structure representing an ELF file (`ELF`). -/
structure ELF where
  header : ELF_Header
  ph : List ELF_PHEntry
  sh : List ELF_SHEntry
  deriving Repr, DecidableEq, Inhabited

/-! ## util.h / util.c -/

/-- Modelled from the spec: `fault.h`, which defines the macros `ERR`, `WARN`
and `FATAL`, is not among the sources.  The spec has a fatal condition yield an
error that names the failed check and a recoverable one record a warning with
the offending raw value; a message is `ERR(msg)` or `WARN(msg, value)`. -/
inductive Diag where
  | err (msg : String)
  | warn (what : String) (value : Nat)
  deriving Repr, DecidableEq

/-- What the blocks that `malloc` hands to the decoder hold before they are
written.  That content is indeterminate: `elfHeader`, `elfPh` and `elfSh` are
what the `header`, the pointer `ph` and the pointer `sh` (0 for NULL) of the
`ELF` that `elfParse` allocates hold at first; `ph` and `sh` are what the
entries of the program table and of the section table hold at first, entry
`i` being `ph.getD i default`. -/
structure Heap where
  elfHeader : ELF_Header
  elfPh : Nat
  elfSh : Nat
  ph : List ELF_PHEntry
  sh : List ELF_SHEntry
  deriving Repr, DecidableEq, Inhabited

/-- Structure representing an open file (`struct _FP`): `_start` is the
allocated memory segment, `data` the cursor (an offset from `_start`), `size`
the size of the file.  The other fields are ghost fields: `reads` and `diag`,
the offsets read and the messages printed so far; `heap`, what the blocks that
`malloc` returns hold; `undefined`, whether the decoder has freed or
dereferenced a pointer that was never assigned.  They hang on `FP` because it
is the one object that every decoder function receives. -/
structure FP where
  _start : List Nat
  data : Nat
  size : Nat
  reads : List Nat
  diag : List Diag
  heap : Heap := default
  undefined : Bool := false
  deriving Repr, DecidableEq

/-- The byte stored at offset `off` of the memory `mem`, as a `uint8_t`. -/
def memByte (mem : List Nat) (off : Nat) : Nat :=
  mem.getD off 0 % 256

/-- The byte stored at offset `off` from `_start`. -/
def FP.byte (fp : FP) (off : Nat) : Nat :=
  memByte fp._start off

/-- The pure part of `utilReadFile`: a buffer of `size + 1` bytes holding the
file followed by a NUL, the cursor at its start. -/
def utilReadFile (file : List Nat) : FP :=
  { _start := file ++ [0], data := 0, size := file.length, reads := [], diag := [] }

/-- `utilRead8`: `return *fp->data++;` -/
def utilRead8 (fp : FP) : Nat × FP :=
  (fp.byte fp.data, { fp with data := fp.data + 1, reads := fp.reads ++ [fp.data] })

/-- `SHF(B, N)`: `(((B) & 0xFF) << (N))`. -/
def SHF (b n : Nat) : Nat :=
  (b &&& 0xFF) <<< n

/-- `utilRead16`. -/
def utilRead16 (le : Bool) (fp : FP) : Nat × FP :=
  if le then
    let (hi, fp) := utilRead8 fp
    let (lo, fp) := utilRead8 fp
    (((lo <<< 8) ||| hi) % 2 ^ 16, fp)
  else
    let (lo, fp) := utilRead8 fp
    let (hi, fp) := utilRead8 fp
    (((lo <<< 8) ||| hi) % 2 ^ 16, fp)

/-- `utilRead32`. -/
def utilRead32 (le : Bool) (fp : FP) : Nat × FP :=
  if le then
    let (d, fp) := utilRead8 fp
    let (c, fp) := utilRead8 fp
    let (b, fp) := utilRead8 fp
    let (a, fp) := utilRead8 fp
    ((SHF a 24 ||| SHF b 16 ||| SHF c 8 ||| (d &&& 0xFF)) % 2 ^ 32, fp)
  else
    let (a, fp) := utilRead8 fp
    let (b, fp) := utilRead8 fp
    let (c, fp) := utilRead8 fp
    let (d, fp) := utilRead8 fp
    ((SHF a 24 ||| SHF b 16 ||| SHF c 8 ||| (d &&& 0xFF)) % 2 ^ 32, fp)

/-- `utilRead64`. -/
def utilRead64 (le : Bool) (fp : FP) : Nat × FP :=
  if le then
    let (h, fp) := utilRead8 fp
    let (g, fp) := utilRead8 fp
    let (f, fp) := utilRead8 fp
    let (e, fp) := utilRead8 fp
    let (d, fp) := utilRead8 fp
    let (c, fp) := utilRead8 fp
    let (b, fp) := utilRead8 fp
    let (a, fp) := utilRead8 fp
    ((SHF a 56 ||| SHF b 48 ||| SHF c 40 ||| SHF d 32 ||| SHF e 24
      ||| SHF f 16 ||| SHF g 8 ||| (h &&& 0xFF)) % 2 ^ 64, fp)
  else
    let (a, fp) := utilRead8 fp
    let (b, fp) := utilRead8 fp
    let (c, fp) := utilRead8 fp
    let (d, fp) := utilRead8 fp
    let (e, fp) := utilRead8 fp
    let (f, fp) := utilRead8 fp
    let (g, fp) := utilRead8 fp
    let (h, fp) := utilRead8 fp
    ((SHF a 56 ||| SHF b 48 ||| SHF c 40 ||| SHF d 32 ||| SHF e 24
      ||| SHF f 16 ||| SHF g 8 ||| (h &&& 0xFF)) % 2 ^ 64, fp)

/-! ## elfp.c -/

/-- A 32-bit ELF header is at least 52 bytes long. -/
def SMALLEST_POSSIBLE_ELF : Nat := 52

/-- Modelled from the spec: `ERR(msg)` of the missing `fault.h` prints the
message `msg`. -/
def ERR (msg : String) (fp : FP) : FP :=
  { fp with diag := fp.diag ++ [Diag.err msg] }

/-- `WARN_INVALID(S, V, I)`: `WARN` about `V` (a macro of the missing `fault.h`,
taken to print the message), then `(V) = (I)`; the new value of `V` is
returned. -/
def WARN_INVALID (s : String) (v i : Nat) (fp : FP) : Nat × FP :=
  (i, { fp with diag := fp.diag ++ [Diag.warn s v] })

/-- `CHECK(V, M, S, I)`: `if( (V) > (M) ) { WARN_INVALID(S, (V), (I)); }`. -/
def CHECK (v m : Nat) (s : String) (i : Nat) (fp : FP) : Nat × FP :=
  if v > m then WARN_INVALID s v i fp else (v, fp)

/-- `READ8()`. -/
def READ8 (fp : FP) : Nat × FP :=
  utilRead8 fp

/-- `READ16()`: 16-bit data, endianness dependent. -/
def READ16 (ident : ELF_Ident) (fp : FP) : Nat × FP :=
  utilRead16 (ident.endianness == ELF_ENDIAN_LITTLE_ENDIAN) fp

/-- `READ32()`: 32-bit data, endianness dependent. -/
def READ32 (ident : ELF_Ident) (fp : FP) : Nat × FP :=
  utilRead32 (ident.endianness == ELF_ENDIAN_LITTLE_ENDIAN) fp

/-- `READ64()`: 32/64-bit data, class and endianness dependent. -/
def READ64 (ident : ELF_Ident) (fp : FP) : Nat × FP :=
  if ident.class_ == ELF_CLASS_32_BIT then
    utilRead32 (ident.endianness == ELF_ENDIAN_LITTLE_ENDIAN) fp
  else
    utilRead64 (ident.endianness == ELF_ENDIAN_LITTLE_ENDIAN) fp

/-- The expression `fp->data[i]`. -/
def dataAt (fp : FP) (i : Nat) : Nat × FP :=
  (fp.byte (fp.data + i), { fp with reads := fp.reads ++ [fp.data + i] })

/-- The condition `fp->data[0] != 0x7F || fp->data[1] != 'E' ||
fp->data[2] != 'L' || fp->data[3] != 'F'`, evaluated left to right and
stopping at the first disjunct that holds. -/
def wrongMagic (fp : FP) : Bool × FP :=
  let (b0, fp) := dataAt fp 0
  if b0 ≠ 0x7F then (true, fp) else
  let (b1, fp) := dataAt fp 1
  if b1 ≠ 0x45 then (true, fp) else
  let (b2, fp) := dataAt fp 2
  if b2 ≠ 0x4C then (true, fp) else
  let (b3, fp) := dataAt fp 3
  if b3 ≠ 0x46 then (true, fp) else
  (false, fp)

/-- Parses the ident section of the Entry Header.  Each `ident->x = ...` of the
source binds the value of the field; the structure is put together last. -/
def _parseElfIdent (_ident : ELF_Ident) (fp : FP) : Bool × ELF_Ident × FP :=
  let (class_, fp) := READ8 fp
  let (class_, fp) := CHECK class_ ELF_CLASS_64_BIT "class" ELF_CLASS_INVALID fp
  let (endianness, fp) := READ8 fp
  let (endianness, fp) :=
    CHECK endianness ELF_ENDIAN_BIG_ENDIAN "endianness" ELF_ENDIAN_INVALID fp
  let (version, fp) := READ8 fp
  let (version, fp) :=
    if version ≠ ELF_VERSION_CURRENT then
      WARN_INVALID "version" version ELF_VERSION_INVALID fp
    else (version, fp)
  let (abi, fp) := READ8 fp
  let (abiVersion, fp) := READ8 fp
  -- Skip over padding
  let fp := { fp with data := fp.data + 7 }
  (true,
   { class_ := class_, endianness := endianness, version := version, abi := abi,
     abiVersion := abiVersion },
   fp)

/-- Parses the Entry Header.  Each `header->x = ...` of the source binds the
value of the field; the structure is put together last.  When the magic is
wrong the header is left as it was. -/
def _parseEntryHeader (header : ELF_Header) (fp : FP) : Bool × ELF_Header × FP :=
  let (bad, fp) := wrongMagic fp
  if bad then
    (false, header, ERR "file is not a valid ELF binary (wrong magic)" fp)
  else
  let fp := { fp with data := fp.data + 4 }
  let (ok, ident, fp) := _parseElfIdent header.ident fp
  if !ok then (false, { header with ident := ident }, fp) else
  let (type, fp) := READ16 ident fp
  let (type, fp) :=
    if type > ELF_ET_CORE ∧ type < ELF_ET_LOOS then
      WARN_INVALID "type" type type fp
    else (type, fp)
  let (machine, fp) := READ16 ident fp
  let (version, fp) := READ32 ident fp
  let (version, fp) :=
    if version ≠ ELF_VERSION_CURRENT then
      WARN_INVALID "version" version ELF_VERSION_INVALID fp
    else (version, fp)
  let (entryPointAddress, fp) := READ64 ident fp
  let (progHeaderOffset, fp) := READ64 ident fp
  let (sectHeaderOffset, fp) := READ64 ident fp
  let (flags, fp) := READ32 ident fp
  let (headerSize, fp) := READ16 ident fp
  let (progHeaderEntrySize, fp) := READ16 ident fp
  let (progHeaderEntryNum, fp) := READ16 ident fp
  let (sectHeaderEntrySize, fp) := READ16 ident fp
  let (sectHeaderEntryNum, fp) := READ16 ident fp
  let (sectHeaderNameIndex, fp) := READ16 ident fp
  (true,
   { ident := ident, type := type, machine := machine, version := version,
     entryPointAddress := entryPointAddress, progHeaderOffset := progHeaderOffset,
     sectHeaderOffset := sectHeaderOffset, flags := flags, headerSize := headerSize,
     progHeaderEntrySize := progHeaderEntrySize, progHeaderEntryNum := progHeaderEntryNum,
     sectHeaderEntrySize := sectHeaderEntrySize, sectHeaderEntryNum := sectHeaderEntryNum,
     sectHeaderNameIndex := sectHeaderNameIndex },
   fp)

/-- `memcpy(dst, fp->_start + src, n)`: the `n` bytes copied. -/
def memcpy (fp : FP) (src n : Nat) : List Nat × FP :=
  ((List.range n).map (fun i => fp.byte (src + i)),
   { fp with reads := fp.reads ++ (List.range n).map (fun i => src + i) })

/-- `memcpy(&x, fp->_start + src, 4)` for a `uint32_t x`: the value `x` holds
afterwards on a little-endian (`hostLE`) or big-endian machine. -/
def memcpyU32 (hostLE : Bool) (fp : FP) (src : Nat) : Nat × FP :=
  let (bs, fp) := memcpy fp src 4
  let b := fun i => bs.getD i 0
  (if hostLE then b 0 + b 1 * 2 ^ 8 + b 2 * 2 ^ 16 + b 3 * 2 ^ 24
   else b 3 + b 2 * 2 ^ 8 + b 1 * 2 ^ 16 + b 0 * 2 ^ 24, fp)

/-- `strncpy(dst, fp->_start + src, n)`: the `n` bytes written to `dst`.  The
source is read up to and including its first NUL, or for `n` bytes when there is
none before; after a NUL the destination is filled with NULs. -/
def strncpy (fp : FP) : Nat → Nat → List Nat × FP
  | _, 0 => ([], fp)
  | src, n + 1 =>
    let b := fp.byte src
    if b = 0 then
      (List.replicate (n + 1) 0, { fp with reads := fp.reads ++ [src] })
    else
      let (rest, fp1) := strncpy { fp with reads := fp.reads ++ [src] } (src + 1) n
      (b :: rest, fp1)

/-- Loads the contents of a note. -/
def _parseNoteSection (hostLE : Bool) (addr : Nat) (fp : FP) : Data × FP :=
  let (namesz, fp) := memcpyU32 hostLE fp addr
  let (descsz, fp) := memcpyU32 hostLE fp (addr + 4)
  let (type, fp) := memcpyU32 hostLE fp (addr + 8)
  let (name, fp) := memcpy fp (addr + 12) namesz
  if descsz > 0 then
    let descAddr := addr + 16
    let (desc, fp) := memcpy fp descAddr descsz
    (Data.note { namesz := namesz, descsz := descsz, type := type, name := name,
                 desc := some desc }, fp)
  else
    (Data.note { namesz := namesz, descsz := descsz, type := type, name := name,
                 desc := none }, fp)

/-- Parses an entry in the Program Header.  Each `ph->x = ...` of the source
binds the value of the field, and the entry is put together before the
`switch` on its type; `flags` keeps the value it has in `ph` when neither of
the two guarded reads runs. -/
def _parseProgHeaderEntry (hostLE : Bool) (ph : ELF_PHEntry) (ident : ELF_Ident) (fp : FP) :
    Bool × ELF_PHEntry × FP :=
  let (type, fp) := READ32 ident fp
  let (flags, fp) :=
    if ident.class_ == ELF_CLASS_64_BIT then READ32 ident fp else (ph.flags, fp)
  let (offset, fp) := READ64 ident fp
  let (virtualAddr, fp) := READ64 ident fp
  let (physicalAddr, fp) := READ64 ident fp
  let (fileSize, fp) := READ64 ident fp
  let (memSize, fp) := READ64 ident fp
  let (flags, fp) :=
    if ident.class_ == ELF_CLASS_32_BIT then READ32 ident fp else (flags, fp)
  let (align, fp) := READ32 ident fp
  let ph : ELF_PHEntry :=
    { type := type, flags := flags, offset := offset, virtualAddr := virtualAddr,
      physicalAddr := physicalAddr, fileSize := fileSize, memSize := memSize, align := align,
      data := ph.data }
  if ph.type = ELF_PHT_INTERP then
    let (d, fp) := strncpy fp ph.virtualAddr ph.fileSize
    (true, { ph with data := Data.bytes d }, fp)
  else if ph.type = ELF_PHT_NOTE then
    let (d, fp) := _parseNoteSection hostLE ph.offset fp
    (true, { ph with data := d }, fp)
  else
    (true, { ph with data := Data.null }, fp)

/-- The `for` loop of `_parseProgHeaders` from index `i`, with `n` iterations
left; the entries it fills are returned in order.  Entry `i` of the table that
`malloc` returned holds `fp.heap.ph.getD i default` when the entry decoder
receives it. -/
def progHeaderLoop (hostLE : Bool) (ident : ELF_Ident) (entrySize : Nat) :
    Nat → Nat → FP → Bool × List ELF_PHEntry × FP
  | _, 0, fp => (true, [], fp)
  | i, n + 1, fp =>
    let start := fp.data
    let (ok, ph, fp) := _parseProgHeaderEntry hostLE (fp.heap.ph.getD i default) ident fp
    if !ok then (false, [ph], fp) else
    let fp := { fp with data := start + entrySize }
    let (ok, rest, fp) := progHeaderLoop hostLE ident entrySize (i + 1) n fp
    (ok, ph :: rest, fp)

/-- Parses the Program Header. -/
def _parseProgHeaders (hostLE : Bool) (elf : ELF) (fp : FP) : Bool × ELF × FP :=
  let fp := { fp with data := elf.header.progHeaderOffset }
  let (ok, ph, fp) :=
    progHeaderLoop hostLE elf.header.ident elf.header.progHeaderEntrySize 0
      elf.header.progHeaderEntryNum fp
  (ok, { elf with ph := ph }, fp)

/-- Loads the contents of a string table. -/
def _parseSHEStringTable (sh : ELF_SHEntry) (fp : FP) : ELF_SHEntry × FP :=
  let (d, fp) := memcpy fp sh.offset sh.size
  ({ sh with data := Data.bytes d }, fp)

/-- Parses an entry in the Section Header.  Each `sh->x = ...` of the source
binds the value of the field, and the entry is put together before the
`switch` on its type. -/
def _parseSectHeaderEntry (hostLE : Bool) (sh : ELF_SHEntry) (ident : ELF_Ident) (fp : FP) :
    Bool × ELF_SHEntry × FP :=
  let (nameIdx, fp) := READ32 ident fp
  let (type, fp) := READ32 ident fp
  let (flags, fp) := READ64 ident fp
  let (addr, fp) := READ64 ident fp
  let (offset, fp) := READ64 ident fp
  let (size, fp) := READ64 ident fp
  let (link, fp) := READ32 ident fp
  let (info, fp) := READ32 ident fp
  let (addrAlign, fp) := READ64 ident fp
  let (entrySize, fp) := READ64 ident fp
  let sh : ELF_SHEntry :=
    { nameIdx := nameIdx, type := type, flags := flags, addr := addr, offset := offset,
      size := size, link := link, info := info, addrAlign := addrAlign,
      entrySize := entrySize, data := sh.data }
  if sh.type = ELF_SHT_STRTAB then
    let (sh, fp) := _parseSHEStringTable sh fp
    (true, sh, fp)
  else if sh.type = ELF_SHT_NOTE then
    let (d, fp) := _parseNoteSection hostLE sh.offset fp
    (true, { sh with data := d }, fp)
  else
    (true, { sh with data := Data.null }, fp)

/-- The `for` loop of `_parseSectHeaders` from index `i`, with `n` iterations
left.  Entry `i` of the table that `malloc` returned holds
`fp.heap.sh.getD i default` when the entry decoder receives it. -/
def sectHeaderLoop (hostLE : Bool) (ident : ELF_Ident) (entrySize : Nat) :
    Nat → Nat → FP → Bool × List ELF_SHEntry × FP
  | _, 0, fp => (true, [], fp)
  | i, n + 1, fp =>
    let start := fp.data
    let (ok, sh, fp) := _parseSectHeaderEntry hostLE (fp.heap.sh.getD i default) ident fp
    if !ok then (false, [sh], fp) else
    let fp := { fp with data := start + entrySize }
    let (ok, rest, fp) := sectHeaderLoop hostLE ident entrySize (i + 1) n fp
    (ok, sh :: rest, fp)

/-- Parses the Section Header. -/
def _parseSectHeaders (hostLE : Bool) (elf : ELF) (fp : FP) : Bool × ELF × FP :=
  let fp := { fp with data := elf.header.sectHeaderOffset }
  let (ok, sh, fp) :=
    sectHeaderLoop hostLE elf.header.ident elf.header.sectHeaderEntrySize 0
      elf.header.sectHeaderEntryNum fp
  (ok, { elf with sh := sh }, fp)

/-- A table pointer of the `ELF` structure as `elfFree` finds it: `fresh v` when
the decoder has not assigned it, so that it holds the value `v` the block held
when `malloc` returned it (0 for NULL); `table entries` when it points to the
table the decoder allocated, of which `entries` were decoded. -/
inductive TablePtr (α : Type) where
  | fresh (v : Nat)
  | table (entries : List α)

/-- Whether the part of `elfFree` that deals with one table is defined: the
loop that frees the `num` entries, then `free` of the pointer.  With a pointer
that was never assigned, the loop dereferences an indeterminate pointer unless
`num` is 0, and `free` is given one unless it holds NULL.  With a table
allocated by the decoder, an entry that was not decoded holds an indeterminate
`data` pointer. -/
def tableFreed {α : Type} (num : Nat) : TablePtr α → Bool
  | TablePtr.fresh v => num == 0 && v == 0
  | TablePtr.table entries => decide (num ≤ entries.length)

/-- Frees an ELF structure (`elfFree`), given its header and its two table
pointers: the loop over the `progHeaderEntryNum` program entries, the loop
over the `sectHeaderEntryNum` section entries, then `free` of the two tables
and of the structure.  No account is kept of the memory freed, only of whether
the call is defined: `undefined` is set when it is not. -/
def elfFree (header : ELF_Header) (ph : TablePtr ELF_PHEntry) (sh : TablePtr ELF_SHEntry)
    (fp : FP) : FP :=
  if tableFreed header.progHeaderEntryNum ph && tableFreed header.sectHeaderEntryNum sh then fp
  else { fp with undefined := true }

/-- Parses a sequence of bytes into an ELF structure; `none` is the NULL
result.  The `ELF` that `malloc` returns holds what `fp.heap` says; each
failure path calls `elfFree` on it as it is then.  The `FP` returned is the one
the call leaves behind (before `utilFreeFile` on success), with its ghost
fields. -/
def elfParse (hostLE : Bool) (fp : FP) : Option ELF × FP :=
  if fp.size < SMALLEST_POSSIBLE_ELF then
    (none, ERR "file too small: can't possibly be an ELF file" fp)
  else
  let (ok, header, fp) := _parseEntryHeader fp.heap.elfHeader fp
  if !ok then
    (none, elfFree header (TablePtr.fresh fp.heap.elfPh) (TablePtr.fresh fp.heap.elfSh) fp)
  else
  let elf : ELF := { header := header, ph := [], sh := [] }
  let (ok, elf, fp) := _parseProgHeaders hostLE elf fp
  if !ok then
    (none, elfFree elf.header (TablePtr.table elf.ph) (TablePtr.fresh fp.heap.elfSh) fp)
  else
  let (ok, elf, fp) := _parseSectHeaders hostLE elf fp
  if !ok then
    (none, elfFree elf.header (TablePtr.table elf.ph) (TablePtr.table elf.sh) fp)
  else
  (some elf, fp)

/-! ## The C library -/

/-- Modelled from the C library: `printf("%d", v)` for a 32-bit value `v` (an
`enum` or a `uint32_t` passed where an `int` is expected): the decimal form of
the two's-complement reading of `v`. -/
def fmtD (v : Nat) : String :=
  toString (if v % 2 ^ 32 < 2 ^ 31 then (v % 2 ^ 32 : Int) else (v % 2 ^ 32 : Int) - 2 ^ 32)

/-- Modelled from the C library: `printf("%" PRIu32, v)`, the decimal form of
`v` as a `uint32_t`. -/
def fmtU32 (v : Nat) : String :=
  toString (v % 2 ^ 32)

/-- Modelled from the C library: `printf("%02x", (unsigned char)b)`: the
hexadecimal form of the byte in lowercase, padded with zeros to two digits. -/
def fmt02x (b : Nat) : String :=
  String.mk (List.replicate (2 - (Nat.toDigits 16 (b % 256)).length) '0'
    ++ Nat.toDigits 16 (b % 256))

/-- Modelled from the C library: `strcmp(s, lit) == 0` for a block of bytes `s`
and a string literal `lit` (its characters before the NUL): the bytes are
compared in turn, up to the first difference or to the NUL that ends both;
`none` when the comparison would read past the end of the block. -/
def strcmpEq : List Nat → List Nat → Option Bool
  | [], _ => none
  | c :: _, [] => some (c == 0)
  | c :: s, l :: lit => if c = l then strcmpEq s lit else some false

/-- Modelled from the C library: the string that starts at index `i` of the block
`b`, its bytes before the first NUL; `none` when there is no NUL from `i` to the
end of the block (the string then runs past the block). -/
def cstrAt (b : List Nat) (i : Nat) : Option (List Nat) :=
  if 0 ∈ b.drop i then some ((b.drop i).takeWhile fun c => c != 0) else none

/-- The characters of a string of bytes. -/
def chars (s : List Nat) : String :=
  String.mk (s.map Char.ofNat)

/-- Modelled from the C library: `printf("%-17s", s)`: the string, then spaces
up to a width of `w`. -/
def padRight (w : Nat) (s : String) : String :=
  s ++ String.mk (List.replicate (w - s.length) ' ')

/-- Modelled from the C library: `((uint32_t *)data)[i]` for the block of bytes
`data`, on a little-endian (`hostLE`) or big-endian machine. -/
def u32At (hostLE : Bool) (data : List Nat) (i : Nat) : Nat :=
  let b := fun k => data.getD (4 * i + k) 0 % 256
  if hostLE then b 0 + b 1 * 2 ^ 8 + b 2 * 2 ^ 16 + b 3 * 2 ^ 24
  else b 3 + b 2 * 2 ^ 8 + b 1 * 2 ^ 16 + b 0 * 2 ^ 24

/-! ## elfdump.c -/

/-- What `_ehTypeDump` (elfdump.c) prints for the object type `type`: the
`switch` over the five named types, then the two reserved bands, then the
unknown type with its value in decimal. -/
def _ehTypeDump (type : Nat) : String :=
  if type = ELF_ET_NONE then "None\n"
  else if type = ELF_ET_RELOCATABLE then "Relocatable\n"
  else if type = ELF_ET_EXECUTABLE then "Executable\n"
  else if type = ELF_ET_DYNAMIC then "Dynamic (shared)\n"
  else if type = ELF_ET_CORE then "Core\n"
  else if type ≥ ELF_ET_LOOS ∧ type ≤ ELF_ET_HIOS then "OS specific\n"
  else if type ≥ ELF_ET_LOPROC ∧ type ≤ ELF_ET_HIPROC then "Processor specific\n"
  else "Unknown type \x27" ++ toString type ++ "\x27\n"

def ELF_DUMP_EH : Nat := 1
def ELF_DUMP_PH : Nat := 2
def ELF_DUMP_SH : Nat := 4
def ELF_DUMP_ALL : Nat := ELF_DUMP_EH ||| ELF_DUMP_PH ||| ELF_DUMP_SH

/-- What `_eiClassDump` prints for the class `class_`. -/
def _eiClassDump (class_ : Nat) : String :=
  if class_ = ELF_CLASS_INVALID then "invalid\n"
  else if class_ = ELF_CLASS_32_BIT then "32-bit\n"
  else if class_ = ELF_CLASS_64_BIT then "64-bit\n"
  else "Unknown class \x27" ++ fmtD class_ ++ "\x27\n"

/-- What `_eiEndiannessDump` prints for the endianness `endianness`. -/
def _eiEndiannessDump (endianness : Nat) : String :=
  if endianness = ELF_ENDIAN_INVALID then "invalid\n"
  else if endianness = ELF_ENDIAN_LITTLE_ENDIAN then "Little-endian\n"
  else if endianness = ELF_ENDIAN_BIG_ENDIAN then "Big-endian\n"
  else "Unknown endianness \x27" ++ fmtD endianness ++ "\x27\n"

/-- What `_elfVersionDump` prints for the version `version`. -/
def _elfVersionDump (version : Nat) : String :=
  if version = ELF_VERSION_CURRENT then "1 (current)\n" else "invalid\n"

/-- What `_elfNoteDescABIDump` prints for the note `note` on a machine of byte
order `hostLE`: `note->desc` is read as four `uint32_t`.  `none` when the read
is undefined: `desc` is NULL or shorter than 16 bytes. -/
def _elfNoteDescABIDump (hostLE : Bool) (note : ELF_Note) : Option String :=
  match note.desc with
  | none => none
  | some data =>
    if data.length < 16 then none else
    let OS := u32At hostLE data 0
    let MAJOR := u32At hostLE data 1
    let MINOR := u32At hostLE data 2
    let PATCH := u32At hostLE data 3
    some ("Expects "
      ++ (if OS = ELF_NT_GNU_ABI_LINUX then "Linux"
          else if OS = ELF_NT_GNU_ABI_HURD then "GNU Hurd"
          else if OS = ELF_NT_GNU_ABI_SOLARIS then "Solaris"
          else if OS = ELF_NT_GNU_ABI_FREEBSD then "FreeBSD"
          else if OS = ELF_NT_GNU_ABI_SYLLABLE then "Syllable"
          else if OS = ELF_NT_GNU_ABI_NACL then "NaCl"
          else "unknown OS \x27" ++ fmtD OS ++ "\x27")
      ++ ", ABI v" ++ fmtU32 MAJOR ++ "." ++ fmtU32 MINOR ++ "." ++ fmtU32 PATCH)

/-- What `_elfNoteDescBuildIDDump` prints for the note `note`: the `for` loop
prints `note->desc[i]` for every `i` below `note->descsz`.  `none` when a read
is undefined: `desc` is NULL or shorter than `descsz` while `descsz` is not 0. -/
def _elfNoteDescBuildIDDump (note : ELF_Note) : Option String :=
  if note.descsz = 0 then some "Build ID: "
  else
    match note.desc with
    | none => none
    | some desc =>
      if desc.length < note.descsz then none
      else some ((List.range note.descsz).foldl
        (fun out i => out ++ fmt02x (desc.getD i 0)) "Build ID: ")

/-- What `_elfNoteDescDump` prints for the note `note`; `none` when `strcmp`
reads past `note->name` or the function called is undefined. -/
def _elfNoteDescDump (hostLE : Bool) (note : ELF_Note) : Option String :=
  match strcmpEq note.name [0x47, 0x4E, 0x55] with
  | none => none
  | some true =>
    if note.type = ELF_NT_GNU_ABI then _elfNoteDescABIDump hostLE note
    else if note.type = ELF_NT_GNU_BUILDID then _elfNoteDescBuildIDDump note
    else some ("Unknown GNU note type \x27" ++ fmtD note.type ++ "\x27")
  | some false => some "Unknown"

/-- The name column `_shDump` prints for entry `i` of the section table `sh`
(the body of its loop up to the call of `_sheDump`): `strtab` is the payload of
`sh[nidx]`, `str` the string at `strtab[she->nameIdx]`.  `none` when a read is
undefined: `sh[nidx]` or `sh[i]` is outside the table, the payload of `sh[nidx]`
is not a block of bytes, or `str` lies or runs outside that block. -/
def _shDumpName (sh : List ELF_SHEntry) (nidx i : Nat) : Option String :=
  match sh[nidx]?, sh[i]? with
  | some tab, some she =>
    match tab.data with
    | Data.bytes strtab =>
      match cstrAt strtab she.nameIdx with
      | none => none
      | some str =>
        if str = [] then some "No name          "
        else if str.length > 13 then some (chars (str.take 13) ++ "... ")
        else some (padRight 17 (chars str))
    | _ => none
  | _, _ => none

/-- What `_pheTypeDump` prints for the program-header type `type`: the `switch`
over the named types, each name padded to `PHT_PAD` (14) characters, then the
two reserved bands, then the unknown type with its value. -/
def _pheTypeDump (type : Nat) : String :=
  if type = ELF_PHT_NULL then padRight 14 "Unused"
  else if type = ELF_PHT_LOAD then padRight 14 "Loadable"
  else if type = ELF_PHT_DYNAMIC then padRight 14 "Dynamic"
  else if type = ELF_PHT_INTERP then padRight 14 "Interpreter"
  else if type = ELF_PHT_NOTE then padRight 14 "Note"
  else if type = ELF_PHT_SHLIB then padRight 14 "Reserved"
  else if type = ELF_PHT_PHDR then padRight 14 "Prog Header"
  else if type = ELF_PHT_TLS then padRight 14 "TLS"
  else if type = ELF_PHT_GNU_EH_FRAME then padRight 14 "GNU EH Frame"
  else if type = ELF_PHT_GNU_STACK then padRight 14 "GNU Stack"
  else if type = ELF_PHT_GNU_RELRO then padRight 14 "GNU Read-only"
  else if type = ELF_PHT_GNU_PROPERTY then padRight 14 "GNU Property"
  else if type = ELF_PHT_GNU_SFRAME then padRight 14 "GNU Stackframe"
  else if type = ELF_PHT_SUNBSS then padRight 14 "Sun BSS"
  else if type = ELF_PHT_SUNSTACK then padRight 14 "Sun Stack"
  else if type ≥ ELF_PHT_LOOS ∧ type ≤ ELF_PHT_HIOS then padRight 14 "OS"
  else if type ≥ ELF_PHT_LOPROC ∧ type ≤ ELF_PHT_HIPROC then padRight 14 "Processor"
  else "Unknown " ++ fmtU32 type ++ " "

/-! ## main.c -/

def EXIT_SUCCESS : Nat := 0
def EXIT_FAILURE : Nat := 1

/-- How a run of `main` ends.  A command-line argument is a C string, held as
the `String` of its characters before the terminating NUL; `s.data[i]?` is
`s[i]`, with `none` for the terminator. -/
inductive Outcome where
  /-- The run ends in `exit(EXIT_FAILURE)` after the message `msg` on `stderr`,
  before any file is opened. -/
  | exited (msg : String)
  /-- The call `utilReadFile(path)` found no file and returned NULL, which
  `elfParse` dereferences. -/
  | noFile (path : String)
  /-- The call `elfParseFile(path)` returned NULL: `return EXIT_FAILURE`. -/
  | noElf (path : String)
  /-- The object `elf` was decoded from the file at `path` and
  `elfDump(elf, flags)` was called: `return EXIT_SUCCESS`. -/
  | dumped (path : String) (elf : ELF) (flags : Nat)
  deriving Repr, DecidableEq

/-- The exit status of a run, `none` for a run that is undefined. -/
def Outcome.status : Outcome → Option Nat
  | Outcome.exited _ => some EXIT_FAILURE
  | Outcome.noFile _ => none
  | Outcome.noElf _ => some EXIT_FAILURE
  | Outcome.dumped _ _ _ => some EXIT_SUCCESS

/-- The path given to `elfParseFile`, if the run gets that far. -/
def Outcome.opened : Outcome → Option String
  | Outcome.exited _ => none
  | Outcome.noFile path => some path
  | Outcome.noElf path => some path
  | Outcome.dumped path _ _ => some path

/-- The selection given to `elfDump`, if the run gets that far. -/
def Outcome.selection : Outcome → Option Nat
  | Outcome.dumped _ _ flags => some flags
  | _ => none

/-- `_isOpt(argv, argS, argL)` with `cmd = *argv`: `Except.error` is the message
printed before `exit(EXIT_FAILURE)`. -/
def _isOpt (cmd : String) (argS : Char) (argL : String) : Except String Bool :=
  if cmd.data[0]? ≠ some '-' then Except.error ("unexpected " ++ cmd ++ "\n")
  else if cmd.data[1]? = some argS ∧ cmd.data[2]? = none then Except.ok true
  else if cmd.data[1]? = some '-' ∧ cmd.data[2]? ≠ none then
    Except.ok (decide (cmd.data.drop 2 = argL.data))
  else Except.ok false

/-- The `while( argc > 0 )` loop of `main` on the arguments left, with the
value of `flags` so far: the value of `file` (`none` for NULL) and of `flags`
at the end of the loop, or the message printed before `exit(EXIT_FAILURE)`. -/
def mainLoop : List String → Nat → Except String (Option String × Nat)
  | [], flags => Except.ok (none, flags)
  | arg :: argv, flags =>
    if arg.data[0]? ≠ some '-' then Except.ok (some arg, flags)
    else
      match _isOpt arg 'a' "all" with
      | Except.error e => Except.error e
      | Except.ok true => mainLoop argv ELF_DUMP_ALL
      | Except.ok false =>
      match _isOpt arg 'h' "header" with
      | Except.error e => Except.error e
      | Except.ok true => mainLoop argv (flags ||| ELF_DUMP_EH)
      | Except.ok false =>
      match _isOpt arg 'p' "program" with
      | Except.error e => Except.error e
      | Except.ok true => mainLoop argv (flags ||| ELF_DUMP_PH)
      | Except.ok false =>
      match _isOpt arg 's' "section" with
      | Except.error e => Except.error e
      | Except.ok true => mainLoop argv (flags ||| ELF_DUMP_SH)
      | Except.ok false => Except.error ("unknown option \x27" ++ arg ++ "\x27\n\n")

/-- `elfParseFile(FILEPATH)` in the file system `fs`: the outer `none` when no
file is there (`utilReadFile` returns NULL, which `elfParse` dereferences). -/
def elfParseFile (hostLE : Bool) (fs : String → Option (List Nat)) (FILEPATH : String) :
    Option (Option ELF) :=
  match fs FILEPATH with
  | none => none
  | some file => some (elfParse hostLE (utilReadFile file)).1

/-- `main(argc, argv)` in the file system `fs`; `argv` holds the `argc`
arguments, the name of the program first. -/
def main (hostLE : Bool) (fs : String → Option (List Nat)) (argv : List String) : Outcome :=
  if argv.length < 2 then Outcome.exited "must specify a file as input\n\n"
  else
    match mainLoop (argv.drop 1) 0 with
    | Except.error e => Outcome.exited e
    | Except.ok (file, flags) =>
      if file = none then Outcome.exited "must specify a file as input\n\n"
      else if flags = 0 then Outcome.exited "must specify what information to print\n\n"
      else
        match elfParseFile hostLE fs "./elfp" with
        | none => Outcome.noFile "./elfp"
        | some none => Outcome.noElf "./elfp"
        | some (some elf) => Outcome.dumped "./elfp" elf flags

/-! ## Specification-side definitions -/

/-- The value of the `w` bytes of `mem` at offset `off`: the sum of
`b_i * 256 ^ i` when `le` (least-significant byte first), the sum of
`b_i * 256 ^ (w - 1 - i)` otherwise (most-significant byte first). -/
def scalarAt (mem : List Nat) (le : Bool) (off w : Nat) : Nat :=
  ((List.range w).map fun i =>
    memByte mem (off + i) * 256 ^ (if le then i else w - 1 - i)).sum

/-- The `w` bytes of `mem` at offset `off`. -/
def bytesAt (mem : List Nat) (off w : Nat) : List Nat :=
  (List.range w).map fun i => memByte mem (off + i)

/-- Re-encoding of the scalar `v` on `w` bytes, least-significant byte first
when `le`, most-significant byte first otherwise. -/
def encode (le : Bool) (w v : Nat) : List Nat :=
  (List.range w).map fun i => v / 256 ^ (if le then i else w - 1 - i) % 256

/-- The four bytes at offset `off` of `mem` are `0x7F 'E' 'L' 'F'`. -/
def hasMagic (mem : List Nat) (off : Nat) : Bool :=
  memByte mem off == 0x7F && memByte mem (off + 1) == 0x45
    && memByte mem (off + 2) == 0x4C && memByte mem (off + 3) == 0x46

/-- How many of the four magic bytes at `off` are looked at by a left-to-right
comparison that stops at the first mismatch. -/
def magicLooked (mem : List Nat) (off : Nat) : Nat :=
  if memByte mem off ≠ 0x7F then 1
  else if memByte mem (off + 1) ≠ 0x45 then 2
  else if memByte mem (off + 2) ≠ 0x4C then 3
  else 4

/-- The file after the `n` bytes at the cursor were looked at without moving
the cursor. -/
def FP.peeked (fp : FP) (n : Nat) : FP :=
  { fp with reads := fp.reads ++ (List.range n).map fun i => fp.data + i }

/-- The file with the cursor moved to `off`. -/
def FP.seek (fp : FP) (off : Nat) : FP :=
  { fp with data := off }

/-- Little-endian flag the `READ` macros pass to the cursor. -/
def isLE (ident : ELF_Ident) : Bool :=
  ident.endianness == ELF_ENDIAN_LITTLE_ENDIAN

/-- Number of bytes `READ64()` consumes. -/
def wordSize (ident : ELF_Ident) : Nat :=
  if ident.class_ == ELF_CLASS_32_BIT then 4 else 8

/-- The normalisation `CHECK` applies: `v` when `v ≤ m`, the sentinel `i`
otherwise. -/
def rangeChecked (v m i : Nat) : Nat :=
  if v > m then i else v

/-- The normalisation of a version field: 1 stays, any other value becomes
`ELF_VERSION_INVALID`. -/
def versionChecked (v : Nat) : Nat :=
  if v ≠ ELF_VERSION_CURRENT then ELF_VERSION_INVALID else v

/-- The identification `_parseElfIdent` decodes from the five bytes of `mem` at
`p .. p + 4`, in closed form. -/
def identAt (mem : List Nat) (p : Nat) : ELF_Ident :=
  { class_ := rangeChecked (memByte mem p) ELF_CLASS_64_BIT ELF_CLASS_INVALID,
    endianness := rangeChecked (memByte mem (p + 1)) ELF_ENDIAN_BIG_ENDIAN ELF_ENDIAN_INVALID,
    version := versionChecked (memByte mem (p + 2)),
    abi := memByte mem (p + 3),
    abiVersion := memByte mem (p + 4) }

/-- The entry header `_parseEntryHeader` decodes from a file image `mem` whose
header starts at `off`, in closed form: every field as the scalar at its
offset, `ws` being the width of a word-sized field. -/
def headerAt (mem : List Nat) (off : Nat) : ELF_Header :=
  let ident := identAt mem (off + 4)
  let le := isLE ident
  let ws := wordSize ident
  { ident := ident,
    type := scalarAt mem le (off + 16) 2,
    machine := scalarAt mem le (off + 18) 2,
    version := versionChecked (scalarAt mem le (off + 20) 4),
    entryPointAddress := scalarAt mem le (off + 24) ws,
    progHeaderOffset := scalarAt mem le (off + 24 + ws) ws,
    sectHeaderOffset := scalarAt mem le (off + 24 + 2 * ws) ws,
    flags := scalarAt mem le (off + 24 + 3 * ws) 4,
    headerSize := scalarAt mem le (off + 28 + 3 * ws) 2,
    progHeaderEntrySize := scalarAt mem le (off + 30 + 3 * ws) 2,
    progHeaderEntryNum := scalarAt mem le (off + 32 + 3 * ws) 2,
    sectHeaderEntrySize := scalarAt mem le (off + 34 + 3 * ws) 2,
    sectHeaderEntryNum := scalarAt mem le (off + 36 + 3 * ws) 2,
    sectHeaderNameIndex := scalarAt mem le (off + 38 + 3 * ws) 2 }

/-- The warnings `_parseElfIdent` prints for the five bytes of `mem` at
`p .. p + 4`, in closed form. -/
def identDiag (mem : List Nat) (p : Nat) : List Diag :=
  (if memByte mem p > ELF_CLASS_64_BIT then [Diag.warn "class" (memByte mem p)] else [])
  ++ ((if memByte mem (p + 1) > ELF_ENDIAN_BIG_ENDIAN then
        [Diag.warn "endianness" (memByte mem (p + 1))] else [])
  ++ (if memByte mem (p + 2) ≠ ELF_VERSION_CURRENT then
        [Diag.warn "version" (memByte mem (p + 2))] else []))

/-- The warnings `_parseEntryHeader` prints for a header starting at `off`, in
closed form. -/
def headerDiag (mem : List Nat) (off : Nat) : List Diag :=
  let ident := identAt mem (off + 4)
  let le := isLE ident
  identDiag mem (off + 4)
  ++ ((if scalarAt mem le (off + 16) 2 > ELF_ET_CORE ∧ scalarAt mem le (off + 16) 2 < ELF_ET_LOOS
      then [Diag.warn "type" (scalarAt mem le (off + 16) 2)] else [])
  ++ (if scalarAt mem le (off + 20) 4 ≠ ELF_VERSION_CURRENT
      then [Diag.warn "version" (scalarAt mem le (off + 20) 4)] else []))

/-- The program-header entry `_parseProgHeaderEntry` decodes at offset `off` of
`mem`, in closed form, with `data` for its payload: every fixed field as the
scalar at its offset.  `lead` is the width of a flags word read right after
the type, `trail` that of a flags word read before the alignment; `flags0` is
the value `flags` keeps when it is read at neither place. -/
def phEntryAt (mem : List Nat) (ident : ELF_Ident) (flags0 off : Nat) (data : Data) :
    ELF_PHEntry :=
  let le := isLE ident
  let ws := wordSize ident
  let lead := if ident.class_ == ELF_CLASS_64_BIT then 4 else 0
  let trail := if ident.class_ == ELF_CLASS_32_BIT then 4 else 0
  { type := scalarAt mem le off 4,
    flags :=
      if ident.class_ == ELF_CLASS_32_BIT then scalarAt mem le (off + 4 + lead + 5 * ws) 4
      else if ident.class_ == ELF_CLASS_64_BIT then scalarAt mem le (off + 4) 4
      else flags0,
    offset := scalarAt mem le (off + 4 + lead) ws,
    virtualAddr := scalarAt mem le (off + 4 + lead + ws) ws,
    physicalAddr := scalarAt mem le (off + 4 + lead + 2 * ws) ws,
    fileSize := scalarAt mem le (off + 4 + lead + 3 * ws) ws,
    memSize := scalarAt mem le (off + 4 + lead + 4 * ws) ws,
    align := scalarAt mem le (off + 4 + lead + 5 * ws + trail) 4,
    data := data }

/-- The cursor after `n` consecutive byte reads: `data` moved by `n`, the `n`
offsets logged. -/
def FP.advance (fp : FP) (n : Nat) : FP :=
  { fp with data := fp.data + n,
            reads := fp.reads ++ (List.range n).map fun i => fp.data + i }

/-- The file after the messages `ds` were printed. -/
def FP.addDiag (fp : FP) (ds : List Diag) : FP :=
  { fp with diag := fp.diag ++ ds }

/-- The file `_parseEntryHeader` leaves behind when the magic is right, in
closed form: the four magic bytes looked at, the five identification bytes
read, the padding skipped, the `24 + 3 * ws` bytes of the other fields read,
the warnings printed. -/
def afterHeader (fp : FP) : FP :=
  (((((fp.peeked 4).seek (fp.data + 4)).advance 5).seek (fp.data + 16)).advance
      (24 + 3 * wordSize (identAt fp._start (fp.data + 4)))).addDiag
    (headerDiag fp._start fp.data)

/-- The `n` consecutive offsets from `off`. -/
def span (off n : Nat) : List Nat :=
  (List.range n).map fun i => off + i

/-- The file after the offsets `rs` were read without moving the cursor. -/
def FP.logged (fp : FP) (rs : List Nat) : FP :=
  { fp with reads := fp.reads ++ rs }

/-- The bytes `strncpy` writes when it copies at most `n` bytes from offset `src`
of `mem`, in closed form. -/
def strncpyBytes (mem : List Nat) : Nat → Nat → List Nat
  | _, 0 => []
  | src, n + 1 =>
    if memByte mem src = 0 then List.replicate (n + 1) 0
    else memByte mem src :: strncpyBytes mem (src + 1) n

/-- The offsets `strncpy` reads when it copies at most `n` bytes from offset
`src` of `mem`: up to and including the first NUL. -/
def strncpyReads (mem : List Nat) : Nat → Nat → List Nat
  | _, 0 => []
  | src, n + 1 =>
    if memByte mem src = 0 then [src] else src :: strncpyReads mem (src + 1) n

/-- The interpreter-path payload in the words of the spec: of the `size` bytes
of `mem` at `addr`, those before the first NUL, then NULs up to `size` bytes. -/
def interpPayload (mem : List Nat) (addr size : Nat) : List Nat :=
  (bytesAt mem addr size).takeWhile (fun b => b != 0)
    ++ List.replicate (size - ((bytesAt mem addr size).takeWhile (fun b => b != 0)).length) 0

/-- The note `_parseNoteSection` decodes at offset `a` of `mem` on a machine of
byte order `hostLE`, in closed form. -/
def noteAt (hostLE : Bool) (mem : List Nat) (a : Nat) : ELF_Note :=
  { namesz := scalarAt mem hostLE a 4,
    descsz := scalarAt mem hostLE (a + 4) 4,
    type := scalarAt mem hostLE (a + 8) 4,
    name := bytesAt mem (a + 12) (scalarAt mem hostLE a 4),
    desc :=
      if scalarAt mem hostLE (a + 4) 4 > 0 then
        some (bytesAt mem (a + 16) (scalarAt mem hostLE (a + 4) 4))
      else none }

/-- The offsets `_parseNoteSection` reads for the note at offset `a` of `mem`. -/
def noteReads (hostLE : Bool) (mem : List Nat) (a : Nat) : List Nat :=
  span a 4 ++ (span (a + 4) 4 ++ (span (a + 8) 4 ++ (span (a + 12) (scalarAt mem hostLE a 4)
    ++ (if scalarAt mem hostLE (a + 4) 4 > 0 then
          span (a + 16) (scalarAt mem hostLE (a + 4) 4)
        else []))))

/-- Number of bytes of the fixed fields of a program-header entry. -/
def phFixedLen (ident : ELF_Ident) : Nat :=
  4 + (if ident.class_ == ELF_CLASS_64_BIT then 4 else 0) + 5 * wordSize ident
    + (if ident.class_ == ELF_CLASS_32_BIT then 4 else 0) + 4

/-- Number of bytes of the fixed fields of a section-header entry. -/
def shFixedLen (ident : ELF_Ident) : Nat :=
  16 + 6 * wordSize ident

/-- The payload of the program-header entry `e`, in closed form. -/
def phPayloadAt (hostLE : Bool) (mem : List Nat) (e : ELF_PHEntry) : Data :=
  if e.type = ELF_PHT_INTERP then Data.bytes (strncpyBytes mem e.virtualAddr e.fileSize)
  else if e.type = ELF_PHT_NOTE then Data.note (noteAt hostLE mem e.offset)
  else Data.null

/-- The offsets read for the payload of the program-header entry `e`. -/
def phPayloadReads (hostLE : Bool) (mem : List Nat) (e : ELF_PHEntry) : List Nat :=
  if e.type = ELF_PHT_INTERP then strncpyReads mem e.virtualAddr e.fileSize
  else if e.type = ELF_PHT_NOTE then noteReads hostLE mem e.offset
  else []

/-- The program-header entry `_parseProgHeaderEntry` decodes at offset `off` of
`mem`, payload included, in closed form. -/
def phDecodeAt (hostLE : Bool) (mem : List Nat) (ident : ELF_Ident) (flags0 off : Nat) :
    ELF_PHEntry :=
  phEntryAt mem ident flags0 off
    (phPayloadAt hostLE mem (phEntryAt mem ident flags0 off Data.null))

/-- The section-header entry `_parseSectHeaderEntry` decodes at offset `off` of
`mem`, in closed form, with `data` for its payload. -/
def shEntryAt (mem : List Nat) (ident : ELF_Ident) (off : Nat) (data : Data) : ELF_SHEntry :=
  let le := isLE ident
  let ws := wordSize ident
  { nameIdx := scalarAt mem le off 4,
    type := scalarAt mem le (off + 4) 4,
    flags := scalarAt mem le (off + 8) ws,
    addr := scalarAt mem le (off + 8 + ws) ws,
    offset := scalarAt mem le (off + 8 + 2 * ws) ws,
    size := scalarAt mem le (off + 8 + 3 * ws) ws,
    link := scalarAt mem le (off + 8 + 4 * ws) 4,
    info := scalarAt mem le (off + 12 + 4 * ws) 4,
    addrAlign := scalarAt mem le (off + 16 + 4 * ws) ws,
    entrySize := scalarAt mem le (off + 16 + 5 * ws) ws,
    data := data }

/-- The payload of the section-header entry `e`, in closed form. -/
def shPayloadAt (hostLE : Bool) (mem : List Nat) (e : ELF_SHEntry) : Data :=
  if e.type = ELF_SHT_STRTAB then Data.bytes (bytesAt mem e.offset e.size)
  else if e.type = ELF_SHT_NOTE then Data.note (noteAt hostLE mem e.offset)
  else Data.null

/-- The offsets read for the payload of the section-header entry `e`. -/
def shPayloadReads (hostLE : Bool) (mem : List Nat) (e : ELF_SHEntry) : List Nat :=
  if e.type = ELF_SHT_STRTAB then span e.offset e.size
  else if e.type = ELF_SHT_NOTE then noteReads hostLE mem e.offset
  else []

/-- The section-header entry `_parseSectHeaderEntry` decodes at offset `off` of
`mem`, payload included, in closed form. -/
def shDecodeAt (hostLE : Bool) (mem : List Nat) (ident : ELF_Ident) (off : Nat) : ELF_SHEntry :=
  shEntryAt mem ident off (shPayloadAt hostLE mem (shEntryAt mem ident off Data.null))

/-- A file image `mem` with the cursor at `off`, nothing read or printed yet. -/
def cursorAt (mem : List Nat) (off : Nat) : FP :=
  { _start := mem, data := off, size := mem.length, reads := [], diag := [] }

/-- The two file images hold the same byte at every offset of `rs`. -/
def agreeOn (rs : List Nat) (mem1 mem2 : List Nat) : Prop :=
  ∀ o ∈ rs, memByte mem1 o = memByte mem2 o

/-- The note a payload holds, if it is one. -/
def Data.asNote : Data → Option ELF_Note
  | Data.note n => some n
  | _ => none

instance (rs mem1 mem2 : List Nat) : Decidable (agreeOn rs mem1 mem2) := by
  unfold agreeOn
  infer_instance

/-- The hexadecimal digit of a value below 16, in lowercase. -/
def hexDigit (n : Nat) : Char :=
  "0123456789abcdef".data.getD n '0'

/-- The mask of a selection option, in the words of the spec: all is 7, header
1, program 2, section 4; `none` for any other argument. -/
def optMask (o : String) : Option Nat :=
  if o = "-a" ∨ o = "--all" then some 7
  else if o = "-h" ∨ o = "--header" then some 1
  else if o = "-p" ∨ o = "--program" then some 2
  else if o = "-s" ∨ o = "--section" then some 4
  else none

/-- The bitwise OR of the masks of the options `opts`. -/
def orMasks (opts : List String) : Nat :=
  opts.foldl (fun acc o => acc ||| (optMask o).getD 0) 0

/-! ## Concrete files -/

/-- A 7-byte file. -/
def tinyFile : List Nat :=
  [0x7F, 0x45, 0x4C, 0x46, 1, 1, 1]

/-- A 52-byte file whose fourth byte is `'G'` instead of `'F'`. -/
def badMagic52 : List Nat :=
  [0x7F, 0x45, 0x4C, 0x47, 1, 1, 1, 0] ++ List.replicate 44 0

/-- A 52-byte file: the magic, class 2 (64-bit), little-endian, version 1, and
zeroes up to the 52nd byte. -/
def shortHeader64 : List Nat :=
  [0x7F, 0x45, 0x4C, 0x46, 2, 1, 1, 0] ++ List.replicate 44 0

/-- A 52-byte file with the magic and an odd identification: class byte 7,
endianness byte 9, version byte 3; the 32-bit header version (bytes 20..23,
read most-significant byte first) is 2. -/
def oddIdent52 : List Nat :=
  [0x7F, 0x45, 0x4C, 0x46, 7, 9, 3, 0] ++ List.replicate 12 0 ++ [0, 0, 0, 2]
    ++ List.replicate 28 0

/-- A 52-byte little-endian 32-bit header: type 2, machine 3, version 1, entry
`0x8048000`, program table at 52 with entries of 32 bytes, none present. -/
def header32LE : List Nat :=
  [0x7F, 0x45, 0x4C, 0x46, 1, 1, 1, 3, 0, 0, 0, 0, 0, 0, 0, 0,
   2, 0, 3, 0, 1, 0, 0, 0,
   0, 0x80, 0x04, 0x08, 52, 0, 0, 0, 0, 0, 0, 0,
   0, 0, 0, 0, 52, 0, 32, 0, 0, 0, 40, 0, 0, 0, 0, 0]

/-- A 120-byte big-endian 64-bit file: a 64-byte header announcing one program
entry of 56 bytes at offset 64, then that entry, a `PT_LOAD` whose `p_align`
(bytes 48..55 of the entry) is `0x1000`. -/
def bigEndian64 : List Nat :=
  [0x7F, 0x45, 0x4C, 0x46, 2, 2, 1, 0, 0, 0, 0, 0, 0, 0, 0, 0,
   0, 2, 0, 0x16, 0, 0, 0, 1,
   0, 0, 0, 0, 0, 0, 0, 0,
   0, 0, 0, 0, 0, 0, 0, 64,
   0, 0, 0, 0, 0, 0, 0, 0,
   0, 0, 0, 0, 0, 64, 0, 56, 0, 1, 0, 64, 0, 0, 0, 0,
   0, 0, 0, 1, 0, 0, 0, 5,
   0, 0, 0, 0, 0, 0, 0, 0,
   0, 0, 0, 0, 0, 0x40, 0, 0,
   0, 0, 0, 0, 0, 0x40, 0, 0,
   0, 0, 0, 0, 0, 0, 0, 120,
   0, 0, 0, 0, 0, 0, 0, 120,
   0, 0, 0, 0, 0, 0, 0x10, 0]

/-- The identification of a little-endian 64-bit file. -/
def ident64LE : ELF_Ident :=
  { class_ := 2, endianness := 1, version := 1, abi := 0, abiVersion := 0 }

/-- The identification of a big-endian 32-bit file. -/
def ident32BE : ELF_Ident :=
  { class_ := 1, endianness := 2, version := 1, abi := 0, abiVersion := 0 }

/-- A 128-byte little-endian 64-bit file: a 64-byte header with no program
entry and one section entry of 64 bytes at offset 64, then that entry, all
zero (a section of type NULL). -/
def nullSection64 : List Nat :=
  [0x7F, 0x45, 0x4C, 0x46, 2, 1, 1, 0, 0, 0, 0, 0, 0, 0, 0, 0,
   2, 0, 0x3E, 0, 1, 0, 0, 0,
   0, 0, 0, 0, 0, 0, 0, 0,
   0, 0, 0, 0, 0, 0, 0, 0,
   64, 0, 0, 0, 0, 0, 0, 0,
   0, 0, 0, 0, 64, 0, 56, 0, 0, 0, 64, 0, 1, 0, 0, 0]
  ++ List.replicate 64 0

/-- A 144-byte little-endian 64-bit file: a 64-byte header announcing one
program entry of 56 bytes at offset 64, then that entry, a `PT_NOTE` with
`p_offset` 120, then the note: `namesz` 8, `descsz` 4, `type` 3, the name
`"stapsdt\0"` and the description `DE AD BE EF`. -/
def stapNote64 : List Nat :=
  [0x7F, 0x45, 0x4C, 0x46, 2, 1, 1, 0, 0, 0, 0, 0, 0, 0, 0, 0,
   2, 0, 0x3E, 0, 1, 0, 0, 0,
   0, 0, 0, 0, 0, 0, 0, 0,
   64, 0, 0, 0, 0, 0, 0, 0,
   0, 0, 0, 0, 0, 0, 0, 0,
   0, 0, 0, 0, 64, 0, 56, 0, 1, 0, 64, 0, 0, 0, 0, 0,
   4, 0, 0, 0, 4, 0, 0, 0,
   120, 0, 0, 0, 0, 0, 0, 0,
   120, 0, 0, 0, 0, 0, 0, 0,
   120, 0, 0, 0, 0, 0, 0, 0,
   24, 0, 0, 0, 0, 0, 0, 0,
   24, 0, 0, 0, 0, 0, 0, 0,
   4, 0, 0, 0, 0, 0, 0, 0,
   8, 0, 0, 0, 4, 0, 0, 0, 3, 0, 0, 0,
   0x73, 0x74, 0x61, 0x70, 0x73, 0x64, 0x74, 0,
   0xDE, 0xAD, 0xBE, 0xEF]

/-- A 136-byte little-endian 64-bit file: a 64-byte header announcing one
program entry of 56 bytes at offset 64, then that entry, a `PT_NOTE` with
`p_offset` 120, then the note: `namesz` 4, `descsz` 0, `type` 1 and the name
`"GNU\0"`. -/
def emptyDescNote64 : List Nat :=
  [0x7F, 0x45, 0x4C, 0x46, 2, 1, 1, 0, 0, 0, 0, 0, 0, 0, 0, 0,
   2, 0, 0x3E, 0, 1, 0, 0, 0,
   0, 0, 0, 0, 0, 0, 0, 0,
   64, 0, 0, 0, 0, 0, 0, 0,
   0, 0, 0, 0, 0, 0, 0, 0,
   0, 0, 0, 0, 64, 0, 56, 0, 1, 0, 64, 0, 0, 0, 0, 0,
   4, 0, 0, 0, 4, 0, 0, 0,
   120, 0, 0, 0, 0, 0, 0, 0,
   120, 0, 0, 0, 0, 0, 0, 0,
   120, 0, 0, 0, 0, 0, 0, 0,
   16, 0, 0, 0, 0, 0, 0, 0,
   16, 0, 0, 0, 0, 0, 0, 0,
   4, 0, 0, 0, 0, 0, 0, 0,
   4, 0, 0, 0, 0, 0, 0, 0, 1, 0, 0, 0,
   0x47, 0x4E, 0x55, 0]

/-- A 136-byte big-endian 64-bit file: a 64-byte header announcing one program
entry of 56 bytes at offset 64, then that entry, a `PT_NOTE` with `p_offset`
120, then the note, its three words most-significant byte first: `namesz` 4,
`descsz` 0, `type` 1, and the name `"GNU\0"`. -/
def bigEndianNote64 : List Nat :=
  [0x7F, 0x45, 0x4C, 0x46, 2, 2, 1, 0, 0, 0, 0, 0, 0, 0, 0, 0,
   0, 2, 0, 0x16, 0, 0, 0, 1,
   0, 0, 0, 0, 0, 0, 0, 0,
   0, 0, 0, 0, 0, 0, 0, 64,
   0, 0, 0, 0, 0, 0, 0, 0,
   0, 0, 0, 0, 0, 64, 0, 56, 0, 1, 0, 64, 0, 0, 0, 0,
   0, 0, 0, 4, 0, 0, 0, 4,
   0, 0, 0, 0, 0, 0, 0, 120,
   0, 0, 0, 0, 0, 0, 0, 120,
   0, 0, 0, 0, 0, 0, 0, 120,
   0, 0, 0, 0, 0, 0, 0, 16,
   0, 0, 0, 0, 0, 0, 0, 16,
   0, 0, 0, 0, 0, 0, 0, 4,
   0, 0, 0, 4, 0, 0, 0, 0, 0, 0, 0, 1,
   0x47, 0x4E, 0x55, 0]

/-- A 92-byte little-endian 32-bit file: a 52-byte header announcing one
program entry of 32 bytes at offset 52, then that entry, a `PT_INTERP` with
`p_vaddr` 84 and `p_filesz` 8, then the eight bytes `"/ld\0XYZW"`. -/
def interp32 : List Nat :=
  [0x7F, 0x45, 0x4C, 0x46, 1, 1, 1, 0, 0, 0, 0, 0, 0, 0, 0, 0,
   2, 0, 3, 0, 1, 0, 0, 0,
   0, 0, 0, 0, 52, 0, 0, 0, 0, 0, 0, 0,
   0, 0, 0, 0, 52, 0, 32, 0, 1, 0, 40, 0, 0, 0, 0, 0,
   3, 0, 0, 0, 84, 0, 0, 0, 84, 0, 0, 0, 84, 0, 0, 0,
   8, 0, 0, 0, 8, 0, 0, 0, 4, 0, 0, 0, 1, 0, 0, 0,
   0x2F, 0x6C, 0x64, 0, 0x58, 0x59, 0x5A, 0x57]

/-- A 104-byte little-endian 32-bit file: a 52-byte header announcing one
section entry of 40 bytes at offset 52, then that entry, a `SHT_STRTAB` with
`sh_offset` 92 and `sh_size` 12, then the twelve bytes `"\0.text\0.bss\0"`. -/
def strtab32 : List Nat :=
  [0x7F, 0x45, 0x4C, 0x46, 1, 1, 1, 0, 0, 0, 0, 0, 0, 0, 0, 0,
   1, 0, 3, 0, 1, 0, 0, 0,
   0, 0, 0, 0, 0, 0, 0, 0, 52, 0, 0, 0,
   0, 0, 0, 0, 52, 0, 32, 0, 0, 0, 40, 0, 1, 0, 0, 0,
   1, 0, 0, 0, 3, 0, 0, 0, 0, 0, 0, 0, 0, 0, 0, 0,
   92, 0, 0, 0, 12, 0, 0, 0, 0, 0, 0, 0, 0, 0, 0, 0,
   1, 0, 0, 0, 0, 0, 0, 0,
   0, 0x2E, 0x74, 0x65, 0x78, 0x74, 0, 0x2E, 0x62, 0x73, 0x73, 0]

/-- A little-endian 32-bit header announcing two program entries of 40 bytes
at offset 52, then the two entries, a `PT_LOAD` and a `PT_PHDR`, each with its
32 bytes of fields followed by 8 bytes `pad`. -/
def padded32 (pad : Nat) : List Nat :=
  [0x7F, 0x45, 0x4C, 0x46, 1, 1, 1, 0, 0, 0, 0, 0, 0, 0, 0, 0,
   2, 0, 3, 0, 1, 0, 0, 0,
   0, 0, 0, 0, 52, 0, 0, 0, 0, 0, 0, 0,
   0, 0, 0, 0, 52, 0, 40, 0, 2, 0, 40, 0, 0, 0, 0, 0,
   1, 0, 0, 0, 0, 0, 0, 0, 0, 0x10, 0, 0, 0, 0x10, 0, 0,
   132, 0, 0, 0, 132, 0, 0, 0, 5, 0, 0, 0, 0, 0x10, 0, 0]
  ++ List.replicate 8 pad ++
  [6, 0, 0, 0, 52, 0, 0, 0, 52, 0, 0, 0, 52, 0, 0, 0,
   80, 0, 0, 0, 80, 0, 0, 0, 4, 0, 0, 0, 4, 0, 0, 0]
  ++ List.replicate 8 pad

/-- The identification of a little-endian 32-bit file. -/
def ident32LE : ELF_Ident :=
  { class_ := 1, endianness := 1, version := 1, abi := 0, abiVersion := 0 }

/-- A 52-byte little-endian 32-bit header whose type (bytes 16..17) is 5, a
value between `ELF_ET_CORE` and `ELF_ET_LOOS`. -/
def oddType52 : List Nat :=
  [0x7F, 0x45, 0x4C, 0x46, 1, 1, 1, 0, 0, 0, 0, 0, 0, 0, 0, 0,
   5, 0, 3, 0, 1, 0, 0, 0,
   0, 0, 0, 0, 0, 0, 0, 0, 0, 0, 0, 0,
   0, 0, 0, 0, 52, 0, 32, 0, 0, 0, 40, 0, 0, 0, 0, 0]

/-- A 52-byte little-endian 32-bit header whose type (bytes 16..17) is
`0xFE10`, a value of the band reserved to the operating system. -/
def osType52 : List Nat :=
  [0x7F, 0x45, 0x4C, 0x46, 1, 1, 1, 0, 0, 0, 0, 0, 0, 0, 0, 0,
   0x10, 0xFE, 3, 0, 1, 0, 0, 0,
   0, 0, 0, 0, 0, 0, 0, 0, 0, 0, 0, 0,
   0, 0, 0, 0, 52, 0, 32, 0, 0, 0, 40, 0, 0, 0, 0, 0]

/-- A 152-byte little-endian 64-bit file: a 64-byte header announcing one
program entry of 56 bytes at offset 64, then that entry, a `PT_NOTE` with
`p_offset` 120, then the note: `namesz` 4, `descsz` 16, `type` 1, the name
`"GNU\0"` and the description, four words: 4 (NetBSD), 9, 0, 0. -/
def netbsdNote64 : List Nat :=
  [0x7F, 0x45, 0x4C, 0x46, 2, 1, 1, 0, 0, 0, 0, 0, 0, 0, 0, 0,
   2, 0, 0x3E, 0, 1, 0, 0, 0,
   0, 0, 0, 0, 0, 0, 0, 0,
   64, 0, 0, 0, 0, 0, 0, 0,
   0, 0, 0, 0, 0, 0, 0, 0,
   0, 0, 0, 0, 64, 0, 56, 0, 1, 0, 64, 0, 0, 0, 0, 0,
   4, 0, 0, 0, 4, 0, 0, 0,
   120, 0, 0, 0, 0, 0, 0, 0,
   120, 0, 0, 0, 0, 0, 0, 0,
   120, 0, 0, 0, 0, 0, 0, 0,
   32, 0, 0, 0, 0, 0, 0, 0,
   32, 0, 0, 0, 0, 0, 0, 0,
   4, 0, 0, 0, 0, 0, 0, 0,
   4, 0, 0, 0, 16, 0, 0, 0, 1, 0, 0, 0,
   0x47, 0x4E, 0x55, 0,
   4, 0, 0, 0, 9, 0, 0, 0, 0, 0, 0, 0, 0, 0, 0, 0]

/-- An 88-byte little-endian 32-bit file: a 52-byte header announcing one
program entry of 32 bytes at offset 52, then that entry, a `PT_INTERP` with
`p_vaddr` 84 and `p_filesz` 3, then the bytes `"/ld\0"`: the size of the
segment leaves out the NUL. -/
def shortInterp32 : List Nat :=
  [0x7F, 0x45, 0x4C, 0x46, 1, 1, 1, 0, 0, 0, 0, 0, 0, 0, 0, 0,
   2, 0, 3, 0, 1, 0, 0, 0,
   0, 0, 0, 0, 52, 0, 0, 0, 0, 0, 0, 0,
   0, 0, 0, 0, 52, 0, 32, 0, 1, 0, 40, 0, 0, 0, 0, 0,
   3, 0, 0, 0, 84, 0, 0, 0, 84, 0, 0, 0, 84, 0, 0, 0,
   3, 0, 0, 0, 3, 0, 0, 0, 4, 0, 0, 0, 1, 0, 0, 0,
   0x2F, 0x6C, 0x64, 0]

/-- A 143-byte little-endian 32-bit file: a 52-byte header announcing two
section entries of 40 bytes at offset 52, the second holding the names; the
first entry, all zero; the second, a `SHT_STRTAB` with `sh_name` 1,
`sh_offset` 132 and `sh_size` 11; then the eleven bytes `"\0.shstrtab\0"`. -/
def twoSections32 : List Nat :=
  [0x7F, 0x45, 0x4C, 0x46, 1, 1, 1, 0, 0, 0, 0, 0, 0, 0, 0, 0,
   1, 0, 3, 0, 1, 0, 0, 0,
   0, 0, 0, 0, 0, 0, 0, 0, 52, 0, 0, 0,
   0, 0, 0, 0, 52, 0, 32, 0, 0, 0, 40, 0, 2, 0, 1, 0]
  ++ List.replicate 40 0 ++
  [1, 0, 0, 0, 3, 0, 0, 0, 0, 0, 0, 0, 0, 0, 0, 0,
   132, 0, 0, 0, 11, 0, 0, 0, 0, 0, 0, 0, 0, 0, 0, 0,
   1, 0, 0, 0, 0, 0, 0, 0,
   0, 0x2E, 0x73, 0x68, 0x73, 0x74, 0x72, 0x74, 0x61, 0x62, 0]

/-- The section table `elfParse` decodes from `twoSections32`. -/
def twoSectionsTable : List ELF_SHEntry :=
  ((elfParse true (utilReadFile twoSections32)).1.getD default).sh

/-- The identification of a little-endian file whose class is invalid. -/
def identNoClassLE : ELF_Ident :=
  { class_ := 0, endianness := 1, version := 1, abi := 0, abiVersion := 0 }

/-- A 52-byte big-endian 32-bit header with `e` for its endianness byte,
announcing one program entry of 32 bytes at offset 0: the entry lies over the
header, its `p_offset` being bytes 4..7, the endianness byte among them. -/
def overlap32 (e : Nat) : List Nat :=
  [0x7F, 0x45, 0x4C, 0x46, 1, e, 1, 0, 0, 0, 0, 0, 0, 0, 0, 0,
   0, 2, 0, 3, 0, 0, 0, 1,
   0, 0, 0, 0, 0, 0, 0, 0, 0, 0, 0, 0,
   0, 0, 0, 0, 0, 52, 0, 32, 0, 1, 0, 40, 0, 0, 0, 0]

/-- A file system with the file `header32LE` at `./elfp` and the file
`oddType52` at `other.elf`. -/
def twoFiles (path : String) : Option (List Nat) :=
  if path = "./elfp" then some header32LE
  else if path = "other.elf" then some oddType52
  else none

/-- An 84-byte little-endian 32-bit file: a 52-byte header announcing one
program entry of 32 bytes at offset 52, then that entry, whose `p_type`
(bytes `FA FF FF 06`) is `0x06FFFFFA`. -/
def lowType32 : List Nat :=
  [0x7F, 0x45, 0x4C, 0x46, 1, 1, 1, 0, 0, 0, 0, 0, 0, 0, 0, 0,
   2, 0, 3, 0, 1, 0, 0, 0,
   0, 0, 0, 0, 52, 0, 0, 0, 0, 0, 0, 0,
   0, 0, 0, 0, 52, 0, 32, 0, 1, 0, 40, 0, 0, 0, 0, 0,
   0xFA, 0xFF, 0xFF, 0x06, 0, 0, 0, 0, 0, 0, 0, 0, 0, 0, 0, 0,
   0, 0, 0, 0, 0, 0, 0, 0, 4, 0, 0, 0, 1, 0, 0, 0]

/-- A text file of 200 bytes, each the letter `A`: large enough to be decoded,
without the magic. -/
def text200 : List Nat :=
  List.replicate 200 0x41

/-- A heap whose blocks were in use before: the block handed out for the `ELF`
still holds a program entry count of 3 and a program table pointer that is not
NULL, and the first entry of the block handed out for the program table still
holds the flags 7. -/
def staleHeap : Heap :=
  { elfHeader := { (default : ELF_Header) with progHeaderEntryNum := 3 },
    elfPh := 0x5555,
    elfSh := 0,
    ph := [{ (default : ELF_PHEntry) with flags := 7 }],
    sh := [] }

/-- The file `bigEndian64` with 0 for its class byte: the class is decoded as
invalid, the header is read with 8-byte words, and the program entry at 64 is
read without its flags, 48 bytes in all. -/
def noClass64 : List Nat :=
  bigEndian64.set 4 0

/-- The file `bigEndian64` with the class byte 7, the endianness byte 9, the
identification version 3 and the object type `0x0099`: none of the four is a
value the format knows, and every offset the header gives stays inside the 120
bytes. -/
def oddFields64 : List Nat :=
  (((bigEndian64.set 4 7).set 5 9).set 6 3).set 17 0x99

/-! ## The byte cursor -/

section Cursor

@[simp] theorem advance_start (fp : FP) (n : Nat) : (fp.advance n)._start = fp._start := rfl
@[simp] theorem advance_heap (fp : FP) (n : Nat) : (fp.advance n).heap = fp.heap := rfl
@[simp] theorem advance_undefined (fp : FP) (n : Nat) :
    (fp.advance n).undefined = fp.undefined := rfl
@[simp] theorem advance_data (fp : FP) (n : Nat) : (fp.advance n).data = fp.data + n := rfl
@[simp] theorem advance_size (fp : FP) (n : Nat) : (fp.advance n).size = fp.size := rfl
@[simp] theorem advance_diag (fp : FP) (n : Nat) : (fp.advance n).diag = fp.diag := rfl
@[simp] theorem advance_reads (fp : FP) (n : Nat) :
    (fp.advance n).reads = fp.reads ++ (List.range n).map fun i => fp.data + i := rfl

@[simp] theorem addDiag_start (fp : FP) (ds : List Diag) : (fp.addDiag ds)._start = fp._start := rfl
@[simp] theorem addDiag_data (fp : FP) (ds : List Diag) : (fp.addDiag ds).data = fp.data := rfl
@[simp] theorem addDiag_size (fp : FP) (ds : List Diag) : (fp.addDiag ds).size = fp.size := rfl
@[simp] theorem addDiag_reads (fp : FP) (ds : List Diag) : (fp.addDiag ds).reads = fp.reads := rfl
@[simp] theorem addDiag_diag (fp : FP) (ds : List Diag) :
    (fp.addDiag ds).diag = fp.diag ++ ds := rfl

theorem memByte_lt (mem : List Nat) (off : Nat) : memByte mem off < 256 :=
  Nat.mod_lt _ (by decide)

theorem scalarAt_one (mem : List Nat) (le : Bool) (off : Nat) :
    scalarAt mem le off 1 = memByte mem off := by
  cases le <;> simp [scalarAt, List.range_succ]

theorem scalarAt_two (mem : List Nat) (le : Bool) (off : Nat) :
    scalarAt mem le off 2
      = if le then memByte mem off + memByte mem (off + 1) * 256
        else memByte mem off * 256 + memByte mem (off + 1) := by
  cases le <;> simp [scalarAt, List.range_succ]

theorem scalarAt_four (mem : List Nat) (le : Bool) (off : Nat) :
    scalarAt mem le off 4
      = if le then memByte mem off + memByte mem (off + 1) * 256
          + memByte mem (off + 2) * 256 ^ 2 + memByte mem (off + 3) * 256 ^ 3
        else memByte mem off * 256 ^ 3 + memByte mem (off + 1) * 256 ^ 2
          + memByte mem (off + 2) * 256 + memByte mem (off + 3) := by
  cases le <;> simp [scalarAt, List.range_succ, Nat.add_assoc]

theorem scalarAt_eight (mem : List Nat) (le : Bool) (off : Nat) :
    scalarAt mem le off 8
      = if le then memByte mem off + memByte mem (off + 1) * 256
          + memByte mem (off + 2) * 256 ^ 2 + memByte mem (off + 3) * 256 ^ 3
          + memByte mem (off + 4) * 256 ^ 4 + memByte mem (off + 5) * 256 ^ 5
          + memByte mem (off + 6) * 256 ^ 6 + memByte mem (off + 7) * 256 ^ 7
        else memByte mem off * 256 ^ 7 + memByte mem (off + 1) * 256 ^ 6
          + memByte mem (off + 2) * 256 ^ 5 + memByte mem (off + 3) * 256 ^ 4
          + memByte mem (off + 4) * 256 ^ 3 + memByte mem (off + 5) * 256 ^ 2
          + memByte mem (off + 6) * 256 + memByte mem (off + 7) := by
  cases le <;> simp [scalarAt, List.range_succ, Nat.add_assoc]

theorem SHF_of_lt {b : Nat} (n : Nat) (h : b < 256) : SHF b n = b * 2 ^ n := by
  unfold SHF
  rw [Nat.shiftLeft_eq, show (0xFF : Nat) = 2 ^ 8 - 1 by norm_num,
    Nat.and_pow_two_sub_one_eq_mod, Nat.mod_eq_of_lt (by simpa using h)]

theorem and_0xFF_of_lt {b : Nat} (h : b < 256) : b &&& 0xFF = b := by
  rw [show (0xFF : Nat) = 2 ^ 8 - 1 by norm_num,
    Nat.and_pow_two_sub_one_eq_mod, Nat.mod_eq_of_lt (by simpa using h)]

/-- Or-ing a value below `2 ^ k` onto a multiple of `2 ^ k` adds it. -/
theorem lor_low (k x y : Nat) (h : y < 2 ^ k) : (x * 2 ^ k) ||| y = x * 2 ^ k + y := by
  rw [Nat.mul_comm x]
  exact (Nat.mul_add_lt_is_or h x).symm

theorem lor16 {lo hi : Nat} (h1 : lo < 256) (h2 : hi < 256) :
    ((lo <<< 8) ||| hi) % 2 ^ 16 = lo * 256 + hi := by
  rw [Nat.shiftLeft_eq, lor_low 8 lo hi (by simpa using h2)]
  norm_num
  omega

theorem lor32 {a b c d : Nat} (ha : a < 256) (hb : b < 256) (hc : c < 256) (hd : d < 256) :
    (SHF a 24 ||| SHF b 16 ||| SHF c 8 ||| (d &&& 0xFF)) % 2 ^ 32
      = a * 256 ^ 3 + b * 256 ^ 2 + c * 256 + d := by
  rw [SHF_of_lt _ ha, SHF_of_lt _ hb, SHF_of_lt _ hc, and_0xFF_of_lt hd]
  have e1 : a * 2 ^ 24 ||| b * 2 ^ 16 = (a * 2 ^ 8 + b) * 2 ^ 16 := by
    rw [lor_low 24 a (b * 2 ^ 16) (by norm_num; omega)]
    ring
  have e2 : (a * 2 ^ 8 + b) * 2 ^ 16 ||| c * 2 ^ 8 = ((a * 2 ^ 8 + b) * 2 ^ 8 + c) * 2 ^ 8 := by
    rw [lor_low 16 _ (c * 2 ^ 8) (by norm_num; omega)]
    ring
  rw [e1, e2, lor_low 8 _ d (by simpa using hd)]
  norm_num
  omega

theorem lor64 {a b c d e f g h : Nat} (ha : a < 256) (hb : b < 256) (hc : c < 256)
    (hd : d < 256) (he : e < 256) (hf : f < 256) (hg : g < 256) (hh : h < 256) :
    (SHF a 56 ||| SHF b 48 ||| SHF c 40 ||| SHF d 32 ||| SHF e 24
      ||| SHF f 16 ||| SHF g 8 ||| (h &&& 0xFF)) % 2 ^ 64
      = a * 256 ^ 7 + b * 256 ^ 6 + c * 256 ^ 5 + d * 256 ^ 4 + e * 256 ^ 3 + f * 256 ^ 2
        + g * 256 + h := by
  rw [SHF_of_lt _ ha, SHF_of_lt _ hb, SHF_of_lt _ hc, SHF_of_lt _ hd, SHF_of_lt _ he,
    SHF_of_lt _ hf, SHF_of_lt _ hg, and_0xFF_of_lt hh]
  have e1 : a * 2 ^ 56 ||| b * 2 ^ 48 = (a * 2 ^ 8 + b) * 2 ^ 48 := by
    rw [lor_low 56 a (b * 2 ^ 48) (by norm_num; omega)]
    ring
  have e2 : (a * 2 ^ 8 + b) * 2 ^ 48 ||| c * 2 ^ 40
      = ((a * 2 ^ 8 + b) * 2 ^ 8 + c) * 2 ^ 40 := by
    rw [lor_low 48 _ (c * 2 ^ 40) (by norm_num; omega)]
    ring
  have e3 : ((a * 2 ^ 8 + b) * 2 ^ 8 + c) * 2 ^ 40 ||| d * 2 ^ 32
      = (((a * 2 ^ 8 + b) * 2 ^ 8 + c) * 2 ^ 8 + d) * 2 ^ 32 := by
    rw [lor_low 40 _ (d * 2 ^ 32) (by norm_num; omega)]
    ring
  have e4 : (((a * 2 ^ 8 + b) * 2 ^ 8 + c) * 2 ^ 8 + d) * 2 ^ 32 ||| e * 2 ^ 24
      = ((((a * 2 ^ 8 + b) * 2 ^ 8 + c) * 2 ^ 8 + d) * 2 ^ 8 + e) * 2 ^ 24 := by
    rw [lor_low 32 _ (e * 2 ^ 24) (by norm_num; omega)]
    ring
  have e5 : ((((a * 2 ^ 8 + b) * 2 ^ 8 + c) * 2 ^ 8 + d) * 2 ^ 8 + e) * 2 ^ 24 ||| f * 2 ^ 16
      = (((((a * 2 ^ 8 + b) * 2 ^ 8 + c) * 2 ^ 8 + d) * 2 ^ 8 + e) * 2 ^ 8 + f) * 2 ^ 16 := by
    rw [lor_low 24 _ (f * 2 ^ 16) (by norm_num; omega)]
    ring
  have e6 : (((((a * 2 ^ 8 + b) * 2 ^ 8 + c) * 2 ^ 8 + d) * 2 ^ 8 + e) * 2 ^ 8 + f) * 2 ^ 16
        ||| g * 2 ^ 8
      = ((((((a * 2 ^ 8 + b) * 2 ^ 8 + c) * 2 ^ 8 + d) * 2 ^ 8 + e) * 2 ^ 8 + f) * 2 ^ 8 + g)
        * 2 ^ 8 := by
    rw [lor_low 16 _ (g * 2 ^ 8) (by norm_num; omega)]
    ring
  rw [e1, e2, e3, e4, e5, e6, lor_low 8 _ h (by simpa using hh)]
  norm_num
  omega

theorem advance_advance (fp : FP) (m n : Nat) :
    (fp.advance m).advance n = fp.advance (m + n) := by
  simp [FP.advance, List.range_add, Nat.add_assoc]

theorem utilRead8_eq (fp : FP) :
    utilRead8 fp = (memByte fp._start fp.data, fp.advance 1) := by
  simp [utilRead8, FP.advance, FP.byte, List.range_succ]

theorem utilRead16_eq (le : Bool) (fp : FP) :
    utilRead16 le fp = (scalarAt fp._start le fp.data 2, fp.advance 2) := by
  have h0 := memByte_lt fp._start fp.data
  have h1 := memByte_lt fp._start (fp.data + 1)
  cases le <;>
    simp only [utilRead16, utilRead8_eq, advance_advance, advance_start, advance_data,
      scalarAt_two, lor16 h0 h1, lor16 h1 h0, Bool.false_eq_true, if_false, if_true] <;>
    simp [Nat.add_comm]

theorem utilRead32_eq (le : Bool) (fp : FP) :
    utilRead32 le fp = (scalarAt fp._start le fp.data 4, fp.advance 4) := by
  have h0 := memByte_lt fp._start fp.data
  have h1 := memByte_lt fp._start (fp.data + 1)
  have h2 := memByte_lt fp._start (fp.data + 2)
  have h3 := memByte_lt fp._start (fp.data + 3)
  cases le <;>
    simp only [utilRead32, utilRead8_eq, advance_advance, advance_start, advance_data,
      scalarAt_four, lor32 h0 h1 h2 h3, lor32 h3 h2 h1 h0, Bool.false_eq_true, if_false,
      if_true, Nat.add_assoc, Nat.reduceAdd, Prod.mk.injEq, and_true] <;>
    omega

theorem utilRead64_eq (le : Bool) (fp : FP) :
    utilRead64 le fp = (scalarAt fp._start le fp.data 8, fp.advance 8) := by
  have h0 := memByte_lt fp._start fp.data
  have h1 := memByte_lt fp._start (fp.data + 1)
  have h2 := memByte_lt fp._start (fp.data + 2)
  have h3 := memByte_lt fp._start (fp.data + 3)
  have h4 := memByte_lt fp._start (fp.data + 4)
  have h5 := memByte_lt fp._start (fp.data + 5)
  have h6 := memByte_lt fp._start (fp.data + 6)
  have h7 := memByte_lt fp._start (fp.data + 7)
  cases le <;>
    simp only [utilRead64, utilRead8_eq, advance_advance, advance_start, advance_data,
      scalarAt_eight, lor64 h0 h1 h2 h3 h4 h5 h6 h7, lor64 h7 h6 h5 h4 h3 h2 h1 h0,
      Bool.false_eq_true, if_false, if_true, Nat.add_assoc, Nat.reduceAdd, Prod.mk.injEq,
      and_true] <;>
    omega

/-! Re-encoding a scalar read from `w` bytes gives those bytes back. -/

theorem encode_scalarAt_two (mem : List Nat) (le : Bool) (off : Nat) :
    encode le 2 (scalarAt mem le off 2) = bytesAt mem off 2 := by
  have h0 := memByte_lt mem off
  have h1 := memByte_lt mem (off + 1)
  rw [scalarAt_two]
  cases le <;>
    simp only [encode, bytesAt, List.range_succ, List.range_zero, List.nil_append,
      List.map_cons, List.map_nil, List.cons_append, Bool.false_eq_true, if_false, if_true,
      Nat.add_zero, List.cons.injEq, and_true] <;>
    norm_num <;> omega

theorem encode_scalarAt_four (mem : List Nat) (le : Bool) (off : Nat) :
    encode le 4 (scalarAt mem le off 4) = bytesAt mem off 4 := by
  have h0 := memByte_lt mem off
  have h1 := memByte_lt mem (off + 1)
  have h2 := memByte_lt mem (off + 2)
  have h3 := memByte_lt mem (off + 3)
  rw [scalarAt_four]
  cases le <;>
    simp only [encode, bytesAt, List.range_succ, List.range_zero, List.nil_append,
      List.map_cons, List.map_nil, List.cons_append, Bool.false_eq_true, if_false, if_true,
      Nat.add_zero, List.cons.injEq, and_true] <;>
    norm_num <;> omega

theorem encode_scalarAt_eight (mem : List Nat) (le : Bool) (off : Nat) :
    encode le 8 (scalarAt mem le off 8) = bytesAt mem off 8 := by
  have h0 := memByte_lt mem off
  have h1 := memByte_lt mem (off + 1)
  have h2 := memByte_lt mem (off + 2)
  have h3 := memByte_lt mem (off + 3)
  have h4 := memByte_lt mem (off + 4)
  have h5 := memByte_lt mem (off + 5)
  have h6 := memByte_lt mem (off + 6)
  have h7 := memByte_lt mem (off + 7)
  rw [scalarAt_eight]
  cases le <;>
    simp only [encode, bytesAt, List.range_succ, List.range_zero, List.nil_append,
      List.map_cons, List.map_nil, List.cons_append, Bool.false_eq_true, if_false, if_true,
      Nat.add_zero, List.cons.injEq, and_true] <;>
    norm_num <;> omega

end Cursor

/-! ## The `READ` macros and the validation macros -/

section Macros

@[simp] theorem peeked_start (fp : FP) (n : Nat) : (fp.peeked n)._start = fp._start := rfl
@[simp] theorem peeked_data (fp : FP) (n : Nat) : (fp.peeked n).data = fp.data := rfl
@[simp] theorem peeked_size (fp : FP) (n : Nat) : (fp.peeked n).size = fp.size := rfl
@[simp] theorem peeked_diag (fp : FP) (n : Nat) : (fp.peeked n).diag = fp.diag := rfl
@[simp] theorem peeked_reads (fp : FP) (n : Nat) :
    (fp.peeked n).reads = fp.reads ++ (List.range n).map fun i => fp.data + i := rfl

@[simp] theorem seek_start (fp : FP) (n : Nat) : (fp.seek n)._start = fp._start := rfl
@[simp] theorem seek_data (fp : FP) (n : Nat) : (fp.seek n).data = n := rfl
@[simp] theorem seek_size (fp : FP) (n : Nat) : (fp.seek n).size = fp.size := rfl
@[simp] theorem seek_diag (fp : FP) (n : Nat) : (fp.seek n).diag = fp.diag := rfl
@[simp] theorem seek_reads (fp : FP) (n : Nat) : (fp.seek n).reads = fp.reads := rfl

theorem READ8_eq (fp : FP) : READ8 fp = (memByte fp._start fp.data, fp.advance 1) :=
  utilRead8_eq fp

theorem READ16_eq (ident : ELF_Ident) (fp : FP) :
    READ16 ident fp = (scalarAt fp._start (isLE ident) fp.data 2, fp.advance 2) :=
  utilRead16_eq _ fp

theorem READ32_eq (ident : ELF_Ident) (fp : FP) :
    READ32 ident fp = (scalarAt fp._start (isLE ident) fp.data 4, fp.advance 4) :=
  utilRead32_eq _ fp

theorem READ64_eq (ident : ELF_Ident) (fp : FP) :
    READ64 ident fp
      = (scalarAt fp._start (isLE ident) fp.data (wordSize ident),
         fp.advance (wordSize ident)) := by
  unfold READ64 wordSize
  split
  · exact utilRead32_eq _ fp
  · exact utilRead64_eq _ fp

theorem WARN_INVALID_eq (s : String) (v i : Nat) (fp : FP) :
    WARN_INVALID s v i fp = (i, fp.addDiag [Diag.warn s v]) := rfl

theorem CHECK_eq (v m : Nat) (s : String) (i : Nat) (fp : FP) :
    CHECK v m s i fp
      = (rangeChecked v m i, fp.addDiag (if v > m then [Diag.warn s v] else [])) := by
  unfold CHECK rangeChecked
  split <;> simp [WARN_INVALID_eq, FP.addDiag]

theorem ERR_eq (msg : String) (fp : FP) : ERR msg fp = fp.addDiag [Diag.err msg] := rfl

theorem wrongMagic_eq (fp : FP) :
    wrongMagic fp
      = (!hasMagic fp._start fp.data, fp.peeked (magicLooked fp._start fp.data)) := by
  unfold wrongMagic dataAt hasMagic magicLooked FP.byte
  by_cases h0 : memByte fp._start fp.data = 0x7F
  · by_cases h1 : memByte fp._start (fp.data + 1) = 0x45
    · by_cases h2 : memByte fp._start (fp.data + 2) = 0x4C
      · by_cases h3 : memByte fp._start (fp.data + 3) = 0x46 <;>
          simp [h0, h1, h2, h3, FP.peeked, List.range_succ]
      · simp [h0, h1, h2, FP.peeked, List.range_succ]
    · simp [h0, h1, FP.peeked, List.range_succ]
  · simp [h0, FP.peeked, List.range_succ]

theorem ite_pair {α β : Type} (c : Prop) [Decidable c] (a b : α) (x y : β) :
    (if c then (a, x) else (b, y)) = (if c then a else b, if c then x else y) := by
  split <;> rfl

theorem addDiag_nil (fp : FP) : fp.addDiag [] = fp := by
  cases fp
  simp [FP.addDiag]

theorem ite_addDiag (c : Prop) [Decidable c] (fp : FP) (ds : List Diag) :
    (if c then fp.addDiag ds else fp) = fp.addDiag (if c then ds else []) := by
  split
  · rfl
  · exact (addDiag_nil fp).symm

theorem ite_warn (c : Prop) [Decidable c] (i v : Nat) (fp : FP) (ds : List Diag) :
    (if c then (i, fp.addDiag ds) else (v, fp))
      = (if c then i else v, fp.addDiag (if c then ds else [])) := by
  rw [ite_pair, ite_addDiag]

theorem addDiag_advance (fp : FP) (ds : List Diag) (n : Nat) :
    (fp.addDiag ds).advance n = (fp.advance n).addDiag ds := rfl

theorem addDiag_addDiag (fp : FP) (a b : List Diag) :
    (fp.addDiag a).addDiag b = fp.addDiag (a ++ b) := by
  simp [FP.addDiag]

theorem addDiag_seek (fp : FP) (ds : List Diag) (n : Nat) :
    (fp.addDiag ds).seek n = (fp.seek n).addDiag ds := rfl

theorem seek_eq (fp : FP) (n : Nat) : { fp with data := n } = fp.seek n := rfl

theorem magicLooked_of_hasMagic {mem : List Nat} {off : Nat} (h : hasMagic mem off = true) :
    magicLooked mem off = 4 := by
  unfold hasMagic at h
  unfold magicLooked
  simp only [Bool.and_eq_true, beq_iff_eq] at h
  simp [h.1.1.1, h.1.1.2, h.1.2]

theorem magicLooked_le (mem : List Nat) (off : Nat) : magicLooked mem off ≤ 4 := by
  unfold magicLooked
  split
  · omega
  · split
    · omega
    · split <;> omega

theorem scalarAt_congr (mem : List Nat) (le : Bool) {a b : Nat} (w : Nat) (h : a = b) :
    scalarAt mem le a w = scalarAt mem le b w := by
  rw [h]

theorem advance_congr (fp : FP) {a b : Nat} (h : a = b) : fp.advance a = fp.advance b := by
  rw [h]

theorem advance_zero (fp : FP) : fp.advance 0 = fp := by
  cases fp
  simp [FP.advance]

theorem ite_read (c : Prop) [Decidable c] (x v : Nat) (fp : FP) (n : Nat) :
    (if c then (x, fp.advance n) else (v, fp))
      = (if c then x else v, fp.advance (if c then n else 0)) := by
  split <;> simp [advance_zero]

/-- Closed form of `_parseElfIdent`. -/
theorem parseElfIdent_eq (ident : ELF_Ident) (fp : FP) :
    _parseElfIdent ident fp
      = (true, identAt fp._start fp.data,
         ((fp.advance 5).seek (fp.data + 12)).addDiag (identDiag fp._start fp.data)) := by
  unfold _parseElfIdent
  simp only [READ8_eq, CHECK_eq, WARN_INVALID_eq, ite_pair, ite_addDiag, seek_eq,
    advance_start, advance_data, addDiag_start, addDiag_data, versionChecked, identAt]
  simp only [addDiag_advance, addDiag_addDiag, addDiag_seek, advance_advance, Nat.add_assoc,
    Nat.reduceAdd, identDiag, List.append_assoc, advance_data]
  rfl

end Macros

/-! ## The payloads -/

section Payloads

@[simp] theorem logged_heap (fp : FP) (rs : List Nat) : (fp.logged rs).heap = fp.heap := rfl
@[simp] theorem logged_undefined (fp : FP) (rs : List Nat) :
    (fp.logged rs).undefined = fp.undefined := rfl
@[simp] theorem logged_start (fp : FP) (rs : List Nat) : (fp.logged rs)._start = fp._start := rfl
@[simp] theorem logged_data (fp : FP) (rs : List Nat) : (fp.logged rs).data = fp.data := rfl
@[simp] theorem logged_size (fp : FP) (rs : List Nat) : (fp.logged rs).size = fp.size := rfl
@[simp] theorem logged_diag (fp : FP) (rs : List Nat) : (fp.logged rs).diag = fp.diag := rfl
@[simp] theorem logged_reads (fp : FP) (rs : List Nat) :
    (fp.logged rs).reads = fp.reads ++ rs := rfl

theorem logged_logged (fp : FP) (a b : List Nat) :
    (fp.logged a).logged b = fp.logged (a ++ b) := by
  simp [FP.logged]

theorem logged_nil (fp : FP) : fp.logged [] = fp := by
  cases fp
  simp [FP.logged]

theorem memcpy_eq (fp : FP) (src n : Nat) :
    memcpy fp src n = (bytesAt fp._start src n, fp.logged (span src n)) := rfl

theorem scalarAt_four_le (mem : List Nat) (off : Nat) :
    scalarAt mem true off 4
      = memByte mem off + memByte mem (off + 1) * 2 ^ 8 + memByte mem (off + 2) * 2 ^ 16
        + memByte mem (off + 3) * 2 ^ 24 := by
  rw [scalarAt_four]
  norm_num

theorem scalarAt_four_be (mem : List Nat) (off : Nat) :
    scalarAt mem false off 4
      = memByte mem (off + 3) + memByte mem (off + 2) * 2 ^ 8 + memByte mem (off + 1) * 2 ^ 16
        + memByte mem off * 2 ^ 24 := by
  rw [scalarAt_four]
  norm_num
  omega

theorem memcpyU32_eq (hostLE : Bool) (fp : FP) (src : Nat) :
    memcpyU32 hostLE fp src = (scalarAt fp._start hostLE src 4, fp.logged (span src 4)) := by
  unfold memcpyU32
  rw [memcpy_eq]
  cases hostLE
  · simp [scalarAt_four_be, bytesAt, List.range_succ, FP.byte]
  · simp [scalarAt_four_le, bytesAt, List.range_succ, FP.byte]

theorem strncpy_eq (fp : FP) (src n : Nat) :
    strncpy fp src n
      = (strncpyBytes fp._start src n, fp.logged (strncpyReads fp._start src n)) := by
  induction n generalizing fp src with
  | zero => simp [strncpy, strncpyBytes, strncpyReads, logged_nil]
  | succ n ih =>
    unfold strncpy strncpyBytes strncpyReads
    by_cases h : memByte fp._start src = 0
    · simp [h, FP.byte, FP.logged]
    · simp only [FP.byte, h, if_false]
      rw [ih]
      simp [FP.logged]

theorem parseNoteSection_eq (hostLE : Bool) (addr : Nat) (fp : FP) :
    _parseNoteSection hostLE addr fp
      = (Data.note (noteAt hostLE fp._start addr),
         fp.logged (noteReads hostLE fp._start addr)) := by
  unfold _parseNoteSection
  simp only [memcpyU32_eq, memcpy_eq, logged_start, logged_logged, noteAt, noteReads]
  split <;> simp [List.append_assoc]

end Payloads

/-! ## The entry header -/

section Header

attribute [local irreducible] FP.advance FP.seek FP.addDiag FP.peeked memByte scalarAt identAt
  identDiag

theorem parseEntryHeader_wrongMagic (header : ELF_Header) (fp : FP)
    (h : hasMagic fp._start fp.data = false) :
    _parseEntryHeader header fp
      = (false, header,
         (fp.peeked (magicLooked fp._start fp.data)).addDiag
           [Diag.err "file is not a valid ELF binary (wrong magic)"]) := by
  simp [_parseEntryHeader, wrongMagic_eq, h, ERR_eq]

/-- Closed form of `_parseEntryHeader` on a file that has the magic. -/
theorem parseEntryHeader_eq (header : ELF_Header) (fp : FP)
    (h : hasMagic fp._start fp.data = true) :
    _parseEntryHeader header fp = (true, headerAt fp._start fp.data, afterHeader fp) := by
  unfold _parseEntryHeader afterHeader
  rw [wrongMagic_eq, h]
  dsimp only
  rw [parseElfIdent_eq]
  simp only [Bool.not_true, Bool.false_eq_true, if_false, READ16_eq, READ32_eq, READ64_eq,
    WARN_INVALID_eq, ite_warn, advance_start, advance_data, addDiag_start, addDiag_data,
    seek_start, seek_data, ite_self, seek_eq, magicLooked_of_hasMagic h]
  simp only [addDiag_advance, addDiag_addDiag, addDiag_seek, advance_advance, Nat.add_assoc,
    Nat.reduceAdd, List.append_assoc, advance_data, headerAt, headerDiag, versionChecked,
    peeked_start, peeked_data]
  generalize wordSize _ = ws
  refine Prod.ext rfl (Prod.ext ?_ ?_)
  · dsimp only
    congr 1 <;> first | rfl | exact scalarAt_congr _ _ _ (by omega)
  · dsimp only
    congr 1
    exact advance_congr _ (by omega)

theorem parseEntryHeader_fst (header : ELF_Header) (fp : FP) :
    (_parseEntryHeader header fp).1 = hasMagic fp._start fp.data := by
  cases h : hasMagic fp._start fp.data
  · rw [parseEntryHeader_wrongMagic header fp h]
  · rw [parseEntryHeader_eq header fp h]

end Header

/-! ## The tables -/

section Tables

attribute [local irreducible] FP.advance FP.seek FP.addDiag FP.peeked memByte scalarAt identAt
  identDiag

/-- The decoder of a program-header entry always returns `true`, and the
entry it fills is the closed form `phEntryAt`. -/
theorem parseProgHeaderEntry_fields (hostLE : Bool) (ph : ELF_PHEntry) (ident : ELF_Ident)
    (fp : FP) :
    (_parseProgHeaderEntry hostLE ph ident fp).1 = true ∧
    (_parseProgHeaderEntry hostLE ph ident fp).2.1
      = phEntryAt fp._start ident ph.flags fp.data
          (_parseProgHeaderEntry hostLE ph ident fp).2.1.data := by
  unfold _parseProgHeaderEntry
  simp only [READ32_eq, READ64_eq, ite_read, advance_start, advance_data]
  simp only [advance_advance, Nat.add_assoc, phEntryAt]
  generalize wordSize ident = ws
  generalize (if (ident.class_ == ELF_CLASS_64_BIT) = true then 4 else 0) = lead
  generalize (if (ident.class_ == ELF_CLASS_32_BIT) = true then 4 else 0) = trail
  have key : ∀ (d : Data),
      ({ type := scalarAt fp._start (isLE ident) fp.data 4,
         flags :=
           if (ident.class_ == ELF_CLASS_32_BIT) = true then
             scalarAt fp._start (isLE ident)
               (fp.data + (4 + (lead + (ws + (ws + (ws + (ws + ws))))))) 4
           else if (ident.class_ == ELF_CLASS_64_BIT) = true then
             scalarAt fp._start (isLE ident) (fp.data + 4) 4
           else ph.flags,
         offset := scalarAt fp._start (isLE ident) (fp.data + (4 + lead)) ws,
         virtualAddr := scalarAt fp._start (isLE ident) (fp.data + (4 + (lead + ws))) ws,
         physicalAddr :=
           scalarAt fp._start (isLE ident) (fp.data + (4 + (lead + (ws + ws)))) ws,
         fileSize :=
           scalarAt fp._start (isLE ident) (fp.data + (4 + (lead + (ws + (ws + ws))))) ws,
         memSize :=
           scalarAt fp._start (isLE ident)
             (fp.data + (4 + (lead + (ws + (ws + (ws + ws)))))) ws,
         align :=
           scalarAt fp._start (isLE ident)
             (fp.data + (4 + (lead + (ws + (ws + (ws + (ws + (ws + trail)))))))) 4,
         data := d } : ELF_PHEntry)
      = { type := scalarAt fp._start (isLE ident) fp.data 4,
          flags :=
            if (ident.class_ == ELF_CLASS_32_BIT) = true then
              scalarAt fp._start (isLE ident) (fp.data + (4 + (lead + 5 * ws))) 4
            else if (ident.class_ == ELF_CLASS_64_BIT) = true then
              scalarAt fp._start (isLE ident) (fp.data + 4) 4
            else ph.flags,
          offset := scalarAt fp._start (isLE ident) (fp.data + (4 + lead)) ws,
          virtualAddr := scalarAt fp._start (isLE ident) (fp.data + (4 + (lead + ws))) ws,
          physicalAddr :=
            scalarAt fp._start (isLE ident) (fp.data + (4 + (lead + 2 * ws))) ws,
          fileSize := scalarAt fp._start (isLE ident) (fp.data + (4 + (lead + 3 * ws))) ws,
          memSize := scalarAt fp._start (isLE ident) (fp.data + (4 + (lead + 4 * ws))) ws,
          align :=
            scalarAt fp._start (isLE ident) (fp.data + (4 + (lead + (5 * ws + trail)))) 4,
          data := d } := by
    intro d
    congr 1 <;> first
      | rfl
      | exact scalarAt_congr _ _ _ (by omega)
      | (split <;> first | rfl | exact scalarAt_congr _ _ _ (by omega))
  split
  · exact ⟨rfl, key _⟩
  · split
    · exact ⟨rfl, key _⟩
    · exact ⟨rfl, key _⟩
theorem parseSectHeaderEntry_fst (hostLE : Bool) (sh : ELF_SHEntry) (ident : ELF_Ident)
    (fp : FP) : (_parseSectHeaderEntry hostLE sh ident fp).1 = true := by
  unfold _parseSectHeaderEntry
  simp only [READ32_eq, READ64_eq]
  split
  · rfl
  · split <;> rfl

theorem progHeaderLoop_fst (hostLE : Bool) (ident : ELF_Ident) (entrySize i n : Nat)
    (fp : FP) : (progHeaderLoop hostLE ident entrySize i n fp).1 = true := by
  induction n generalizing i fp with
  | zero => rfl
  | succ n ih =>
    unfold progHeaderLoop
    have h := (parseProgHeaderEntry_fields hostLE (fp.heap.ph.getD i default) ident fp).1
    rcases hr : _parseProgHeaderEntry hostLE (fp.heap.ph.getD i default) ident fp
      with ⟨ok, ph, fp1⟩
    rw [hr] at h
    simp only at h
    subst h
    simp only [Bool.not_true, Bool.false_eq_true, if_false]
    exact ih _ _

theorem sectHeaderLoop_fst (hostLE : Bool) (ident : ELF_Ident) (entrySize i n : Nat)
    (fp : FP) : (sectHeaderLoop hostLE ident entrySize i n fp).1 = true := by
  induction n generalizing i fp with
  | zero => rfl
  | succ n ih =>
    unfold sectHeaderLoop
    have h := parseSectHeaderEntry_fst hostLE (fp.heap.sh.getD i default) ident fp
    rcases hr : _parseSectHeaderEntry hostLE (fp.heap.sh.getD i default) ident fp
      with ⟨ok, sh, fp1⟩
    rw [hr] at h
    simp only at h
    subst h
    simp only [Bool.not_true, Bool.false_eq_true, if_false]
    exact ih _ _

theorem parseProgHeaders_fst (hostLE : Bool) (elf : ELF) (fp : FP) :
    (_parseProgHeaders hostLE elf fp).1 = true := by
  unfold _parseProgHeaders
  exact progHeaderLoop_fst _ _ _ _ _ _

theorem parseProgHeaders_header (hostLE : Bool) (elf : ELF) (fp : FP) :
    (_parseProgHeaders hostLE elf fp).2.1.header = elf.header := rfl

theorem parseSectHeaders_fst (hostLE : Bool) (elf : ELF) (fp : FP) :
    (_parseSectHeaders hostLE elf fp).1 = true := by
  unfold _parseSectHeaders
  exact sectHeaderLoop_fst _ _ _ _ _ _

theorem parseSectHeaders_header (hostLE : Bool) (elf : ELF) (fp : FP) :
    (_parseSectHeaders hostLE elf fp).2.1.header = elf.header := rfl

end Tables

/-! ## Assembly: `elfParse` -/

section Assembly

theorem hasMagic_iff (mem : List Nat) (off : Nat) :
    hasMagic mem off = true ↔
      (memByte mem off = 0x7F ∧ memByte mem (off + 1) = 0x45 ∧ memByte mem (off + 2) = 0x4C
        ∧ memByte mem (off + 3) = 0x46) := by
  simp [hasMagic, and_assoc]

theorem elfParse_small (hostLE : Bool) (fp : FP) (h : fp.size < SMALLEST_POSSIBLE_ELF) :
    elfParse hostLE fp
      = (none, fp.addDiag [Diag.err "file too small: can't possibly be an ELF file"]) := by
  unfold elfParse
  rw [if_pos h]
  rfl

/-- `elfParse` on a file of at least 52 bytes with a wrong magic: the magic
bytes looked at, the message, then `elfFree` on the `ELF` as `malloc` returned
it. -/
theorem elfParse_wrongMagic (hostLE : Bool) (fp : FP) (hs : SMALLEST_POSSIBLE_ELF ≤ fp.size)
    (hm : hasMagic fp._start fp.data = false) :
    elfParse hostLE fp
      = (none, elfFree fp.heap.elfHeader (TablePtr.fresh fp.heap.elfPh)
           (TablePtr.fresh fp.heap.elfSh)
           ((fp.peeked (magicLooked fp._start fp.data)).addDiag
             [Diag.err "file is not a valid ELF binary (wrong magic)"])) := by
  unfold elfParse
  rw [if_neg (by omega)]
  simp only [parseEntryHeader_wrongMagic _ _ hm, Bool.not_false, if_true]
  rfl

/-- `elfParse` on a file that passes both checks: the header in closed form,
then the two tables. -/
theorem elfParse_ok (hostLE : Bool) (fp : FP) (hs : SMALLEST_POSSIBLE_ELF ≤ fp.size)
    (hm : hasMagic fp._start fp.data = true) :
    elfParse hostLE fp
      = (some (_parseSectHeaders hostLE
            (_parseProgHeaders hostLE
              ⟨headerAt fp._start fp.data, [], []⟩
              (afterHeader fp)).2.1
            (_parseProgHeaders hostLE
              ⟨headerAt fp._start fp.data, [], []⟩
              (afterHeader fp)).2.2).2.1,
         (_parseSectHeaders hostLE
            (_parseProgHeaders hostLE
              ⟨headerAt fp._start fp.data, [], []⟩
              (afterHeader fp)).2.1
            (_parseProgHeaders hostLE
              ⟨headerAt fp._start fp.data, [], []⟩
              (afterHeader fp)).2.2).2.2) := by
  unfold elfParse
  rw [if_neg (by omega)]
  simp only [parseEntryHeader_eq _ _ hm, Bool.not_true, Bool.false_eq_true, if_false]
  have h1 := parseProgHeaders_fst hostLE
    ⟨headerAt fp._start fp.data, [], []⟩ (afterHeader fp)
  rcases hr1 : _parseProgHeaders hostLE
    ⟨headerAt fp._start fp.data, [], []⟩ (afterHeader fp)
    with ⟨ok1, elf1, fp1⟩
  rw [hr1] at h1
  simp only at h1
  subst h1
  have h2 := parseSectHeaders_fst hostLE elf1 fp1
  rcases hr2 : _parseSectHeaders hostLE elf1 fp1 with ⟨ok2, elf2, fp2⟩
  rw [hr2] at h2
  simp only at h2
  subst h2
  simp [hr1, hr2]

theorem elfParse_header (hostLE : Bool) (fp : FP) (hs : SMALLEST_POSSIBLE_ELF ≤ fp.size)
    (hm : hasMagic fp._start fp.data = true) :
    ∃ elf, (elfParse hostLE fp).1 = some elf ∧ elf.header = headerAt fp._start fp.data := by
  rw [elfParse_ok hostLE fp hs hm]
  exact ⟨_, rfl, rfl⟩

end Assembly

/-! ## Closed forms of the table entries and of the tables -/

section TableForms

theorem parseSHEStringTable_eq (sh : ELF_SHEntry) (fp : FP) :
    _parseSHEStringTable sh fp
      = ({ sh with data := Data.bytes (bytesAt fp._start sh.offset sh.size) },
         fp.logged (span sh.offset sh.size)) := rfl

section EntryForms

attribute [local irreducible] FP.advance FP.seek FP.addDiag FP.peeked FP.logged memByte scalarAt
  identAt identDiag strncpyBytes strncpyReads noteAt noteReads bytesAt span

/-- Closed form of `_parseProgHeaderEntry`. -/
theorem parseProgHeaderEntry_eq (hostLE : Bool) (ph : ELF_PHEntry) (ident : ELF_Ident)
    (fp : FP) :
    _parseProgHeaderEntry hostLE ph ident fp
      = (true, phDecodeAt hostLE fp._start ident ph.flags fp.data,
         (fp.advance (phFixedLen ident)).logged
           (phPayloadReads hostLE fp._start (phEntryAt fp._start ident ph.flags fp.data Data.null))) := by
  unfold _parseProgHeaderEntry
  simp only [READ32_eq, READ64_eq, ite_read, advance_start, advance_data]
  simp only [advance_advance, Nat.add_assoc, phEntryAt, phDecodeAt, phPayloadAt, phPayloadReads,
    phFixedLen, strncpy_eq, parseNoteSection_eq]
  generalize wordSize ident = ws
  generalize (if (ident.class_ == ELF_CLASS_64_BIT) = true then 4 else 0) = lead
  generalize (if (ident.class_ == ELF_CLASS_32_BIT) = true then 4 else 0) = trail
  have e5t4 : ws + (ws + (ws + (ws + (ws + (trail + 4))))) = 5 * ws + (trail + 4) := by omega
  have e5t : ws + (ws + (ws + (ws + (ws + trail)))) = 5 * ws + trail := by omega
  have e5 : ws + (ws + (ws + (ws + ws))) = 5 * ws := by omega
  have e4 : ws + (ws + (ws + ws)) = 4 * ws := by omega
  have e3 : ws + (ws + ws) = 3 * ws := by omega
  have e2 : ws + ws = 2 * ws := by omega
  rw [e5t4, e5t, e5, e4, e3, e2]
  split
  · rename_i h
    simp only [h, if_true, advance_start]
  · split
    · rename_i h1 h2
      simp only [h1, h2, if_true, if_false, advance_start]
    · rename_i h1 h2
      simp only [h1, h2, if_false, logged_nil]

/-- Closed form of `_parseSectHeaderEntry`. -/
theorem parseSectHeaderEntry_eq (hostLE : Bool) (sh : ELF_SHEntry) (ident : ELF_Ident)
    (fp : FP) :
    _parseSectHeaderEntry hostLE sh ident fp
      = (true, shDecodeAt hostLE fp._start ident fp.data,
         (fp.advance (shFixedLen ident)).logged
           (shPayloadReads hostLE fp._start (shEntryAt fp._start ident fp.data Data.null))) := by
  unfold _parseSectHeaderEntry
  simp only [READ32_eq, READ64_eq, advance_start, advance_data]
  simp only [advance_advance, Nat.add_assoc, shEntryAt, shDecodeAt, shPayloadAt, shPayloadReads,
    shFixedLen, parseSHEStringTable_eq, parseNoteSection_eq]
  generalize wordSize ident = ws
  have e9 : 4 + (4 + (ws + (ws + (ws + (ws + (4 + (4 + (ws + ws)))))))) = 16 + 6 * ws := by omega
  have e8 : 4 + (4 + (ws + (ws + (ws + (ws + (4 + (4 + ws))))))) = 16 + 5 * ws := by omega
  have e7 : 4 + (4 + (ws + (ws + (ws + (ws + (4 + 4)))))) = 16 + 4 * ws := by omega
  have e6 : 4 + (4 + (ws + (ws + (ws + (ws + 4))))) = 12 + 4 * ws := by omega
  have e5 : 4 + (4 + (ws + (ws + (ws + ws)))) = 8 + 4 * ws := by omega
  have e4 : 4 + (4 + (ws + (ws + ws))) = 8 + 3 * ws := by omega
  have e3 : 4 + (4 + (ws + ws)) = 8 + 2 * ws := by omega
  have e2 : 4 + (4 + ws) = 8 + ws := by omega
  have e1 : (4 : Nat) + 4 = 8 := rfl
  rw [e9, e8, e7, e6, e5, e4, e3, e2, e1]
  split
  · rename_i h
    simp only [h, if_true, advance_start]
  · split
    · rename_i h1 h2
      simp only [h1, h2, if_true, if_false, advance_start]
    · rename_i h1 h2
      simp only [h1, h2, if_false, logged_nil]

end EntryForms

theorem range_succ_map {α : Type} (f : Nat → α) (n : Nat) :
    (List.range (n + 1)).map f = f 0 :: (List.range n).map fun i => f (i + 1) := by
  rw [List.range_succ_eq_map, List.map_cons, List.map_map]
  rfl

/-- Closed form of the loop of `_parseProgHeaders`: it never fails, it leaves
the memory and the heap as they are, and it fills `n` entries, entry `k` being
the one decoded at `fp.data + k * entrySize` into what entry `i + k` of the
table held. -/
theorem progHeaderLoop_eq (hostLE : Bool) (ident : ELF_Ident) (entrySize i n : Nat)
    (fp : FP) :
    (progHeaderLoop hostLE ident entrySize i n fp).1 = true ∧
    (progHeaderLoop hostLE ident entrySize i n fp).2.1
      = (List.range n).map
          (fun k => phDecodeAt hostLE fp._start ident (fp.heap.ph.getD (i + k) default).flags
            (fp.data + k * entrySize)) ∧
    (progHeaderLoop hostLE ident entrySize i n fp).2.2._start = fp._start ∧
    (progHeaderLoop hostLE ident entrySize i n fp).2.2.heap = fp.heap := by
  induction n generalizing i fp with
  | zero => exact ⟨rfl, rfl, rfl, rfl⟩
  | succ n ih =>
    unfold progHeaderLoop
    rw [parseProgHeaderEntry_eq]
    simp only [Bool.not_true, Bool.false_eq_true, if_false, logged_data]
    have h := ih (i + 1) { (fp.advance (phFixedLen ident)).logged
        (phPayloadReads hostLE fp._start
          (phEntryAt fp._start ident (fp.heap.ph.getD i default).flags fp.data Data.null)) with
      data := fp.data + entrySize }
    rcases hr : progHeaderLoop hostLE ident entrySize (i + 1) n
      { (fp.advance (phFixedLen ident)).logged
        (phPayloadReads hostLE fp._start
          (phEntryAt fp._start ident (fp.heap.ph.getD i default).flags fp.data Data.null)) with
      data := fp.data + entrySize } with ⟨ok, rest, fp2⟩
    rw [hr] at h
    simp only [logged_start, advance_start, logged_heap, advance_heap] at h
    obtain ⟨h1, h2, h3, h4⟩ := h
    refine ⟨h1, ?_, h3, h4⟩
    simp only
    rw [range_succ_map, h2]
    simp only [Nat.zero_mul, Nat.add_zero, List.cons.injEq, true_and]
    apply List.map_congr_left
    intro k _
    have e1 : i + 1 + k = i + (k + 1) := by omega
    have e2 : fp.data + entrySize + k * entrySize = fp.data + (k + 1) * entrySize := by
      rw [Nat.add_mul, Nat.one_mul]
      omega
    rw [e1, e2]

/-- Closed form of the loop of `_parseSectHeaders`. -/
theorem sectHeaderLoop_eq (hostLE : Bool) (ident : ELF_Ident) (entrySize i n : Nat)
    (fp : FP) :
    (sectHeaderLoop hostLE ident entrySize i n fp).1 = true ∧
    (sectHeaderLoop hostLE ident entrySize i n fp).2.1
      = (List.range n).map
          (fun k => shDecodeAt hostLE fp._start ident (fp.data + k * entrySize)) ∧
    (sectHeaderLoop hostLE ident entrySize i n fp).2.2._start = fp._start ∧
    (sectHeaderLoop hostLE ident entrySize i n fp).2.2.heap = fp.heap := by
  induction n generalizing i fp with
  | zero => exact ⟨rfl, rfl, rfl, rfl⟩
  | succ n ih =>
    unfold sectHeaderLoop
    rw [parseSectHeaderEntry_eq]
    simp only [Bool.not_true, Bool.false_eq_true, if_false, logged_data]
    have h := ih (i + 1) { (fp.advance (shFixedLen ident)).logged
        (shPayloadReads hostLE fp._start (shEntryAt fp._start ident fp.data Data.null)) with
      data := fp.data + entrySize }
    rcases hr : sectHeaderLoop hostLE ident entrySize (i + 1) n
      { (fp.advance (shFixedLen ident)).logged
        (shPayloadReads hostLE fp._start (shEntryAt fp._start ident fp.data Data.null)) with
      data := fp.data + entrySize } with ⟨ok, rest, fp2⟩
    rw [hr] at h
    simp only [logged_start, advance_start, logged_heap, advance_heap] at h
    obtain ⟨h1, h2, h3, h4⟩ := h
    refine ⟨h1, ?_, h3, h4⟩
    simp only
    rw [range_succ_map, h2]
    simp only [Nat.zero_mul, Nat.add_zero, List.cons.injEq, true_and]
    apply List.map_congr_left
    intro k _
    congr 1
    rw [Nat.add_mul, Nat.one_mul]
    omega

/-- Closed form of the program table `_parseProgHeaders` fills: entry `i` is
decoded at `offset + i * size` into what entry `i` of the fresh table held. -/
theorem parseProgHeaders_eq (hostLE : Bool) (elf : ELF) (fp : FP) :
    (_parseProgHeaders hostLE elf fp).2.1
      = { elf with
          ph := (List.range elf.header.progHeaderEntryNum).map fun i =>
            phDecodeAt hostLE fp._start elf.header.ident (fp.heap.ph.getD i default).flags
              (elf.header.progHeaderOffset + i * elf.header.progHeaderEntrySize) } ∧
    (_parseProgHeaders hostLE elf fp).2.2._start = fp._start ∧
    (_parseProgHeaders hostLE elf fp).2.2.heap = fp.heap := by
  unfold _parseProgHeaders
  have h := progHeaderLoop_eq hostLE elf.header.ident elf.header.progHeaderEntrySize 0
    elf.header.progHeaderEntryNum { fp with data := elf.header.progHeaderOffset }
  rcases hr : progHeaderLoop hostLE elf.header.ident elf.header.progHeaderEntrySize 0
    elf.header.progHeaderEntryNum { fp with data := elf.header.progHeaderOffset }
    with ⟨ok, ph, fp2⟩
  rw [hr] at h
  obtain ⟨_, h2, h3, h4⟩ := h
  simp only [Nat.zero_add] at h2 h3 h4
  simp only [hr, h2, h3, h4, and_self]

/-- Closed form of the section table `_parseSectHeaders` fills. -/
theorem parseSectHeaders_eq (hostLE : Bool) (elf : ELF) (fp : FP) :
    (_parseSectHeaders hostLE elf fp).2.1
      = { elf with
          sh := (List.range elf.header.sectHeaderEntryNum).map fun i =>
            shDecodeAt hostLE fp._start elf.header.ident
              (elf.header.sectHeaderOffset + i * elf.header.sectHeaderEntrySize) } ∧
    (_parseSectHeaders hostLE elf fp).2.2._start = fp._start ∧
    (_parseSectHeaders hostLE elf fp).2.2.heap = fp.heap := by
  unfold _parseSectHeaders
  have h := sectHeaderLoop_eq hostLE elf.header.ident elf.header.sectHeaderEntrySize 0
    elf.header.sectHeaderEntryNum { fp with data := elf.header.sectHeaderOffset }
  rcases hr : sectHeaderLoop hostLE elf.header.ident elf.header.sectHeaderEntrySize 0
    elf.header.sectHeaderEntryNum { fp with data := elf.header.sectHeaderOffset }
    with ⟨ok, sh, fp2⟩
  rw [hr] at h
  obtain ⟨_, h2, h3, h4⟩ := h
  simp only at h2 h3 h4
  simp only [hr, h2, h3, h4, and_self]

theorem afterHeader_start (fp : FP) : (afterHeader fp)._start = fp._start := rfl

theorem afterHeader_heap (fp : FP) : (afterHeader fp).heap = fp.heap := rfl

/-- The object `elfParse` returns on a file that passes both checks, in closed
form: the header, then entry `i` of each table decoded at `offset + i * size`;
the flags of a program entry, when they are not read, are those entry `i` of
the fresh table held. -/
theorem elfParse_closed (hostLE : Bool) (fp : FP) (hs : SMALLEST_POSSIBLE_ELF ≤ fp.size)
    (hm : hasMagic fp._start fp.data = true) :
    (elfParse hostLE fp).1
      = some
        { header := headerAt fp._start fp.data,
          ph := (List.range (headerAt fp._start fp.data).progHeaderEntryNum).map fun i =>
            phDecodeAt hostLE fp._start (headerAt fp._start fp.data).ident
              (fp.heap.ph.getD i default).flags
              ((headerAt fp._start fp.data).progHeaderOffset
                + i * (headerAt fp._start fp.data).progHeaderEntrySize),
          sh := (List.range (headerAt fp._start fp.data).sectHeaderEntryNum).map fun i =>
            shDecodeAt hostLE fp._start (headerAt fp._start fp.data).ident
              ((headerAt fp._start fp.data).sectHeaderOffset
                + i * (headerAt fp._start fp.data).sectHeaderEntrySize) } := by
  rw [elfParse_ok hostLE fp hs hm]
  have h1 := parseProgHeaders_eq hostLE ⟨headerAt fp._start fp.data, [], []⟩ (afterHeader fp)
  rw [(parseSectHeaders_eq hostLE _ _).1, h1.2.1, h1.1]
  simp only [afterHeader_start, afterHeader_heap]

end TableForms

section Agreement

theorem mem_span (o off n : Nat) : o ∈ span off n ↔ off ≤ o ∧ o < off + n := by
  simp only [span, List.mem_map, List.mem_range]
  constructor
  · rintro ⟨i, hi, rfl⟩
    omega
  · rintro ⟨h1, h2⟩
    exact ⟨o - off, by omega, by omega⟩

theorem agreeOn_append {a b : List Nat} {m1 m2 : List Nat} :
    agreeOn (a ++ b) m1 m2 ↔ agreeOn a m1 m2 ∧ agreeOn b m1 m2 := by
  simp only [agreeOn, List.mem_append]
  constructor
  · intro h
    exact ⟨fun o ho => h o (Or.inl ho), fun o ho => h o (Or.inr ho)⟩
  · rintro ⟨h1, h2⟩ o (ho | ho)
    · exact h1 o ho
    · exact h2 o ho

theorem agreeOn_span_mono {m1 m2 : List Nat} {off n off2 n2 : Nat}
    (h : agreeOn (span off n) m1 m2) (h1 : off ≤ off2) (h2 : off2 + n2 ≤ off + n) :
    agreeOn (span off2 n2) m1 m2 := by
  intro o ho
  rw [mem_span] at ho
  exact h o ((mem_span _ _ _).mpr ⟨by omega, by omega⟩)

theorem scalarAt_agree {m1 m2 : List Nat} (le : Bool) {off w : Nat}
    (h : agreeOn (span off w) m1 m2) : scalarAt m1 le off w = scalarAt m2 le off w := by
  unfold scalarAt
  congr 1
  apply List.map_congr_left
  intro i hi
  rw [h (off + i) ((mem_span _ _ _).mpr ⟨by omega, by simpa using hi⟩)]

theorem bytesAt_agree {m1 m2 : List Nat} {off w : Nat}
    (h : agreeOn (span off w) m1 m2) : bytesAt m1 off w = bytesAt m2 off w := by
  unfold bytesAt
  apply List.map_congr_left
  intro i hi
  exact h (off + i) ((mem_span _ _ _).mpr ⟨by omega, by simpa using hi⟩)

theorem strncpyBytes_agree {m1 m2 : List Nat} (src n : Nat)
    (h : agreeOn (strncpyReads m1 src n) m1 m2) :
    strncpyBytes m1 src n = strncpyBytes m2 src n := by
  induction n generalizing src with
  | zero => rfl
  | succ n ih =>
    unfold strncpyBytes
    unfold strncpyReads at h
    by_cases h0 : memByte m1 src = 0
    · rw [if_pos h0] at h
      have := h src (by simp)
      rw [if_pos h0, if_pos (this ▸ h0)]
    · rw [if_neg h0] at h
      have hs := h src (by simp)
      rw [if_neg h0, if_neg (hs ▸ h0), hs]
      congr 1
      exact ih (src + 1) (fun o ho => h o (List.mem_cons_of_mem _ ho))

theorem noteAt_agree {m1 m2 : List Nat} (hostLE : Bool) (a : Nat)
    (h : agreeOn (noteReads hostLE m1 a) m1 m2) : noteAt hostLE m1 a = noteAt hostLE m2 a := by
  unfold noteReads at h
  simp only [agreeOn_append] at h
  obtain ⟨h1, h2, h3, h4, h5⟩ := h
  have e1 := scalarAt_agree hostLE h1
  have e2 := scalarAt_agree hostLE h2
  have e3 := scalarAt_agree hostLE h3
  unfold noteAt
  rw [← e1, ← e2, ← e3, ← bytesAt_agree h4]
  by_cases hd : scalarAt m1 hostLE (a + 4) 4 > 0
  · rw [if_pos hd] at h5
    rw [if_pos hd, if_pos hd, bytesAt_agree h5]
  · rw [if_neg hd, if_neg hd]

theorem phEntryAt_agree {m1 m2 : List Nat} (ident : ELF_Ident) (flags0 off : Nat) (d : Data)
    (h : agreeOn (span off (phFixedLen ident)) m1 m2) :
    phEntryAt m1 ident flags0 off d = phEntryAt m2 ident flags0 off d := by
  unfold phFixedLen at h
  simp only [phEntryAt]
  generalize wordSize ident = ws at h ⊢
  by_cases c1 : (ident.class_ == ELF_CLASS_32_BIT) = true <;>
  by_cases c2 : (ident.class_ == ELF_CLASS_64_BIT) = true <;>
  simp only [c1, c2, if_true, if_false, Bool.false_eq_true] at h ⊢ <;>
  congr 1 <;>
  first
    | rfl
    | exact scalarAt_agree _ (agreeOn_span_mono h (by omega) (by omega))

theorem shEntryAt_agree {m1 m2 : List Nat} (ident : ELF_Ident) (off : Nat) (d : Data)
    (h : agreeOn (span off (shFixedLen ident)) m1 m2) :
    shEntryAt m1 ident off d = shEntryAt m2 ident off d := by
  unfold shFixedLen at h
  simp only [shEntryAt]
  generalize wordSize ident = ws at h ⊢
  congr 1 <;> exact scalarAt_agree _ (agreeOn_span_mono h (by omega) (by omega))

theorem phDecodeAt_agree {m1 m2 : List Nat} (hostLE : Bool) (ident : ELF_Ident)
    (flags0 off : Nat)
    (h : agreeOn (span off (phFixedLen ident)
      ++ phPayloadReads hostLE m1 (phEntryAt m1 ident flags0 off Data.null)) m1 m2) :
    phDecodeAt hostLE m1 ident flags0 off = phDecodeAt hostLE m2 ident flags0 off := by
  rw [agreeOn_append] at h
  obtain ⟨h1, h2⟩ := h
  unfold phDecodeAt
  rw [← phEntryAt_agree ident flags0 off _ h1, ← phEntryAt_agree ident flags0 off _ h1]
  congr 1
  unfold phPayloadReads at h2
  unfold phPayloadAt
  split
  · rename_i ht
    rw [if_pos ht] at h2
    rw [strncpyBytes_agree _ _ h2]
  · split
    · rename_i ht1 ht2
      rw [if_neg ht1, if_pos ht2] at h2
      rw [noteAt_agree _ _ h2]
    · rfl

theorem shDecodeAt_agree {m1 m2 : List Nat} (hostLE : Bool) (ident : ELF_Ident) (off : Nat)
    (h : agreeOn (span off (shFixedLen ident)
      ++ shPayloadReads hostLE m1 (shEntryAt m1 ident off Data.null)) m1 m2) :
    shDecodeAt hostLE m1 ident off = shDecodeAt hostLE m2 ident off := by
  rw [agreeOn_append] at h
  obtain ⟨h1, h2⟩ := h
  unfold shDecodeAt
  rw [← shEntryAt_agree ident off _ h1, ← shEntryAt_agree ident off _ h1]
  congr 1
  unfold shPayloadReads at h2
  unfold shPayloadAt
  split
  · rename_i ht
    rw [if_pos ht] at h2
    rw [bytesAt_agree h2]
  · split
    · rename_i ht1 ht2
      rw [if_neg ht1, if_pos ht2] at h2
      rw [noteAt_agree _ _ h2]
    · rfl

/-- The entry and the reads of `_parseProgHeaderEntry` started at `cursorAt`. -/
theorem parseProgHeaderEntry_cursorAt (hostLE : Bool) (ph : ELF_PHEntry) (ident : ELF_Ident)
    (mem : List Nat) (off : Nat) :
    (_parseProgHeaderEntry hostLE ph ident (cursorAt mem off)).2.1
      = phDecodeAt hostLE mem ident ph.flags off ∧
    (_parseProgHeaderEntry hostLE ph ident (cursorAt mem off)).2.2.reads
      = span off (phFixedLen ident)
        ++ phPayloadReads hostLE mem (phEntryAt mem ident ph.flags off Data.null) := by
  rw [parseProgHeaderEntry_eq]
  exact ⟨rfl, by simp [cursorAt, span]⟩

/-- The entry and the reads of `_parseSectHeaderEntry` started at `cursorAt`. -/
theorem parseSectHeaderEntry_cursorAt (hostLE : Bool) (sh : ELF_SHEntry) (ident : ELF_Ident)
    (mem : List Nat) (off : Nat) :
    (_parseSectHeaderEntry hostLE sh ident (cursorAt mem off)).2.1
      = shDecodeAt hostLE mem ident off ∧
    (_parseSectHeaderEntry hostLE sh ident (cursorAt mem off)).2.2.reads
      = span off (shFixedLen ident)
        ++ shPayloadReads hostLE mem (shEntryAt mem ident off Data.null) := by
  rw [parseSectHeaderEntry_eq]
  exact ⟨rfl, by simp [cursorAt, span]⟩

end Agreement

/-! ## Helper lemmas for the claims -/

section Helpers

theorem rangeChecked_beq_one (v : Nat) : (rangeChecked v 2 0 == 1) = (v == 1) := by
  unfold rangeChecked
  split
  · have : v ≠ 1 := by omega
    simp [this]
  · rfl

theorem isLE_identAt (mem : List Nat) (p : Nat) :
    isLE (identAt mem p) = (memByte mem (p + 1) == 1) := by
  simp only [isLE, identAt, ELF_ENDIAN_LITTLE_ENDIAN, ELF_ENDIAN_BIG_ENDIAN, ELF_ENDIAN_INVALID]
  exact rangeChecked_beq_one _

theorem wordSize_identAt (mem : List Nat) (p : Nat) :
    wordSize (identAt mem p) = if memByte mem p = 1 then 4 else 8 := by
  simp only [wordSize, identAt, ELF_CLASS_32_BIT, ELF_CLASS_64_BIT, ELF_CLASS_INVALID,
    rangeChecked_beq_one, beq_iff_eq]

theorem rangeChecked_two_zero (v : Nat) : rangeChecked v 2 0 = if v ≤ 2 then v else 0 := by
  unfold rangeChecked
  split <;> split <;> omega

theorem versionChecked_eq (v : Nat) : versionChecked v = if v = 1 then 1 else 0 := by
  unfold versionChecked ELF_VERSION_CURRENT ELF_VERSION_INVALID
  by_cases h : v = 1 <;> simp [h]

theorem scalarAt_four_lt (mem : List Nat) (le : Bool) (off : Nat) :
    scalarAt mem le off 4 < 2 ^ 32 := by
  have h0 := memByte_lt mem off
  have h1 := memByte_lt mem (off + 1)
  have h2 := memByte_lt mem (off + 2)
  have h3 := memByte_lt mem (off + 3)
  rw [scalarAt_four]
  split <;> norm_num <;> omega

theorem scalarAt_eight_lt (mem : List Nat) (le : Bool) (off : Nat) :
    scalarAt mem le off 8 < 2 ^ 64 := by
  have h0 := memByte_lt mem off
  have h1 := memByte_lt mem (off + 1)
  have h2 := memByte_lt mem (off + 2)
  have h3 := memByte_lt mem (off + 3)
  have h4 := memByte_lt mem (off + 4)
  have h5 := memByte_lt mem (off + 5)
  have h6 := memByte_lt mem (off + 6)
  have h7 := memByte_lt mem (off + 7)
  rw [scalarAt_eight]
  split <;> norm_num <;> omega

theorem afterHeader_reads (fp : FP) :
    (afterHeader fp).reads
      = fp.reads ++ ((List.range 4).map fun i => fp.data + i)
        ++ ((List.range 5).map fun i => fp.data + 4 + i)
        ++ ((List.range (24 + 3 * wordSize (identAt fp._start (fp.data + 4)))).map
            fun i => fp.data + 16 + i) := by
  simp only [afterHeader, addDiag_reads, advance_reads, seek_reads, peeked_reads, seek_data,
    advance_data, peeked_data]

theorem bytesAt_succ (mem : List Nat) (off n : Nat) :
    bytesAt mem off (n + 1) = memByte mem off :: bytesAt mem (off + 1) n := by
  unfold bytesAt
  rw [List.range_succ_eq_map]
  simp only [List.map_cons, List.map_map, Nat.add_zero, List.cons.injEq, true_and]
  apply List.map_congr_left
  intro i _
  simp only [Function.comp, Nat.succ_eq_add_one]
  congr 1
  omega

theorem bytesAt_length (mem : List Nat) (off n : Nat) : (bytesAt mem off n).length = n := by
  simp [bytesAt]

theorem interpPayload_length (mem : List Nat) (addr size : Nat) :
    (interpPayload mem addr size).length = size := by
  unfold interpPayload
  have h := (List.takeWhile_sublist (fun b => b != 0) (l := bytesAt mem addr size)).length_le
  rw [bytesAt_length] at h
  simp only [List.length_append, List.length_replicate]
  omega

theorem strncpyBytes_eq_interpPayload (mem : List Nat) (src n : Nat) :
    strncpyBytes mem src n = interpPayload mem src n := by
  induction n generalizing src with
  | zero => simp [strncpyBytes, interpPayload, bytesAt]
  | succ n ih =>
    unfold strncpyBytes
    by_cases h : memByte mem src = 0
    · rw [if_pos h]
      simp [interpPayload, bytesAt_succ, h]
    · rw [if_neg h, ih]
      have hl := (List.takeWhile_sublist (fun b => b != 0) (l := bytesAt mem (src + 1) n)).length_le
      rw [bytesAt_length] at hl
      simp only [interpPayload, bytesAt_succ, List.takeWhile_cons, bne_iff_ne, ne_eq, h,
        not_false_eq_true, decide_True, if_true, List.cons_append, List.length_cons,
        List.cons.injEq, true_and]
      congr 2
      omega

theorem elfParse_some (hostLE : Bool) (fp : FP) (elf : ELF)
    (h : (elfParse hostLE fp).1 = some elf) :
    SMALLEST_POSSIBLE_ELF ≤ fp.size ∧ hasMagic fp._start fp.data = true := by
  by_cases hs : fp.size < SMALLEST_POSSIBLE_ELF
  · rw [elfParse_small hostLE fp hs] at h
    exact absurd h (by simp)
  · have hs' : SMALLEST_POSSIBLE_ELF ≤ fp.size := by omega
    refine ⟨hs', ?_⟩
    cases hm : hasMagic fp._start fp.data
    · rw [elfParse_wrongMagic hostLE fp hs' hm] at h
      exact absurd h (by simp)
    · rfl

theorem parseEntryHeader_diag (header : ELF_Header) (fp : FP)
    (hm : hasMagic fp._start fp.data = true) :
    (_parseEntryHeader header fp).2.2.diag = fp.diag ++ headerDiag fp._start fp.data := by
  rw [parseEntryHeader_eq header fp hm]
  rfl

theorem warn_type_mem_identDiag (mem : List Nat) (p v : Nat) :
    Diag.warn "type" v ∉ identDiag mem p := by
  unfold identDiag
  simp only [List.mem_append, not_or]
  refine ⟨?_, ?_, ?_⟩ <;> split <;> simp

theorem scalarAt_two_lt (mem : List Nat) (le : Bool) (off : Nat) :
    scalarAt mem le off 2 < 2 ^ 16 := by
  have h0 := memByte_lt mem off
  have h1 := memByte_lt mem (off + 1)
  rw [scalarAt_two]
  split <;> norm_num <;> omega

theorem warn_mem_headerDiag_class (mem : List Nat) (off : Nat)
    (h : 2 < memByte mem (off + 4)) :
    Diag.warn "class" (memByte mem (off + 4)) ∈ headerDiag mem off := by
  simp [headerDiag, identDiag, ELF_CLASS_64_BIT, h]

theorem warn_mem_headerDiag_endianness (mem : List Nat) (off : Nat)
    (h : 2 < memByte mem (off + 5)) :
    Diag.warn "endianness" (memByte mem (off + 5)) ∈ headerDiag mem off := by
  simp [headerDiag, identDiag, ELF_ENDIAN_BIG_ENDIAN, h, Nat.add_assoc]

theorem warn_mem_headerDiag_identVersion (mem : List Nat) (off : Nat)
    (h : memByte mem (off + 6) ≠ 1) :
    Diag.warn "version" (memByte mem (off + 6)) ∈ headerDiag mem off := by
  simp [headerDiag, identDiag, ELF_VERSION_CURRENT, h, Nat.add_assoc]

theorem warn_mem_headerDiag_version (mem : List Nat) (off : Nat)
    (h : scalarAt mem (memByte mem (off + 5) == 1) (off + 20) 4 ≠ 1) :
    Diag.warn "version" (scalarAt mem (memByte mem (off + 5) == 1) (off + 20) 4)
      ∈ headerDiag mem off := by
  have hle : isLE (identAt mem (off + 4)) = (memByte mem (off + 5) == 1) := isLE_identAt _ _
  simp [headerDiag, ELF_VERSION_CURRENT, h, hle]

theorem warn_mem_headerDiag_type (mem : List Nat) (off : Nat)
    (h1 : 4 < scalarAt mem (memByte mem (off + 5) == 1) (off + 16) 2)
    (h2 : scalarAt mem (memByte mem (off + 5) == 1) (off + 16) 2 < 0xFE00) :
    Diag.warn "type" (scalarAt mem (memByte mem (off + 5) == 1) (off + 16) 2)
      ∈ headerDiag mem off := by
  have hle : isLE (identAt mem (off + 4)) = (memByte mem (off + 5) == 1) := isLE_identAt _ _
  simp [headerDiag, ELF_ET_CORE, ELF_ET_LOOS, h1, h2, hle]

theorem ehTypeDump_unknown (t : Nat) (h1 : 4 < t) (h2 : t < 0xFE00) :
    _ehTypeDump t = "Unknown type \x27" ++ toString t ++ "\x27\n" := by
  unfold _ehTypeDump
  simp only [ELF_ET_NONE, ELF_ET_RELOCATABLE, ELF_ET_EXECUTABLE, ELF_ET_DYNAMIC, ELF_ET_CORE,
    ELF_ET_LOOS, ELF_ET_HIOS, ELF_ET_LOPROC, ELF_ET_HIPROC]
  rw [if_neg (by omega), if_neg (by omega), if_neg (by omega), if_neg (by omega),
    if_neg (by omega), if_neg (by omega), if_neg (by omega)]

set_option maxRecDepth 1000000 in
theorem fmt02x_data : ∀ b, b < 256 → (fmt02x b).data = [hexDigit (b / 16), hexDigit (b % 16)] := by
  decide

theorem fmt02x_mod (b : Nat) : fmt02x b = fmt02x (b % 256) := by
  simp [fmt02x]

theorem foldl_append_data (f : Nat → String) (n : Nat) (init : String) :
    (List.range n).foldl (fun out i => out ++ f i) init
      = init ++ String.mk ((List.range n).flatMap fun i => (f i).data) := by
  induction n with
  | zero => exact String.ext (by simp)
  | succ n ih =>
    rw [List.range_succ, List.foldl_append, ih]
    exact String.ext (by simp)

theorem pairs_length (a b : Nat → Char) (n : Nat) :
    ((List.range n).flatMap fun i => [a i, b i]).length = 2 * n := by
  induction n with
  | zero => rfl
  | succ n ih =>
    rw [List.range_succ, List.flatMap_append, List.length_append, ih]
    simp
    omega

theorem pairs_get (a b : Nat → Char) (n i : Nat) (h : i < n) :
    ((List.range n).flatMap fun i => [a i, b i])[2 * i]? = some (a i) ∧
    ((List.range n).flatMap fun i => [a i, b i])[2 * i + 1]? = some (b i) := by
  induction n with
  | zero => omega
  | succ n ih =>
    rw [List.range_succ, List.flatMap_append]
    have hl := pairs_length a b n
    by_cases hi : i < n
    · rw [List.getElem?_append_left (by omega), List.getElem?_append_left (by omega)]
      exact ih hi
    · have he : i = n := by omega
      subst he
      rw [List.getElem?_append_right (by omega), List.getElem?_append_right (by omega), hl]
      simp

theorem strcmpEq_GNU_true (name : List Nat) :
    strcmpEq name [0x47, 0x4E, 0x55] = some true ↔ name.take 4 = [0x47, 0x4E, 0x55, 0] := by
  rcases name with _ | ⟨a, _ | ⟨b, _ | ⟨c, _ | ⟨d, t⟩⟩⟩⟩
  · simp [strcmpEq]
  · by_cases ha : a = 0x47 <;> simp [strcmpEq, ha]
  · by_cases ha : a = 0x47 <;> by_cases hb : b = 0x4E <;> simp [strcmpEq, ha, hb]
  · by_cases ha : a = 0x47 <;> by_cases hb : b = 0x4E <;> by_cases hc : c = 0x55 <;>
      simp [strcmpEq, ha, hb, hc]
  · by_cases ha : a = 0x47 <;> by_cases hb : b = 0x4E <;> by_cases hc : c = 0x55 <;>
      simp [strcmpEq, ha, hb, hc]

theorem buildID_closed (note : ELF_Note) (d : List Nat) (hd : note.desc = some d)
    (hl : d.length = note.descsz) :
    _elfNoteDescBuildIDDump note
      = some ("Build ID: " ++ String.mk ((List.range note.descsz).flatMap fun i =>
          [hexDigit (d.getD i 0 % 256 / 16), hexDigit (d.getD i 0 % 16)])) := by
  unfold _elfNoteDescBuildIDDump
  by_cases h0 : note.descsz = 0
  · rw [if_pos h0, h0]
    rfl
  · rw [if_neg h0, hd]
    simp only
    rw [if_neg (by omega), foldl_append_data]
    congr 3
    apply List.flatMap_congr
    intro i _
    rw [fmt02x_mod, fmt02x_data _ (Nat.mod_lt _ (by decide))]
    rw [Nat.mod_mod_of_dvd _ (by decide : 16 ∣ 256)]

theorem buildID_form (note : ELF_Note) (out : String)
    (h : _elfNoteDescBuildIDDump note = some out) : ∃ s, out = "Build ID: " ++ s := by
  unfold _elfNoteDescBuildIDDump at h
  split at h
  · exact ⟨"", by simpa using h.symm⟩
  · split at h
    · exact absurd h (by simp)
    · split at h
      · exact absurd h (by simp)
      · rw [foldl_append_data] at h
        exact ⟨_, (Option.some.inj h).symm⟩

theorem abi_form (hostLE : Bool) (note : ELF_Note) (out : String)
    (h : _elfNoteDescABIDump hostLE note = some out) : ∃ s, out = "Expects " ++ s := by
  unfold _elfNoteDescABIDump at h
  split at h
  · exact absurd h (by simp)
  · split at h
    · exact absurd h (by simp)
    · simp only [Option.some.injEq] at h
      exact ⟨_, by rw [← h]; simp only [String.append_assoc]; exact rfl⟩

theorem cstrAt_of_drop (b : List Nat) (i : Nat) (name rest : List Nat)
    (hd : b.drop i = name ++ 0 :: rest) (hn : 0 ∉ name) : cstrAt b i = some name := by
  unfold cstrAt
  rw [hd, if_pos (by simp)]
  congr 1
  rw [List.takeWhile_append_of_pos]
  · simp
  · intro x hx
    have : x ≠ 0 := fun h => hn (h ▸ hx)
    simpa using this

theorem isOpt_eq (cmd : String) (argS : Char) (argL : String)
    (h0 : cmd.data[0]? = some '-') (hS : argS ≠ '-') (hL : argL.data ≠ []) :
    _isOpt cmd argS argL
      = Except.ok (decide (cmd = String.mk ['-', argS] ∨ cmd = "--" ++ argL)) := by
  unfold _isOpt
  rw [if_neg (by simp [h0])]
  rcases cmd with ⟨l⟩
  rcases l with _ | ⟨c0, l⟩
  · simp at h0
  · simp only [List.getElem?_cons_zero, Option.some.injEq] at h0
    subst h0
    rcases l with _ | ⟨c1, l⟩
    · simp [String.ext_iff]
    · rcases l with _ | ⟨c2, l⟩
      · by_cases h1 : c1 = argS
        · simp [String.ext_iff, h1]
        · by_cases h2 : c1 = '-'
          · simp [String.ext_iff, h1, h2, hL, Ne.symm hS]
          · simp [String.ext_iff, h1, h2]
      · by_cases h2 : c1 = '-'
        · subst h2
          simp [String.ext_iff, Ne.symm hS]
        · simp [String.ext_iff, h2]

theorem optMask_cases (o : String) (m : Nat) (h : optMask o = some m) :
    (m = 7 ∧ (o = "-a" ∨ o = "--all")) ∨ (m = 1 ∧ (o = "-h" ∨ o = "--header"))
      ∨ (m = 2 ∧ (o = "-p" ∨ o = "--program")) ∨ (m = 4 ∧ (o = "-s" ∨ o = "--section")) := by
  unfold optMask at h
  split at h
  · exact Or.inl ⟨(Option.some.inj h).symm, ‹_›⟩
  · split at h
    · exact Or.inr (Or.inl ⟨(Option.some.inj h).symm, ‹_›⟩)
    · split at h
      · exact Or.inr (Or.inr (Or.inl ⟨(Option.some.inj h).symm, ‹_›⟩))
      · split at h
        · exact Or.inr (Or.inr (Or.inr ⟨(Option.some.inj h).symm, ‹_›⟩))
        · exact absurd h (by simp)

theorem lor_seven (a : Nat) (h : a ≤ 7) : a ||| 7 = 7 := by
  interval_cases a <;> rfl

theorem lor_mask_le (a m : Nat) (ha : a ≤ 7) (hm : m = 7 ∨ m = 1 ∨ m = 2 ∨ m = 4) :
    a ||| m ≤ 7 ∧ a ||| m ≠ 0 := by
  rcases hm with rfl | rfl | rfl | rfl <;> interval_cases a <;> decide

theorem mainLoop_file (F : String) (rest : List String) (flags : Nat)
    (hF : F.data[0]? ≠ some '-') : mainLoop (F :: rest) flags = Except.ok (some F, flags) := by
  unfold mainLoop
  rw [if_pos hF]

theorem mainLoop_opt (o : String) (m : Nat) (argv : List String) (flags : Nat)
    (h : optMask o = some m) (hf : flags ≤ 7) :
    mainLoop (o :: argv) flags = mainLoop argv (flags ||| m) := by
  rcases optMask_cases o m h with ⟨rfl, rfl | rfl⟩ | ⟨rfl, rfl | rfl⟩ | ⟨rfl, rfl | rfl⟩
    | ⟨rfl, rfl | rfl⟩
  all_goals first
    | (rw [lor_seven flags hf]; rfl)
    | rfl

theorem mainLoop_unknown (x : String) (rest : List String) (flags : Nat)
    (h0 : x.data[0]? = some '-') (hx : optMask x = none) :
    mainLoop (x :: rest) flags = Except.error ("unknown option \x27" ++ x ++ "\x27\n\n") := by
  have ha : ¬ (x = "-a" ∨ x = "--all") := by
    intro h; simp [optMask, h] at hx
  have hh : ¬ (x = "-h" ∨ x = "--header") := by
    intro h; simp [optMask, h, ha] at hx
  have hp : ¬ (x = "-p" ∨ x = "--program") := by
    intro h; simp [optMask, h, ha, hh] at hx
  have hs : ¬ (x = "-s" ∨ x = "--section") := by
    intro h; simp [optMask, h, ha, hh, hp] at hx
  unfold mainLoop
  rw [if_neg (by simp [h0]), isOpt_eq x _ _ h0 (by decide) (by decide),
    isOpt_eq x _ _ h0 (by decide) (by decide), isOpt_eq x _ _ h0 (by decide) (by decide),
    isOpt_eq x _ _ h0 (by decide) (by decide)]
  have e1 : decide (x = String.mk ['-', 'a'] ∨ x = "--" ++ "all") = false :=
    decide_eq_false ha
  have e2 : decide (x = String.mk ['-', 'h'] ∨ x = "--" ++ "header") = false :=
    decide_eq_false hh
  have e3 : decide (x = String.mk ['-', 'p'] ∨ x = "--" ++ "program") = false :=
    decide_eq_false hp
  have e4 : decide (x = String.mk ['-', 's'] ∨ x = "--" ++ "section") = false :=
    decide_eq_false hs
  rw [e1, e2, e3, e4]

theorem mainLoop_opts (opts tail : List String) (flags : Nat)
    (hopts : ∀ o ∈ opts, (optMask o).isSome = true) (hf : flags ≤ 7) :
    mainLoop (opts ++ tail) flags
      = mainLoop tail (opts.foldl (fun acc o => acc ||| (optMask o).getD 0) flags) ∧
    opts.foldl (fun acc o => acc ||| (optMask o).getD 0) flags ≤ 7 ∧
    (opts ≠ [] → opts.foldl (fun acc o => acc ||| (optMask o).getD 0) flags ≠ 0) := by
  induction opts generalizing flags with
  | nil => exact ⟨rfl, hf, fun h => absurd rfl h⟩
  | cons o opts ih =>
    obtain ⟨m, hm⟩ := Option.isSome_iff_exists.1 (hopts o (List.mem_cons_self _ _))
    have hc := optMask_cases o m hm
    have hmm : m = 7 ∨ m = 1 ∨ m = 2 ∨ m = 4 := by
      rcases hc with ⟨h, _⟩ | ⟨h, _⟩ | ⟨h, _⟩ | ⟨h, _⟩ <;> simp [h]
    have hl := lor_mask_le flags m hf hmm
    have ih' := ih (flags ||| m) (fun o ho => hopts o (List.mem_cons_of_mem _ ho)) hl.1
    rw [List.cons_append, mainLoop_opt o m _ flags hm hf, List.foldl_cons, hm]
    refine ⟨ih'.1, ih'.2.1, fun _ => ?_⟩
    simp only [Option.getD_some]
    by_cases he : opts = []
    · subst he
      exact hl.2
    · exact ih'.2.2 he

theorem scalarAt_above (mem mem2 : List Nat) (p : Nat)
    (hag : ∀ o, o ≠ p → memByte mem2 o = memByte mem o) (le : Bool) (off w : Nat)
    (h : p < off) : scalarAt mem2 le off w = scalarAt mem le off w := by
  apply scalarAt_agree
  intro o ho
  rw [mem_span] at ho
  exact hag o (by omega)

theorem phDecodeAt_ident (hostLE : Bool) (mem : List Nat) (i1 i2 : ELF_Ident)
    (flags0 off : Nat) (hc : i1.class_ = i2.class_) (hl : isLE i1 = isLE i2) :
    phDecodeAt hostLE mem i1 flags0 off = phDecodeAt hostLE mem i2 flags0 off := by
  have hw : wordSize i1 = wordSize i2 := by simp [wordSize, hc]
  simp only [phDecodeAt, phEntryAt, hc, hl, hw]

theorem shDecodeAt_ident (hostLE : Bool) (mem : List Nat) (i1 i2 : ELF_Ident)
    (off : Nat) (hc : i1.class_ = i2.class_) (hl : isLE i1 = isLE i2) :
    shDecodeAt hostLE mem i1 off = shDecodeAt hostLE mem i2 off := by
  have hw : wordSize i1 = wordSize i2 := by simp [wordSize, hc]
  simp only [shDecodeAt, shEntryAt, hl, hw]

theorem phFixedLen_ident (i1 i2 : ELF_Ident) (hc : i1.class_ = i2.class_) :
    phFixedLen i1 = phFixedLen i2 := by
  simp [phFixedLen, wordSize, hc]

theorem headerAt_endianness (mem mem2 : List Nat) (d : Nat)
    (h5 : memByte mem (d + 5) = 2)
    (h5' : memByte mem2 (d + 5) = 0 ∨ 2 < memByte mem2 (d + 5))
    (hag : ∀ o, o ≠ d + 5 → memByte mem2 o = memByte mem o) :
    (headerAt mem d).ident.endianness = ELF_ENDIAN_BIG_ENDIAN ∧
    headerAt mem2 d
      = { headerAt mem d with
          ident := { (headerAt mem d).ident with endianness := ELF_ENDIAN_INVALID } } ∧
    isLE (headerAt mem2 d).ident = isLE (headerAt mem d).ident := by
  have hle1 : isLE (identAt mem (d + 4)) = false := by
    rw [isLE_identAt, Nat.add_assoc, h5]
    rfl
  have hle2 : isLE (identAt mem2 (d + 4)) = false := by
    rw [isLE_identAt, Nat.add_assoc]
    rcases h5' with h | h
    · rw [h]; rfl
    · simp; omega
  have hws : wordSize (identAt mem2 (d + 4)) = wordSize (identAt mem (d + 4)) := by
    rw [wordSize_identAt, wordSize_identAt, hag _ (by omega)]
  have he1 : rangeChecked (memByte mem (d + 4 + 1)) ELF_ENDIAN_BIG_ENDIAN ELF_ENDIAN_INVALID
      = ELF_ENDIAN_BIG_ENDIAN := by
    rw [Nat.add_assoc, h5]
    rfl
  have he2 : rangeChecked (memByte mem2 (d + 4 + 1)) ELF_ENDIAN_BIG_ENDIAN ELF_ENDIAN_INVALID
      = ELF_ENDIAN_INVALID := by
    rw [Nat.add_assoc]
    unfold rangeChecked
    rcases h5' with h | h
    · rw [h]; rfl
    · exact if_pos h
  refine ⟨he1, ?_, ?_⟩
  · simp only [headerAt, hle1, hle2, hws]
    generalize wordSize (identAt mem (d + 4)) = ws
    simp only [identAt, he2, hag (d + 4) (by omega), hag (d + 4 + 2) (by omega),
      hag (d + 4 + 3) (by omega), hag (d + 4 + 4) (by omega),
      scalarAt_above mem mem2 (d + 5) hag false _ _ (show d + 5 < d + 16 by omega),
      scalarAt_above mem mem2 (d + 5) hag false _ _ (show d + 5 < d + 18 by omega),
      scalarAt_above mem mem2 (d + 5) hag false _ _ (show d + 5 < d + 20 by omega),
      scalarAt_above mem mem2 (d + 5) hag false _ _ (show d + 5 < d + 24 by omega),
      scalarAt_above mem mem2 (d + 5) hag false _ _ (show d + 5 < d + 24 + ws by omega),
      scalarAt_above mem mem2 (d + 5) hag false _ _ (show d + 5 < d + 24 + 2 * ws by omega),
      scalarAt_above mem mem2 (d + 5) hag false _ _ (show d + 5 < d + 24 + 3 * ws by omega),
      scalarAt_above mem mem2 (d + 5) hag false _ _ (show d + 5 < d + 28 + 3 * ws by omega),
      scalarAt_above mem mem2 (d + 5) hag false _ _ (show d + 5 < d + 30 + 3 * ws by omega),
      scalarAt_above mem mem2 (d + 5) hag false _ _ (show d + 5 < d + 32 + 3 * ws by omega),
      scalarAt_above mem mem2 (d + 5) hag false _ _ (show d + 5 < d + 34 + 3 * ws by omega),
      scalarAt_above mem mem2 (d + 5) hag false _ _ (show d + 5 < d + 36 + 3 * ws by omega),
      scalarAt_above mem mem2 (d + 5) hag false _ _ (show d + 5 < d + 38 + 3 * ws by omega)]
  · show isLE (identAt mem2 (d + 4)) = isLE (identAt mem (d + 4))
    rw [hle1, hle2]

theorem getElem?_map_range {α : Type} (f : Nat → α) (n i : Nat) (h : i < n) :
    ((List.range n).map f)[i]? = some (f i) := by
  simp [h]

/-- The payload of a program entry and the bytes read for it do not depend on
the flags the entry held before. -/
theorem phPayloadReads_flags (hostLE : Bool) (mem : List Nat) (ident : ELF_Ident)
    (f g off : Nat) :
    phPayloadReads hostLE mem (phEntryAt mem ident f off Data.null)
      = phPayloadReads hostLE mem (phEntryAt mem ident g off Data.null) := rfl

/-- Apart from its flags, the program entry decoded at `off` does not depend on
the flags the entry held before. -/
theorem phDecodeAt_clearFlags (hostLE : Bool) (mem : List Nat) (ident : ELF_Ident)
    (f g off : Nat) :
    { phDecodeAt hostLE mem ident f off with flags := 0 }
      = { phDecodeAt hostLE mem ident g off with flags := 0 } := rfl

/-- With the class 32-bit or 64-bit the flags are read from the buffer: the
program entry decoded at `off` does not depend on the flags the entry held
before. -/
theorem phDecodeAt_flags_of_class (hostLE : Bool) (mem : List Nat) (ident : ELF_Ident)
    (f g off : Nat) (hc : ident.class_ = ELF_CLASS_32_BIT ∨ ident.class_ = ELF_CLASS_64_BIT) :
    phDecodeAt hostLE mem ident f off = phDecodeAt hostLE mem ident g off := by
  rcases hc with hc | hc <;> simp [phDecodeAt, phEntryAt, hc, ELF_CLASS_32_BIT, ELF_CLASS_64_BIT]

/-- With any other class the flags are those the entry held before. -/
theorem phDecodeAt_flags_noClass (hostLE : Bool) (mem : List Nat) (ident : ELF_Ident)
    (f off : Nat) (h1 : ident.class_ ≠ ELF_CLASS_32_BIT) (h2 : ident.class_ ≠ ELF_CLASS_64_BIT) :
    (phDecodeAt hostLE mem ident f off).flags = f := by
  simp [phDecodeAt, phEntryAt, h1, h2]

/-- The type of the program entry decoded at `off` is the 4-byte tag at `off`. -/
theorem phDecodeAt_type (hostLE : Bool) (mem : List Nat) (ident : ELF_Ident) (f off : Nat) :
    (phDecodeAt hostLE mem ident f off).type = scalarAt mem (isLE ident) off 4 := rfl

/-- The type of the section entry decoded at `off` is the 4-byte tag at
`off + 4`. -/
theorem shDecodeAt_type (hostLE : Bool) (mem : List Nat) (ident : ELF_Ident) (off : Nat) :
    (shDecodeAt hostLE mem ident off).type = scalarAt mem (isLE ident) (off + 4) 4 := rfl

/-- The loop of `_parseProgHeaders` only adds to the log of reads. -/
theorem progHeaderLoop_reads (hostLE : Bool) (ident : ELF_Ident) (entrySize i n : Nat)
    (fp : FP) :
    ∃ rs, (progHeaderLoop hostLE ident entrySize i n fp).2.2.reads = fp.reads ++ rs := by
  induction n generalizing i fp with
  | zero => exact ⟨[], by simp [progHeaderLoop]⟩
  | succ n ih =>
    unfold progHeaderLoop
    rw [parseProgHeaderEntry_eq]
    simp only [Bool.not_true, Bool.false_eq_true, if_false, logged_data]
    obtain ⟨rs, h⟩ := ih (i + 1) { (fp.advance (phFixedLen ident)).logged
        (phPayloadReads hostLE fp._start
          (phEntryAt fp._start ident (fp.heap.ph.getD i default).flags fp.data Data.null)) with
      data := fp.data + entrySize }
    rcases hr : progHeaderLoop hostLE ident entrySize (i + 1) n
      { (fp.advance (phFixedLen ident)).logged
        (phPayloadReads hostLE fp._start
          (phEntryAt fp._start ident (fp.heap.ph.getD i default).flags fp.data Data.null)) with
      data := fp.data + entrySize } with ⟨ok, rest, fp2⟩
    rw [hr] at h
    simp only [logged_reads, advance_reads] at h
    exact ⟨_, h.trans (by rw [List.append_assoc, List.append_assoc])⟩

/-- The loop of `_parseSectHeaders` only adds to the log of reads. -/
theorem sectHeaderLoop_reads (hostLE : Bool) (ident : ELF_Ident) (entrySize i n : Nat)
    (fp : FP) :
    ∃ rs, (sectHeaderLoop hostLE ident entrySize i n fp).2.2.reads = fp.reads ++ rs := by
  induction n generalizing i fp with
  | zero => exact ⟨[], by simp [sectHeaderLoop]⟩
  | succ n ih =>
    unfold sectHeaderLoop
    rw [parseSectHeaderEntry_eq]
    simp only [Bool.not_true, Bool.false_eq_true, if_false, logged_data]
    obtain ⟨rs, h⟩ := ih (i + 1) { (fp.advance (shFixedLen ident)).logged
        (shPayloadReads hostLE fp._start (shEntryAt fp._start ident fp.data Data.null)) with
      data := fp.data + entrySize }
    rcases hr : sectHeaderLoop hostLE ident entrySize (i + 1) n
      { (fp.advance (shFixedLen ident)).logged
        (shPayloadReads hostLE fp._start (shEntryAt fp._start ident fp.data Data.null)) with
      data := fp.data + entrySize } with ⟨ok, rest, fp2⟩
    rw [hr] at h
    simp only [logged_reads, advance_reads] at h
    exact ⟨_, h.trans (by rw [List.append_assoc, List.append_assoc])⟩

/-- On a buffer that passes both checks, the bytes `elfParse` reads are those
of the entry header followed by those of the tables. -/
theorem elfParse_reads (hostLE : Bool) (fp : FP) (hs : SMALLEST_POSSIBLE_ELF ≤ fp.size)
    (hm : hasMagic fp._start fp.data = true) :
    ∃ rs, (elfParse hostLE fp).2.reads = (afterHeader fp).reads ++ rs := by
  rw [elfParse_ok hostLE fp hs hm]
  unfold _parseSectHeaders _parseProgHeaders
  simp only
  obtain ⟨r1, h1⟩ := progHeaderLoop_reads hostLE (headerAt fp._start fp.data).ident
    (headerAt fp._start fp.data).progHeaderEntrySize 0
    (headerAt fp._start fp.data).progHeaderEntryNum
    { afterHeader fp with data := (headerAt fp._start fp.data).progHeaderOffset }
  obtain ⟨r2, h2⟩ := sectHeaderLoop_reads hostLE (headerAt fp._start fp.data).ident
    (headerAt fp._start fp.data).sectHeaderEntrySize 0
    (headerAt fp._start fp.data).sectHeaderEntryNum
    { (progHeaderLoop hostLE (headerAt fp._start fp.data).ident
        (headerAt fp._start fp.data).progHeaderEntrySize 0
        (headerAt fp._start fp.data).progHeaderEntryNum
        { afterHeader fp with data := (headerAt fp._start fp.data).progHeaderOffset }).2.2 with
      data := (headerAt fp._start fp.data).sectHeaderOffset }
  refine ⟨r1 ++ r2, ?_⟩
  rw [h2]
  simp only
  rw [h1, List.append_assoc]

/-- Whether the call of `elfFree` that follows a wrong magic is defined: it is
only when the fresh `ELF` holds zero for both entry counts and NULL for both
table pointers. -/
theorem elfParse_wrongMagic_undefined (hostLE : Bool) (fp : FP)
    (hs : SMALLEST_POSSIBLE_ELF ≤ fp.size) (hm : hasMagic fp._start fp.data = false)
    (hu : fp.undefined = false) :
    (elfParse hostLE fp).2.undefined = false ↔
      (fp.heap.elfHeader.progHeaderEntryNum = 0 ∧ fp.heap.elfPh = 0
        ∧ fp.heap.elfHeader.sectHeaderEntryNum = 0 ∧ fp.heap.elfSh = 0) := by
  rw [elfParse_wrongMagic hostLE fp hs hm]
  simp only [elfFree, tableFreed]
  by_cases h : fp.heap.elfHeader.progHeaderEntryNum = 0 ∧ fp.heap.elfPh = 0
        ∧ fp.heap.elfHeader.sectHeaderEntryNum = 0 ∧ fp.heap.elfSh = 0
  · obtain ⟨a, b, c, d⟩ := h
    simp [a, b, c, d, hu, FP.addDiag, FP.peeked]
  · simp only [h, iff_false]
    have : ¬((fp.heap.elfHeader.progHeaderEntryNum == 0 && fp.heap.elfPh == 0
        && (fp.heap.elfHeader.sectHeaderEntryNum == 0 && fp.heap.elfSh == 0)) = true) := by
      simpa [and_assoc] using h
    rw [if_neg this]
    simp

/-- The bytes `strncpy` stores: as many as asked for. -/
theorem strncpyBytes_length (mem : List Nat) (src n : Nat) :
    (strncpyBytes mem src n).length = n := by
  rw [strncpyBytes_eq_interpPayload, interpPayload_length]

theorem count_warn_type_identDiag (mem : List Nat) (p v : Nat) :
    List.count (Diag.warn "type" v) (identDiag mem p) = 0 :=
  List.count_eq_zero_of_not_mem (warn_type_mem_identDiag mem p v)

/-- Table decoding is entry-size driven.  For the program table and for the
section table, with offset `T`, entry size `S` and count `N` taken from the
header: the decoded table has `N` entries; entry `i` is what the entry decoder
returns on a cursor placed at `T + i * S`, given what entry `i` of the fresh
table held; decoding an entry at `off` reads the fixed fields, the
`phFixedLen` (`shFixedLen`) bytes from `off`, and the bytes of its payload;
and a buffer `mem2` that agrees with the file on the bytes read for each of
the `N` entries decodes, whatever the fresh tables held, to the same section
table, to the same program table apart from the flags, and to the same
program table when the class is 32-bit or 64-bit. -/
theorem tables_entry_size_driven (hostLE : Bool) (elf : ELF) (fp : FP) (mem2 : List Nat)
    (heap2 : Heap) :
    ((_parseProgHeaders hostLE elf fp).2.1.ph.length = elf.header.progHeaderEntryNum ∧
     (_parseProgHeaders hostLE elf fp).2.1.ph
       = (List.range elf.header.progHeaderEntryNum).map (fun i =>
           (_parseProgHeaderEntry hostLE (fp.heap.ph.getD i default) elf.header.ident
             (cursorAt fp._start
               (elf.header.progHeaderOffset + i * elf.header.progHeaderEntrySize))).2.1) ∧
     (∀ ph off,
       (_parseProgHeaderEntry hostLE ph elf.header.ident (cursorAt fp._start off)).2.2.reads
         = span off (phFixedLen elf.header.ident)
           ++ phPayloadReads hostLE fp._start
               (_parseProgHeaderEntry hostLE ph elf.header.ident
                 (cursorAt fp._start off)).2.1) ∧
     ((∀ i, i < elf.header.progHeaderEntryNum →
         agreeOn
           (_parseProgHeaderEntry hostLE (fp.heap.ph.getD i default) elf.header.ident
             (cursorAt fp._start
               (elf.header.progHeaderOffset + i * elf.header.progHeaderEntrySize))).2.2.reads
           fp._start mem2) →
       (_parseProgHeaders hostLE elf { fp with _start := mem2, heap := heap2 }).2.1.ph.map
           (fun e => { e with flags := 0 })
         = (_parseProgHeaders hostLE elf fp).2.1.ph.map (fun e => { e with flags := 0 }) ∧
       ((elf.header.ident.class_ = ELF_CLASS_32_BIT
           ∨ elf.header.ident.class_ = ELF_CLASS_64_BIT) →
         (_parseProgHeaders hostLE elf { fp with _start := mem2, heap := heap2 }).2.1.ph
           = (_parseProgHeaders hostLE elf fp).2.1.ph))) ∧
    ((_parseSectHeaders hostLE elf fp).2.1.sh.length = elf.header.sectHeaderEntryNum ∧
     (_parseSectHeaders hostLE elf fp).2.1.sh
       = (List.range elf.header.sectHeaderEntryNum).map (fun i =>
           (_parseSectHeaderEntry hostLE (fp.heap.sh.getD i default) elf.header.ident
             (cursorAt fp._start
               (elf.header.sectHeaderOffset + i * elf.header.sectHeaderEntrySize))).2.1) ∧
     (∀ sh off,
       (_parseSectHeaderEntry hostLE sh elf.header.ident (cursorAt fp._start off)).2.2.reads
         = span off (shFixedLen elf.header.ident)
           ++ shPayloadReads hostLE fp._start
               (_parseSectHeaderEntry hostLE sh elf.header.ident
                 (cursorAt fp._start off)).2.1) ∧
     ((∀ i, i < elf.header.sectHeaderEntryNum →
         agreeOn
           (_parseSectHeaderEntry hostLE (fp.heap.sh.getD i default) elf.header.ident
             (cursorAt fp._start
               (elf.header.sectHeaderOffset + i * elf.header.sectHeaderEntrySize))).2.2.reads
           fp._start mem2) →
       (_parseSectHeaders hostLE elf { fp with _start := mem2, heap := heap2 }).2.1.sh
         = (_parseSectHeaders hostLE elf fp).2.1.sh)) := by
  refine ⟨⟨?_, ?_, ?_, ?_⟩, ⟨?_, ?_, ?_, ?_⟩⟩
  · rw [(parseProgHeaders_eq hostLE elf fp).1]
    simp
  · rw [(parseProgHeaders_eq hostLE elf fp).1]
    simp only [(parseProgHeaderEntry_cursorAt hostLE _ _ _ _).1]
  · intro ph off
    rw [(parseProgHeaderEntry_cursorAt hostLE _ _ _ _).2,
      (parseProgHeaderEntry_cursorAt hostLE _ _ _ _).1]
    rfl
  · intro h
    rw [(parseProgHeaders_eq hostLE elf fp).1, (parseProgHeaders_eq hostLE elf _).1]
    have key : ∀ i, i < elf.header.progHeaderEntryNum → ∀ f,
        phDecodeAt hostLE mem2 elf.header.ident f
            (elf.header.progHeaderOffset + i * elf.header.progHeaderEntrySize)
          = phDecodeAt hostLE fp._start elf.header.ident f
            (elf.header.progHeaderOffset + i * elf.header.progHeaderEntrySize) := by
      intro i hi f
      have hi' := h i hi
      rw [(parseProgHeaderEntry_cursorAt hostLE _ _ _ _).2,
        phPayloadReads_flags hostLE _ _ _ f] at hi'
      exact (phDecodeAt_agree hostLE _ _ _ hi').symm
    refine ⟨?_, ?_⟩
    · simp only [List.map_map]
      apply List.map_congr_left
      intro i hi
      simp only [Function.comp]
      rw [key i (by simpa using hi)]
      exact phDecodeAt_clearFlags hostLE _ _ _ _ _
    · intro hc
      simp only [ELF.mk.injEq, true_and]
      apply List.map_congr_left
      intro i hi
      rw [key i (by simpa using hi)]
      exact phDecodeAt_flags_of_class hostLE _ _ _ _ _ hc
  · rw [(parseSectHeaders_eq hostLE elf fp).1]
    simp
  · rw [(parseSectHeaders_eq hostLE elf fp).1]
    simp only [(parseSectHeaderEntry_cursorAt hostLE _ _ _ _).1]
  · intro sh off
    rw [(parseSectHeaderEntry_cursorAt hostLE _ _ _ _).2,
      (parseSectHeaderEntry_cursorAt hostLE _ _ _ _).1]
    rfl
  · intro h
    rw [(parseSectHeaders_eq hostLE elf fp).1, (parseSectHeaders_eq hostLE elf _).1]
    simp only [ELF.mk.injEq, true_and]
    apply List.map_congr_left
    intro i hi
    have hi' := h i (by simpa using hi)
    rw [(parseSectHeaderEntry_cursorAt hostLE _ _ _ _).2] at hi'
    exact (shDecodeAt_agree hostLE _ _ hi').symm

set_option maxRecDepth 100000 in
/-- The program table of `padded32`, two entries of 40 bytes of which the
decoder reads 32: it has two entries, the second decoded at 92, and it is the
same whether the 8 trailing bytes of each entry are `0x00` or `0xFF` and
whatever the fresh table held. -/
theorem tables_entry_size_driven_padded32 :
    (_parseProgHeaders true ⟨headerAt (padded32 0) 0, [], []⟩
        (utilReadFile (padded32 0))).2.1.ph.map (fun p => p.type) = [1, 6] ∧
    (_parseProgHeaders true ⟨headerAt (padded32 0) 0, [], []⟩
        { utilReadFile (padded32 0) with _start := padded32 0xFF, heap := staleHeap }).2.1.ph
      = (_parseProgHeaders true ⟨headerAt (padded32 0) 0, [], []⟩
          (utilReadFile (padded32 0))).2.1.ph :=
  have h := (tables_entry_size_driven true ⟨headerAt (padded32 0) 0, [], []⟩
    (utilReadFile (padded32 0)) (padded32 0xFF) staleHeap).1
  ⟨(congrArg (List.map fun p => p.type) h.2.1).trans (by decide),
    (h.2.2.2 (by decide)).2 (by decide)⟩

/-- Vendor note interpretation by `_elfNoteDescDump`, where the rendering is
defined (`strcmp` stays inside the name, the description is there and long
enough).  For a note whose
name starts with the four bytes `"GNU\0"`: with type 1 the output is that of
`_elfNoteDescABIDump`, with type 3 that of `_elfNoteDescBuildIDDump`, with any
other type `Unknown GNU note type` followed by the type.  For a name that
differs from `"GNU\0"` at a byte of the name the output is `Unknown`.
Conversely an output that starts with `Expects ` comes from a `GNU` note of
type 1, one that starts with `Build ID: ` from a `GNU` note of type 3, and the
output `Unknown` from a name that is not `GNU`.  Whatever the name and the
type, `_parseNoteSection` returns a note. -/
theorem note_rendering (hostLE : Bool) (note : ELF_Note) :
    (note.name.take 4 = [0x47, 0x4E, 0x55, 0] →
      (note.type = 1 → _elfNoteDescDump hostLE note = _elfNoteDescABIDump hostLE note) ∧
      (note.type = 3 → _elfNoteDescDump hostLE note = _elfNoteDescBuildIDDump note) ∧
      (note.type ≠ 1 → note.type ≠ 3 →
        _elfNoteDescDump hostLE note
          = some ("Unknown GNU note type \x27" ++ fmtD note.type ++ "\x27"))) ∧
    (strcmpEq note.name [0x47, 0x4E, 0x55] = some false →
      _elfNoteDescDump hostLE note = some "Unknown") ∧
    (∀ out, _elfNoteDescABIDump hostLE note = some out → ∃ s, out = "Expects " ++ s) ∧
    (∀ out, _elfNoteDescBuildIDDump note = some out → ∃ s, out = "Build ID: " ++ s) ∧
    (∀ s, _elfNoteDescDump hostLE note = some ("Expects " ++ s) →
      note.name.take 4 = [0x47, 0x4E, 0x55, 0] ∧ note.type = 1) ∧
    (∀ s, _elfNoteDescDump hostLE note = some ("Build ID: " ++ s) →
      note.name.take 4 = [0x47, 0x4E, 0x55, 0] ∧ note.type = 3) ∧
    (_elfNoteDescDump hostLE note = some "Unknown" →
      strcmpEq note.name [0x47, 0x4E, 0x55] = some false) ∧
    (∀ addr fp, ∃ n, (_parseNoteSection hostLE addr fp).1 = Data.note n) := by
  have key : ∀ b, strcmpEq note.name [0x47, 0x4E, 0x55] = some b →
      _elfNoteDescDump hostLE note
        = if b then
            (if note.type = 1 then _elfNoteDescABIDump hostLE note
             else if note.type = 3 then _elfNoteDescBuildIDDump note
             else some ("Unknown GNU note type \x27" ++ fmtD note.type ++ "\x27"))
          else some "Unknown" := by
    intro b hb
    unfold _elfNoteDescDump
    rw [hb]
    cases b <;> rfl
  have conv : ∀ out, _elfNoteDescDump hostLE note = some out →
      (strcmpEq note.name [0x47, 0x4E, 0x55] = some false ∧ out = "Unknown") ∨
      (note.name.take 4 = [0x47, 0x4E, 0x55, 0] ∧
        ((note.type = 1 ∧ ∃ s, out = "Expects " ++ s)
          ∨ (note.type = 3 ∧ ∃ s, out = "Build ID: " ++ s)
          ∨ (note.type ≠ 1 ∧ note.type ≠ 3 ∧ ∃ s, out = "Unknown GNU" ++ s))) := by
    intro out h
    rcases hb : strcmpEq note.name [0x47, 0x4E, 0x55] with _ | b
    · unfold _elfNoteDescDump at h
      rw [hb] at h
      exact absurd h (by simp)
    · rw [key b hb] at h
      cases b
      · exact Or.inl ⟨rfl, by simpa using h.symm⟩
      · refine Or.inr ⟨(strcmpEq_GNU_true _).1 hb, ?_⟩
        simp only [if_true] at h
        by_cases h1 : note.type = 1
        · rw [if_pos h1] at h
          exact Or.inl ⟨h1, abi_form hostLE note out h⟩
        · rw [if_neg h1] at h
          by_cases h3 : note.type = 3
          · rw [if_pos h3] at h
            exact Or.inr (Or.inl ⟨h3, buildID_form note out h⟩)
          · rw [if_neg h3] at h
            refine Or.inr (Or.inr ⟨h1, h3, " note type \x27" ++ fmtD note.type ++ "\x27", ?_⟩)
            rw [← Option.some.inj h]
            exact String.ext (by simp)
  refine ⟨?_, ?_, abi_form hostLE note, buildID_form note, ?_, ?_, ?_, ?_⟩
  · intro hn
    have hb := (strcmpEq_GNU_true _).2 hn
    rw [key true hb]
    refine ⟨?_, ?_, ?_⟩
    · intro h1
      simp [h1]
    · intro h3
      simp [h3]
    · intro h1 h3
      simp [h1, h3]
  · intro hb
    rw [key false hb]
    rfl
  · intro s h
    rcases conv _ h with ⟨_, he⟩ | ⟨hn, ⟨h1, _⟩ | ⟨_, t, he⟩ | ⟨_, _, t, he⟩⟩
    · have := congrArg String.data he
      simp at this
    · exact ⟨hn, h1⟩
    · have := congrArg String.data he
      simp at this
    · have := congrArg String.data he
      simp at this
  · intro s h
    rcases conv _ h with ⟨_, he⟩ | ⟨hn, ⟨_, t, he⟩ | ⟨h3, _⟩ | ⟨_, _, t, he⟩⟩
    · have := congrArg String.data he
      simp at this
    · have := congrArg String.data he
      simp at this
    · exact ⟨hn, h3⟩
    · have := congrArg String.data he
      simp at this
  · intro h
    rcases conv _ h with ⟨hb, _⟩ | ⟨hn, ⟨_, t, he⟩ | ⟨_, t, he⟩ | ⟨_, _, t, he⟩⟩
    · exact hb
    · have := congrArg String.data he
      simp at this
    · have := congrArg String.data he
      simp at this
    · have := congrArg String.data he
      simp at this
  · intro addr fp
    rw [parseNoteSection_eq]
    exact ⟨_, rfl⟩

/-- The four outputs on notes named `GNU` of type 1, 3 and 2 and on a note
named `GNV`. -/
theorem note_rendering_examples :
    _elfNoteDescDump true
        ⟨4, 16, 1, [0x47, 0x4E, 0x55, 0], some [0, 0, 0, 0, 3, 0, 0, 0, 2, 0, 0, 0, 0, 0, 0, 0]⟩
      = some "Expects Linux, ABI v3.2.0" ∧
    _elfNoteDescDump true ⟨4, 4, 3, [0x47, 0x4E, 0x55, 0], some [0xDE, 0xAD, 0xBE, 0xEF]⟩
      = some "Build ID: deadbeef" ∧
    _elfNoteDescDump true ⟨4, 4, 2, [0x47, 0x4E, 0x55, 0], some [0xDE, 0xAD, 0xBE, 0xEF]⟩
      = some "Unknown GNU note type \x272\x27" ∧
    _elfNoteDescDump true ⟨4, 4, 3, [0x47, 0x4E, 0x56, 0], some [0xDE, 0xAD, 0xBE, 0xEF]⟩
      = some "Unknown" :=
  ⟨(((note_rendering true
      ⟨4, 16, 1, [0x47, 0x4E, 0x55, 0], some [0, 0, 0, 0, 3, 0, 0, 0, 2, 0, 0, 0, 0, 0, 0, 0]⟩).1
      rfl).1 rfl).trans (by decide),
   by decide, by decide,
   (note_rendering true ⟨4, 4, 3, [0x47, 0x4E, 0x56, 0], some [0xDE, 0xAD, 0xBE, 0xEF]⟩).2.1
     (by decide)⟩

end Helpers

/-! ## The claims -/

section Claims

/-- C1. For every buffer whose size is below 52 bytes, `elfParse` fails (it
returns no object) and reads no byte of the buffer on the way: the log of
reads is what it was before the call. -/
theorem elfParse_too_small (hostLE : Bool) (fp : FP) (h : fp.size < 52) :
    (elfParse hostLE fp).1 = none ∧ (elfParse hostLE fp).2.reads = fp.reads := by
  rw [elfParse_small hostLE fp h]
  exact ⟨rfl, rfl⟩

/-- Witness of C1 on the 7-byte file `tinyFile`. -/
theorem elfParse_too_small_witness :
    (utilReadFile tinyFile).size < 52 ∧
    (elfParse true (utilReadFile tinyFile)).1 = none ∧
    (elfParse true (utilReadFile tinyFile)).2.reads = (utilReadFile tinyFile).reads :=
  ⟨by decide, elfParse_too_small true (utilReadFile tinyFile) (by decide)⟩

set_option maxRecDepth 100000 in
/-- C2, the code evaluated at the failing input. On `text200`, 200 bytes
without the magic, `elfParse` reads the first byte, prints the message about
the magic and then calls `elfFree` on the `ELF` it has just allocated and never
written.  When that block holds what `staleHeap` says, an entry count of 3 and
a table pointer that is not NULL, the call walks and frees what the pointer
designates: its behaviour is undefined, and no result is returned for sure.
The failure is the clean one of the claim only when the block happens to hold
zeros. -/
theorem wrong_magic_frees_fresh_elf :
    (elfParse true { utilReadFile text200 with heap := staleHeap }).2.reads = [0] ∧
    (elfParse true { utilReadFile text200 with heap := staleHeap }).2.diag
      = [Diag.err "file is not a valid ELF binary (wrong magic)"] ∧
    (elfParse true { utilReadFile text200 with heap := staleHeap }).2.undefined = true ∧
    (elfParse true (utilReadFile text200)).1 = none ∧
    (elfParse true (utilReadFile text200)).2.undefined = false := by
  decide

/-- C4. For the `w = 2, 4, 8` bytes at the cursor, `utilRead16`, `utilRead32`
and `utilRead64` return the sum of `b_i * 256 ^ i` when `le` is true and the
sum of `b_i * 256 ^ (w - 1 - i)` when it is false (`scalarAt`), the cursor
advances by exactly `w`, and re-encoding the result in the same byte order
gives back the `w` bytes read. -/
theorem utilRead_scalar (le : Bool) (fp : FP) :
    ((utilRead16 le fp).1 = scalarAt fp._start le fp.data 2 ∧
      (utilRead16 le fp).2.data = fp.data + 2 ∧
      encode le 2 (utilRead16 le fp).1 = bytesAt fp._start fp.data 2) ∧
    ((utilRead32 le fp).1 = scalarAt fp._start le fp.data 4 ∧
      (utilRead32 le fp).2.data = fp.data + 4 ∧
      encode le 4 (utilRead32 le fp).1 = bytesAt fp._start fp.data 4) ∧
    ((utilRead64 le fp).1 = scalarAt fp._start le fp.data 8 ∧
      (utilRead64 le fp).2.data = fp.data + 8 ∧
      encode le 8 (utilRead64 le fp).1 = bytesAt fp._start fp.data 8) := by
  rw [utilRead16_eq, utilRead32_eq, utilRead64_eq]
  exact ⟨⟨rfl, rfl, encode_scalarAt_two _ _ _⟩, ⟨rfl, rfl, encode_scalarAt_four _ _ _⟩,
    ⟨rfl, rfl, encode_scalarAt_eight _ _ _⟩⟩

/-- C6. Identification and version normalisation: on every buffer of size at
least 52 with the magic, decoding continues (an object is returned) and the
decoded class is the class byte `c` if `c ≤ 2` and 0 otherwise, the decoded
endianness is the endianness byte `e` if `e ≤ 2` and 0 otherwise, the
identification version is 1 if its byte is 1 and 0 otherwise, and the header
version is 1 if the 32-bit field at offset 20 is 1 and 0 otherwise. -/
theorem ident_version_normalised (hostLE : Bool) (fp : FP) (hs : 52 ≤ fp.size)
    (hm : hasMagic fp._start fp.data = true) :
    ∃ elf, (elfParse hostLE fp).1 = some elf ∧
      elf.header.ident.class_
        = (if fp.byte (fp.data + 4) ≤ 2 then fp.byte (fp.data + 4) else 0) ∧
      elf.header.ident.endianness
        = (if fp.byte (fp.data + 5) ≤ 2 then fp.byte (fp.data + 5) else 0) ∧
      elf.header.ident.version = (if fp.byte (fp.data + 6) = 1 then 1 else 0) ∧
      elf.header.version
        = (if scalarAt fp._start (fp.byte (fp.data + 5) == 1) (fp.data + 20) 4 = 1 then 1
           else 0) := by
  obtain ⟨elf, he, hh⟩ := elfParse_header hostLE fp hs hm
  refine ⟨elf, he, ?_⟩
  rw [hh]
  simp only [headerAt, isLE_identAt, FP.byte, Nat.add_assoc, Nat.reduceAdd]
  exact ⟨rangeChecked_two_zero _, rangeChecked_two_zero _, versionChecked_eq _,
    versionChecked_eq _⟩

/-- Witness of C6 on `oddIdent52`: class byte 7, endianness byte 9, version
byte 3 and header version 2 are all decoded as 0. -/
theorem ident_version_normalised_witness :
    ∃ elf, (elfParse true (utilReadFile oddIdent52)).1 = some elf ∧
      elf.header.ident.class_ = 0 ∧ elf.header.ident.endianness = 0 ∧
      elf.header.ident.version = 0 ∧ elf.header.version = 0 :=
  (ident_version_normalised true (utilReadFile oddIdent52) (by decide) (by decide)).imp
    fun _ h => ⟨h.1, h.2.1.trans (by decide), h.2.2.1.trans (by decide),
      h.2.2.2.1.trans (by decide), h.2.2.2.2.trans (by decide)⟩

/-- C7. Entry-header layout, offsets counted from the cursor (0 on a file just
read): on every buffer with the magic, class, endianness, version, ABI kind
and ABI version come from bytes 4, 5, 6, 7 and 8; then, in the file's byte
order (little-endian exactly when byte 5 is 1), type is the 2 bytes at 16,
machine the 2 bytes at 18, version the 4 bytes at 20; for a class byte of 1,
entry, phoff and shoff are the 4 bytes at 24, 28 and 32, flags the 4 bytes at
36, ehsize, phentsize, phnum, shentsize, shnum and shstrndx the 2 bytes at 40,
42, 44, 46, 48 and 50, and the cursor ends at 52; for a class byte of 2,
entry, phoff and shoff are the 8 bytes at 24, 32 and 40, flags the 4 bytes at
48, the six 2-byte fields are at 52, 54, 56, 58, 60 and 62, and the cursor
ends at 64. -/
theorem entry_header_layout (header : ELF_Header) (fp : FP)
    (hm : hasMagic fp._start fp.data = true) :
    (_parseEntryHeader header fp).1 = true ∧
    (_parseEntryHeader header fp).2.1.ident.class_
      = (if fp.byte (fp.data + 4) ≤ 2 then fp.byte (fp.data + 4) else 0) ∧
    (_parseEntryHeader header fp).2.1.ident.endianness
      = (if fp.byte (fp.data + 5) ≤ 2 then fp.byte (fp.data + 5) else 0) ∧
    (_parseEntryHeader header fp).2.1.ident.version
      = (if fp.byte (fp.data + 6) = 1 then 1 else 0) ∧
    (_parseEntryHeader header fp).2.1.ident.abi = fp.byte (fp.data + 7) ∧
    (_parseEntryHeader header fp).2.1.ident.abiVersion = fp.byte (fp.data + 8) ∧
    (_parseEntryHeader header fp).2.1.type
      = scalarAt fp._start (fp.byte (fp.data + 5) == 1) (fp.data + 16) 2 ∧
    (_parseEntryHeader header fp).2.1.machine
      = scalarAt fp._start (fp.byte (fp.data + 5) == 1) (fp.data + 18) 2 ∧
    (_parseEntryHeader header fp).2.1.version
      = (if scalarAt fp._start (fp.byte (fp.data + 5) == 1) (fp.data + 20) 4 = 1 then 1 else 0) ∧
    (fp.byte (fp.data + 4) = 1 →
      (_parseEntryHeader header fp).2.1.entryPointAddress
        = scalarAt fp._start (fp.byte (fp.data + 5) == 1) (fp.data + 24) 4 ∧
      (_parseEntryHeader header fp).2.1.progHeaderOffset
        = scalarAt fp._start (fp.byte (fp.data + 5) == 1) (fp.data + 28) 4 ∧
      (_parseEntryHeader header fp).2.1.sectHeaderOffset
        = scalarAt fp._start (fp.byte (fp.data + 5) == 1) (fp.data + 32) 4 ∧
      (_parseEntryHeader header fp).2.1.flags
        = scalarAt fp._start (fp.byte (fp.data + 5) == 1) (fp.data + 36) 4 ∧
      (_parseEntryHeader header fp).2.1.headerSize
        = scalarAt fp._start (fp.byte (fp.data + 5) == 1) (fp.data + 40) 2 ∧
      (_parseEntryHeader header fp).2.1.progHeaderEntrySize
        = scalarAt fp._start (fp.byte (fp.data + 5) == 1) (fp.data + 42) 2 ∧
      (_parseEntryHeader header fp).2.1.progHeaderEntryNum
        = scalarAt fp._start (fp.byte (fp.data + 5) == 1) (fp.data + 44) 2 ∧
      (_parseEntryHeader header fp).2.1.sectHeaderEntrySize
        = scalarAt fp._start (fp.byte (fp.data + 5) == 1) (fp.data + 46) 2 ∧
      (_parseEntryHeader header fp).2.1.sectHeaderEntryNum
        = scalarAt fp._start (fp.byte (fp.data + 5) == 1) (fp.data + 48) 2 ∧
      (_parseEntryHeader header fp).2.1.sectHeaderNameIndex
        = scalarAt fp._start (fp.byte (fp.data + 5) == 1) (fp.data + 50) 2 ∧
      (_parseEntryHeader header fp).2.2.data = fp.data + 52) ∧
    (fp.byte (fp.data + 4) = 2 →
      (_parseEntryHeader header fp).2.1.entryPointAddress
        = scalarAt fp._start (fp.byte (fp.data + 5) == 1) (fp.data + 24) 8 ∧
      (_parseEntryHeader header fp).2.1.progHeaderOffset
        = scalarAt fp._start (fp.byte (fp.data + 5) == 1) (fp.data + 32) 8 ∧
      (_parseEntryHeader header fp).2.1.sectHeaderOffset
        = scalarAt fp._start (fp.byte (fp.data + 5) == 1) (fp.data + 40) 8 ∧
      (_parseEntryHeader header fp).2.1.flags
        = scalarAt fp._start (fp.byte (fp.data + 5) == 1) (fp.data + 48) 4 ∧
      (_parseEntryHeader header fp).2.1.headerSize
        = scalarAt fp._start (fp.byte (fp.data + 5) == 1) (fp.data + 52) 2 ∧
      (_parseEntryHeader header fp).2.1.progHeaderEntrySize
        = scalarAt fp._start (fp.byte (fp.data + 5) == 1) (fp.data + 54) 2 ∧
      (_parseEntryHeader header fp).2.1.progHeaderEntryNum
        = scalarAt fp._start (fp.byte (fp.data + 5) == 1) (fp.data + 56) 2 ∧
      (_parseEntryHeader header fp).2.1.sectHeaderEntrySize
        = scalarAt fp._start (fp.byte (fp.data + 5) == 1) (fp.data + 58) 2 ∧
      (_parseEntryHeader header fp).2.1.sectHeaderEntryNum
        = scalarAt fp._start (fp.byte (fp.data + 5) == 1) (fp.data + 60) 2 ∧
      (_parseEntryHeader header fp).2.1.sectHeaderNameIndex
        = scalarAt fp._start (fp.byte (fp.data + 5) == 1) (fp.data + 62) 2 ∧
      (_parseEntryHeader header fp).2.2.data = fp.data + 64) := by
  rw [parseEntryHeader_eq header fp hm]
  simp only [headerAt, afterHeader, isLE_identAt, wordSize_identAt, FP.byte, addDiag_data,
    advance_data, seek_data, Nat.add_assoc, Nat.reduceAdd, true_and]
  refine ⟨rangeChecked_two_zero _, rangeChecked_two_zero _, versionChecked_eq _, rfl, rfl,
    versionChecked_eq _, ?_, ?_⟩
  · intro h
    simp only [h, if_true, Nat.reduceMul, Nat.reduceAdd, and_self]
  · intro h
    simp only [h, OfNat.ofNat_ne_one, if_false, Nat.reduceMul, Nat.reduceAdd, and_self]

/-- Witness of C7 on the 32-bit little-endian header `header32LE`: the entry
point is `0x8048000`, the program table is at 52, and the cursor ends at 52. -/
theorem entry_header_layout_witness :
    (_parseEntryHeader default (utilReadFile header32LE)).2.1.entryPointAddress = 0x8048000 ∧
    (_parseEntryHeader default (utilReadFile header32LE)).2.1.progHeaderOffset = 52 ∧
    (_parseEntryHeader default (utilReadFile header32LE)).2.2.data = 52 :=
  ⟨((entry_header_layout default (utilReadFile header32LE) (by decide)).2.2.2.2.2.2.2.2.2.1
      (by decide)).1.trans (by decide),
   ((entry_header_layout default (utilReadFile header32LE) (by decide)).2.2.2.2.2.2.2.2.2.1
      (by decide)).2.1.trans (by decide),
   ((entry_header_layout default (utilReadFile header32LE) (by decide)).2.2.2.2.2.2.2.2.2.1
      (by decide)).2.2.2.2.2.2.2.2.2.2⟩

/-- C8. The word-width-aware read `READ64`: when the class is 32-bit it
consumes exactly 4 bytes and returns their value, which is below `2 ^ 32`
(zero-extended to 64 bits); when the class is 64-bit it consumes exactly 8
bytes and returns their full 64-bit value. -/
theorem READ64_width (ident : ELF_Ident) (fp : FP) :
    (ident.class_ = ELF_CLASS_32_BIT →
      (READ64 ident fp).2.data = fp.data + 4 ∧
      (READ64 ident fp).1
        = scalarAt fp._start (ident.endianness == ELF_ENDIAN_LITTLE_ENDIAN) fp.data 4 ∧
      (READ64 ident fp).1 < 2 ^ 32) ∧
    (ident.class_ = ELF_CLASS_64_BIT →
      (READ64 ident fp).2.data = fp.data + 8 ∧
      (READ64 ident fp).1
        = scalarAt fp._start (ident.endianness == ELF_ENDIAN_LITTLE_ENDIAN) fp.data 8 ∧
      (READ64 ident fp).1 < 2 ^ 64) := by
  constructor
  · intro h
    have hw : wordSize ident = 4 := by simp [wordSize, h]
    rw [READ64_eq, hw]
    exact ⟨rfl, rfl, scalarAt_four_lt _ _ _⟩
  · intro h
    have hw : wordSize ident = 8 := by simp [wordSize, h, ELF_CLASS_64_BIT, ELF_CLASS_32_BIT]
    rw [READ64_eq, hw]
    exact ⟨rfl, rfl, scalarAt_eight_lt _ _ _⟩

/-- C9. Program-entry field order by word width, offsets counted from the
start of the entry: in a 64-bit file type is the 4 bytes at 0, flags the 4
bytes at 4, offset, virtualAddr, physicalAddr, fileSize and memSize the 8
bytes at 8, 16, 24, 32 and 40, and the alignment comes next, at 48 (the code
reads 4 bytes there); in a 32-bit file type, offset, virtualAddr,
physicalAddr, fileSize, memSize, flags and alignment are the 4 bytes at 0, 4,
8, 12, 16, 20, 24 and 28.  Both cases fill the same `ELF_PHEntry` fields. -/
theorem program_entry_layout (hostLE : Bool) (ph : ELF_PHEntry) (ident : ELF_Ident) (fp : FP) :
    (ident.class_ = ELF_CLASS_64_BIT →
      (_parseProgHeaderEntry hostLE ph ident fp).2.1.type
        = scalarAt fp._start (ident.endianness == ELF_ENDIAN_LITTLE_ENDIAN) fp.data 4 ∧
      (_parseProgHeaderEntry hostLE ph ident fp).2.1.flags
        = scalarAt fp._start (ident.endianness == ELF_ENDIAN_LITTLE_ENDIAN) (fp.data + 4) 4 ∧
      (_parseProgHeaderEntry hostLE ph ident fp).2.1.offset
        = scalarAt fp._start (ident.endianness == ELF_ENDIAN_LITTLE_ENDIAN) (fp.data + 8) 8 ∧
      (_parseProgHeaderEntry hostLE ph ident fp).2.1.virtualAddr
        = scalarAt fp._start (ident.endianness == ELF_ENDIAN_LITTLE_ENDIAN) (fp.data + 16) 8 ∧
      (_parseProgHeaderEntry hostLE ph ident fp).2.1.physicalAddr
        = scalarAt fp._start (ident.endianness == ELF_ENDIAN_LITTLE_ENDIAN) (fp.data + 24) 8 ∧
      (_parseProgHeaderEntry hostLE ph ident fp).2.1.fileSize
        = scalarAt fp._start (ident.endianness == ELF_ENDIAN_LITTLE_ENDIAN) (fp.data + 32) 8 ∧
      (_parseProgHeaderEntry hostLE ph ident fp).2.1.memSize
        = scalarAt fp._start (ident.endianness == ELF_ENDIAN_LITTLE_ENDIAN) (fp.data + 40) 8 ∧
      (_parseProgHeaderEntry hostLE ph ident fp).2.1.align
        = scalarAt fp._start (ident.endianness == ELF_ENDIAN_LITTLE_ENDIAN) (fp.data + 48) 4) ∧
    (ident.class_ = ELF_CLASS_32_BIT →
      (_parseProgHeaderEntry hostLE ph ident fp).2.1.type
        = scalarAt fp._start (ident.endianness == ELF_ENDIAN_LITTLE_ENDIAN) fp.data 4 ∧
      (_parseProgHeaderEntry hostLE ph ident fp).2.1.offset
        = scalarAt fp._start (ident.endianness == ELF_ENDIAN_LITTLE_ENDIAN) (fp.data + 4) 4 ∧
      (_parseProgHeaderEntry hostLE ph ident fp).2.1.virtualAddr
        = scalarAt fp._start (ident.endianness == ELF_ENDIAN_LITTLE_ENDIAN) (fp.data + 8) 4 ∧
      (_parseProgHeaderEntry hostLE ph ident fp).2.1.physicalAddr
        = scalarAt fp._start (ident.endianness == ELF_ENDIAN_LITTLE_ENDIAN) (fp.data + 12) 4 ∧
      (_parseProgHeaderEntry hostLE ph ident fp).2.1.fileSize
        = scalarAt fp._start (ident.endianness == ELF_ENDIAN_LITTLE_ENDIAN) (fp.data + 16) 4 ∧
      (_parseProgHeaderEntry hostLE ph ident fp).2.1.memSize
        = scalarAt fp._start (ident.endianness == ELF_ENDIAN_LITTLE_ENDIAN) (fp.data + 20) 4 ∧
      (_parseProgHeaderEntry hostLE ph ident fp).2.1.flags
        = scalarAt fp._start (ident.endianness == ELF_ENDIAN_LITTLE_ENDIAN) (fp.data + 24) 4 ∧
      (_parseProgHeaderEntry hostLE ph ident fp).2.1.align
        = scalarAt fp._start (ident.endianness == ELF_ENDIAN_LITTLE_ENDIAN) (fp.data + 28) 4) := by
  have h := (parseProgHeaderEntry_fields hostLE ph ident fp).2
  constructor
  · intro hc
    rw [h]
    simp [phEntryAt, wordSize, isLE, hc, ELF_CLASS_64_BIT, ELF_CLASS_32_BIT]
  · intro hc
    rw [h]
    simp [phEntryAt, wordSize, isLE, hc, ELF_CLASS_64_BIT, ELF_CLASS_32_BIT]

/-- Witness of C9: the flags of an entry made of the bytes 0, 1, ..., 55 are
read at offset 4 in a 64-bit file and at offset 24 in a 32-bit file. -/
theorem program_entry_layout_witness :
    (_parseProgHeaderEntry true default ident64LE (utilReadFile (List.range 56))).2.1.flags
      = 0x07060504 ∧
    (_parseProgHeaderEntry true default ident32BE (utilReadFile (List.range 56))).2.1.flags
      = 0x18191A1B :=
  ⟨(((program_entry_layout true default ident64LE (utilReadFile (List.range 56))).1
      (by decide)).2.1).trans (by decide),
   (((program_entry_layout true default ident32BE (utilReadFile (List.range 56))).2
      (by decide)).2.2.2.2.2.2.1).trans (by decide)⟩

set_option maxRecDepth 100000 in
/-- C10, the code evaluated at the failing input. In the big-endian 64-bit
file `bigEndian64` the program entry at offset 64 stores the alignment
`0x1000` in its bytes 48..55; `elfParse` decodes the alignment as 0, and
re-encoding 0 on 8 bytes does not give those bytes back. -/
theorem align64_truncated :
    ((elfParse true (utilReadFile bigEndian64)).1.map fun elf => elf.ph.map fun ph => ph.align)
      = some [0] ∧
    scalarAt (utilReadFile bigEndian64)._start false (64 + 48) 8 = 0x1000 ∧
    encode false 8 0 ≠ bytesAt (utilReadFile bigEndian64)._start (64 + 48) 8 := by
  decide

/-- C11. Section-entry layout, offsets counted from the cursor, in the file's
byte order: the order of the fields is the same for both classes; nameIdx and
type are the 4 bytes at 0 and 4; in a 32-bit file flags, addr, offset and size
are the 4 bytes at 8, 12, 16 and 20, link and info the 4 bytes at 24 and 28,
addrAlign and entrySize the 4 bytes at 32 and 36, and the cursor ends at 40;
in a 64-bit file flags, addr, offset and size are the 8 bytes at 8, 16, 24 and
32, link and info the 4 bytes at 40 and 44, addrAlign and entrySize the 8
bytes at 48 and 56, and the cursor ends at 64. -/
theorem section_entry_layout (hostLE : Bool) (sh : ELF_SHEntry) (ident : ELF_Ident) (fp : FP) :
    (ident.class_ = ELF_CLASS_32_BIT →
      (_parseSectHeaderEntry hostLE sh ident fp).2.1.nameIdx
        = scalarAt fp._start (ident.endianness == ELF_ENDIAN_LITTLE_ENDIAN) fp.data 4 ∧
      (_parseSectHeaderEntry hostLE sh ident fp).2.1.type
        = scalarAt fp._start (ident.endianness == ELF_ENDIAN_LITTLE_ENDIAN) (fp.data + 4) 4 ∧
      (_parseSectHeaderEntry hostLE sh ident fp).2.1.flags
        = scalarAt fp._start (ident.endianness == ELF_ENDIAN_LITTLE_ENDIAN) (fp.data + 8) 4 ∧
      (_parseSectHeaderEntry hostLE sh ident fp).2.1.addr
        = scalarAt fp._start (ident.endianness == ELF_ENDIAN_LITTLE_ENDIAN) (fp.data + 12) 4 ∧
      (_parseSectHeaderEntry hostLE sh ident fp).2.1.offset
        = scalarAt fp._start (ident.endianness == ELF_ENDIAN_LITTLE_ENDIAN) (fp.data + 16) 4 ∧
      (_parseSectHeaderEntry hostLE sh ident fp).2.1.size
        = scalarAt fp._start (ident.endianness == ELF_ENDIAN_LITTLE_ENDIAN) (fp.data + 20) 4 ∧
      (_parseSectHeaderEntry hostLE sh ident fp).2.1.link
        = scalarAt fp._start (ident.endianness == ELF_ENDIAN_LITTLE_ENDIAN) (fp.data + 24) 4 ∧
      (_parseSectHeaderEntry hostLE sh ident fp).2.1.info
        = scalarAt fp._start (ident.endianness == ELF_ENDIAN_LITTLE_ENDIAN) (fp.data + 28) 4 ∧
      (_parseSectHeaderEntry hostLE sh ident fp).2.1.addrAlign
        = scalarAt fp._start (ident.endianness == ELF_ENDIAN_LITTLE_ENDIAN) (fp.data + 32) 4 ∧
      (_parseSectHeaderEntry hostLE sh ident fp).2.1.entrySize
        = scalarAt fp._start (ident.endianness == ELF_ENDIAN_LITTLE_ENDIAN) (fp.data + 36) 4 ∧
      (_parseSectHeaderEntry hostLE sh ident fp).2.2.data = fp.data + 40) ∧
    (ident.class_ = ELF_CLASS_64_BIT →
      (_parseSectHeaderEntry hostLE sh ident fp).2.1.nameIdx
        = scalarAt fp._start (ident.endianness == ELF_ENDIAN_LITTLE_ENDIAN) fp.data 4 ∧
      (_parseSectHeaderEntry hostLE sh ident fp).2.1.type
        = scalarAt fp._start (ident.endianness == ELF_ENDIAN_LITTLE_ENDIAN) (fp.data + 4) 4 ∧
      (_parseSectHeaderEntry hostLE sh ident fp).2.1.flags
        = scalarAt fp._start (ident.endianness == ELF_ENDIAN_LITTLE_ENDIAN) (fp.data + 8) 8 ∧
      (_parseSectHeaderEntry hostLE sh ident fp).2.1.addr
        = scalarAt fp._start (ident.endianness == ELF_ENDIAN_LITTLE_ENDIAN) (fp.data + 16) 8 ∧
      (_parseSectHeaderEntry hostLE sh ident fp).2.1.offset
        = scalarAt fp._start (ident.endianness == ELF_ENDIAN_LITTLE_ENDIAN) (fp.data + 24) 8 ∧
      (_parseSectHeaderEntry hostLE sh ident fp).2.1.size
        = scalarAt fp._start (ident.endianness == ELF_ENDIAN_LITTLE_ENDIAN) (fp.data + 32) 8 ∧
      (_parseSectHeaderEntry hostLE sh ident fp).2.1.link
        = scalarAt fp._start (ident.endianness == ELF_ENDIAN_LITTLE_ENDIAN) (fp.data + 40) 4 ∧
      (_parseSectHeaderEntry hostLE sh ident fp).2.1.info
        = scalarAt fp._start (ident.endianness == ELF_ENDIAN_LITTLE_ENDIAN) (fp.data + 44) 4 ∧
      (_parseSectHeaderEntry hostLE sh ident fp).2.1.addrAlign
        = scalarAt fp._start (ident.endianness == ELF_ENDIAN_LITTLE_ENDIAN) (fp.data + 48) 8 ∧
      (_parseSectHeaderEntry hostLE sh ident fp).2.1.entrySize
        = scalarAt fp._start (ident.endianness == ELF_ENDIAN_LITTLE_ENDIAN) (fp.data + 56) 8 ∧
      (_parseSectHeaderEntry hostLE sh ident fp).2.2.data = fp.data + 64) := by
  rw [parseSectHeaderEntry_eq]
  constructor
  · intro hc
    simp [shDecodeAt, shEntryAt, shFixedLen, wordSize, isLE, hc, ELF_CLASS_32_BIT]
  · intro hc
    simp [shDecodeAt, shEntryAt, shFixedLen, wordSize, isLE, hc, ELF_CLASS_64_BIT,
      ELF_CLASS_32_BIT]

set_option maxRecDepth 100000 in
/-- Witness of C11 on `strtab32`, a 32-bit file: the section entry at 52 has
type 3, offset 92 and size 12, and the cursor ends at 92, 40 bytes further. -/
theorem section_entry_layout_witness :
    (_parseSectHeaderEntry true default ident32LE (cursorAt strtab32 52)).2.1.type = 3 ∧
    (_parseSectHeaderEntry true default ident32LE (cursorAt strtab32 52)).2.1.offset = 92 ∧
    (_parseSectHeaderEntry true default ident32LE (cursorAt strtab32 52)).2.1.size = 12 ∧
    (_parseSectHeaderEntry true default ident32LE (cursorAt strtab32 52)).2.2.data = 92 :=
  have h := (section_entry_layout true default ident32LE (cursorAt strtab32 52)).1 rfl
  ⟨h.2.1.trans (by decide), h.2.2.2.2.1.trans (by decide),
    h.2.2.2.2.2.1.trans (by decide), h.2.2.2.2.2.2.2.2.2.2⟩

set_option maxRecDepth 100000 in
/-- C12, the code evaluated at the failing input. The file `noClass64` is
`bigEndian64` with the class byte 0.  With the class 64-bit the flags of the
program entry are read from the entry, and they are 5; with the class invalid
`_parseProgHeaderEntry` assigns the flags at neither place, so the entry keeps
what the fresh table held: 0 on a heap of zeros, 7 on `staleHeap`.  The same
buffer thus decodes to two different program tables. -/
theorem table_flags_from_heap :
    (elfParse true (utilReadFile bigEndian64)).1.map
        (fun e => (e.header.ident.class_, e.ph.map (fun p => p.flags)))
      = some (ELF_CLASS_64_BIT, [5]) ∧
    (elfParse true (utilReadFile noClass64)).1.map
        (fun e => (e.header.ident.class_, e.ph.map (fun p => p.flags)))
      = some (ELF_CLASS_INVALID, [0]) ∧
    (elfParse true { utilReadFile noClass64 with heap := staleHeap }).1.map
        (fun e => (e.header.ident.class_, e.ph.map (fun p => p.flags)))
      = some (ELF_CLASS_INVALID, [7]) ∧
    (elfParse true { utilReadFile noClass64 with heap := staleHeap }).1
      ≠ (elfParse true (utilReadFile noClass64)).1 := by
  decide

/-- C13. Payload dispatch by type tag.  Let `t` be the 4-byte type tag of a
program entry in the buffer, at the cursor, in the file's byte order: the
entry `_parseProgHeaderEntry` decodes has the type `t`; its payload is a block
of `fileSize` bytes when `t` is 3 (`PT_INTERP`), a note when `t` is 4
(`PT_NOTE`), and NULL for every other `t`, so that it has a payload exactly
when `t` is 3 or 4.  Likewise with the tag `t` of a section entry, 4 bytes
after the cursor: the payload is the block of `size` bytes at `offset` when
`t` is 3 (`SHT_STRTAB`), a note when `t` is 7 (`SHT_NOTE`), NULL otherwise.
In particular, on a buffer of at least 52 bytes with the magic on which every
read stays inside the buffer, whose header announces no program entry and one
section entry, and whose section has the tag 0 (`SHT_NULL`), `elfParse` returns
an object with an empty program table and a one-element section table whose
payload is NULL. -/
theorem payload_dispatch (hostLE : Bool) (ph : ELF_PHEntry) (sh : ELF_SHEntry)
    (ident : ELF_Ident) (fp : FP) :
    ((_parseProgHeaderEntry hostLE ph ident fp).2.1.type
        = scalarAt fp._start (ident.endianness == ELF_ENDIAN_LITTLE_ENDIAN) fp.data 4 ∧
      (scalarAt fp._start (ident.endianness == ELF_ENDIAN_LITTLE_ENDIAN) fp.data 4 = 3 →
        ∃ b, (_parseProgHeaderEntry hostLE ph ident fp).2.1.data = Data.bytes b
          ∧ b.length = (_parseProgHeaderEntry hostLE ph ident fp).2.1.fileSize) ∧
      (scalarAt fp._start (ident.endianness == ELF_ENDIAN_LITTLE_ENDIAN) fp.data 4 = 4 →
        ∃ n, (_parseProgHeaderEntry hostLE ph ident fp).2.1.data = Data.note n) ∧
      (scalarAt fp._start (ident.endianness == ELF_ENDIAN_LITTLE_ENDIAN) fp.data 4 ≠ 3 →
        scalarAt fp._start (ident.endianness == ELF_ENDIAN_LITTLE_ENDIAN) fp.data 4 ≠ 4 →
        (_parseProgHeaderEntry hostLE ph ident fp).2.1.data = Data.null) ∧
      ((_parseProgHeaderEntry hostLE ph ident fp).2.1.data ≠ Data.null
        ↔ (scalarAt fp._start (ident.endianness == ELF_ENDIAN_LITTLE_ENDIAN) fp.data 4 = 3
          ∨ scalarAt fp._start (ident.endianness == ELF_ENDIAN_LITTLE_ENDIAN) fp.data 4 = 4))) ∧
    ((_parseSectHeaderEntry hostLE sh ident fp).2.1.type
        = scalarAt fp._start (ident.endianness == ELF_ENDIAN_LITTLE_ENDIAN) (fp.data + 4) 4 ∧
      (scalarAt fp._start (ident.endianness == ELF_ENDIAN_LITTLE_ENDIAN) (fp.data + 4) 4 = 3 →
        (_parseSectHeaderEntry hostLE sh ident fp).2.1.data
          = Data.bytes (bytesAt fp._start (_parseSectHeaderEntry hostLE sh ident fp).2.1.offset
              (_parseSectHeaderEntry hostLE sh ident fp).2.1.size)) ∧
      (scalarAt fp._start (ident.endianness == ELF_ENDIAN_LITTLE_ENDIAN) (fp.data + 4) 4 = 7 →
        ∃ n, (_parseSectHeaderEntry hostLE sh ident fp).2.1.data = Data.note n) ∧
      (scalarAt fp._start (ident.endianness == ELF_ENDIAN_LITTLE_ENDIAN) (fp.data + 4) 4 ≠ 3 →
        scalarAt fp._start (ident.endianness == ELF_ENDIAN_LITTLE_ENDIAN) (fp.data + 4) 4 ≠ 7 →
        (_parseSectHeaderEntry hostLE sh ident fp).2.1.data = Data.null) ∧
      ((_parseSectHeaderEntry hostLE sh ident fp).2.1.data ≠ Data.null
        ↔ (scalarAt fp._start (ident.endianness == ELF_ENDIAN_LITTLE_ENDIAN) (fp.data + 4) 4 = 3
          ∨ scalarAt fp._start (ident.endianness == ELF_ENDIAN_LITTLE_ENDIAN) (fp.data + 4) 4
              = 7))) ∧
    (52 ≤ fp.size → hasMagic fp._start fp.data = true →
      (∀ o ∈ (elfParse hostLE fp).2.reads, o < fp.size) →
      (_parseEntryHeader fp.heap.elfHeader fp).2.1.progHeaderEntryNum = 0 →
      (_parseEntryHeader fp.heap.elfHeader fp).2.1.sectHeaderEntryNum = 1 →
      scalarAt fp._start
          ((_parseEntryHeader fp.heap.elfHeader fp).2.1.ident.endianness
            == ELF_ENDIAN_LITTLE_ENDIAN)
          ((_parseEntryHeader fp.heap.elfHeader fp).2.1.sectHeaderOffset + 4) 4
        = ELF_SHT_NULL →
      ∃ s, (elfParse hostLE fp).1
          = some { header := (_parseEntryHeader fp.heap.elfHeader fp).2.1, ph := [], sh := [s] }
        ∧ s.type = ELF_SHT_NULL ∧ s.data = Data.null) := by
  refine ⟨?_, ?_, ?_⟩
  · rw [parseProgHeaderEntry_eq]
    show _ ∧ _
    have ht : (phDecodeAt hostLE fp._start ident ph.flags fp.data).type
        = scalarAt fp._start (ident.endianness == ELF_ENDIAN_LITTLE_ENDIAN) fp.data 4 := rfl
    refine ⟨ht, ?_⟩
    generalize scalarAt fp._start (ident.endianness == ELF_ENDIAN_LITTLE_ENDIAN) fp.data 4 = t
      at ht ⊢
    have hd : (phDecodeAt hostLE fp._start ident ph.flags fp.data).data
        = phPayloadAt hostLE fp._start (phDecodeAt hostLE fp._start ident ph.flags fp.data) :=
      rfl
    simp only
    rw [hd]
    simp only [phPayloadAt, ht, ELF_PHT_INTERP, ELF_PHT_NOTE]
    by_cases h3 : t = 3
    · subst h3
      simp [strncpyBytes_length]
    · by_cases h4 : t = 4
      · subst h4
        simp
      · simp [h3, h4]
  · rw [parseSectHeaderEntry_eq]
    show _ ∧ _
    have ht : (shDecodeAt hostLE fp._start ident fp.data).type
        = scalarAt fp._start (ident.endianness == ELF_ENDIAN_LITTLE_ENDIAN) (fp.data + 4) 4 :=
      rfl
    refine ⟨ht, ?_⟩
    generalize scalarAt fp._start (ident.endianness == ELF_ENDIAN_LITTLE_ENDIAN)
      (fp.data + 4) 4 = t at ht ⊢
    have hd : (shDecodeAt hostLE fp._start ident fp.data).data
        = shPayloadAt hostLE fp._start (shDecodeAt hostLE fp._start ident fp.data) := rfl
    simp only
    rw [hd]
    simp only [shPayloadAt, ht, ELF_SHT_STRTAB, ELF_SHT_NOTE]
    by_cases h3 : t = 3
    · subst h3
      simp
    · by_cases h7 : t = 7
      · subst h7
        simp
      · simp [h3, h7]
  · intro hs hm _ hp hn ht
    rw [parseEntryHeader_eq _ fp hm] at hp hn ht ⊢
    simp only at hp hn ht ⊢
    rw [elfParse_closed hostLE fp hs hm]
    have h1 : List.range 1 = [0] := rfl
    simp only [hp, hn, List.range_zero, List.map_nil, h1, List.map_cons, Nat.zero_mul,
      Nat.add_zero]
    refine ⟨_, rfl, ?_⟩
    have ht2 : (shDecodeAt hostLE fp._start (headerAt fp._start fp.data).ident
        (headerAt fp._start fp.data).sectHeaderOffset).type = ELF_SHT_NULL := ht
    refine ⟨ht2, ?_⟩
    have hd : (shDecodeAt hostLE fp._start (headerAt fp._start fp.data).ident
          (headerAt fp._start fp.data).sectHeaderOffset).data
        = shPayloadAt hostLE fp._start (shDecodeAt hostLE fp._start
          (headerAt fp._start fp.data).ident
          (headerAt fp._start fp.data).sectHeaderOffset) := rfl
    rw [hd]
    simp [shPayloadAt, ht2, ELF_SHT_STRTAB, ELF_SHT_NOTE, ELF_SHT_NULL]

set_option maxRecDepth 100000 in
/-- Witness of C13: the `PT_INTERP` entry of `interp32` at 52 has a payload of
8 bytes, the `PT_NOTE` entry of `stapNote64` at 64 has a note for its payload,
the `SHT_STRTAB` entry of `strtab32` at 52 has the 12 bytes at 92 for its
payload, and the minimal 64-bit little-endian file `nullSection64`, no
program entry and one section of type NULL, decodes to an empty program table
and one section without payload. -/
theorem payload_dispatch_witness :
    (∃ b, (_parseProgHeaderEntry true default ident32LE (cursorAt interp32 52)).2.1.data
        = Data.bytes b
      ∧ b.length = (_parseProgHeaderEntry true default ident32LE (cursorAt interp32 52)).2.1.fileSize) ∧
    (∃ n, (_parseProgHeaderEntry true default ident64LE (cursorAt stapNote64 64)).2.1.data
        = Data.note n) ∧
    (_parseSectHeaderEntry true default ident32LE (cursorAt strtab32 52)).2.1.data
      = Data.bytes (bytesAt (cursorAt strtab32 52)._start
          (_parseSectHeaderEntry true default ident32LE (cursorAt strtab32 52)).2.1.offset
          (_parseSectHeaderEntry true default ident32LE (cursorAt strtab32 52)).2.1.size) ∧
    ∃ s, (elfParse true (utilReadFile nullSection64)).1
        = some { header := (_parseEntryHeader (utilReadFile nullSection64).heap.elfHeader
            (utilReadFile nullSection64)).2.1, ph := [], sh := [s] }
      ∧ s.type = ELF_SHT_NULL ∧ s.data = Data.null :=
  ⟨(payload_dispatch true default default ident32LE (cursorAt interp32 52)).1.2.1 (by decide),
   (payload_dispatch true default default ident64LE (cursorAt stapNote64 64)).1.2.2.1
    (by decide),
   (payload_dispatch true default default ident32LE (cursorAt strtab32 52)).2.1.2.1 (by decide),
   (payload_dispatch true default default default (utilReadFile nullSection64)).2.2
    (by decide) (by decide) (by decide) (by decide) (by decide) (by decide)⟩

set_option maxRecDepth 100000 in
/-- C14. On the file `stapNote64`, whose note at offset 120 has an 8-byte name
followed by the 4-byte description `DE AD BE EF` at 120 + 12 + 8, `elfParse`
decodes the name as the 8 bytes at 132 and the description as the 4 bytes at
136, the second half of the name, not the bytes that follow the name. -/
theorem note_desc_fixed_offset :
    (elfParse true (utilReadFile stapNote64)).1.map (fun e => e.ph.map (fun p => p.data))
      = some [Data.note
          { namesz := 8, descsz := 4, type := 3,
            name := [0x73, 0x74, 0x61, 0x70, 0x73, 0x64, 0x74, 0],
            desc := some [0x73, 0x64, 0x74, 0] }] ∧
    bytesAt stapNote64 (120 + 12 + 8) 4 = [0xDE, 0xAD, 0xBE, 0xEF] ∧
    bytesAt stapNote64 (120 + 16) 4 = [0x73, 0x64, 0x74, 0] := by
  decide

/-- C15. A program entry or a section entry of type note whose decoded note has
`descsz` 0 has an absent description (`desc` is NULL), and decoding the entry
reads, besides what was read before, only the fixed fields of the entry and
the bytes of the note from its offset `a` up to the end of the name,
`a + 12 + namesz`. -/
theorem note_without_description (hostLE : Bool) (ph : ELF_PHEntry) (sh : ELF_SHEntry)
    (ident : ELF_Ident) (fp : FP) :
    (∀ n, (_parseProgHeaderEntry hostLE ph ident fp).2.1.type = ELF_PHT_NOTE →
      (_parseProgHeaderEntry hostLE ph ident fp).2.1.data = Data.note n →
      n.descsz = 0 →
      n.desc = none ∧
      ∀ o ∈ (_parseProgHeaderEntry hostLE ph ident fp).2.2.reads,
        o ∈ fp.reads ∨ (fp.data ≤ o ∧ o < fp.data + phFixedLen ident)
          ∨ ((_parseProgHeaderEntry hostLE ph ident fp).2.1.offset ≤ o
              ∧ o < (_parseProgHeaderEntry hostLE ph ident fp).2.1.offset + 12 + n.namesz)) ∧
    (∀ n, (_parseSectHeaderEntry hostLE sh ident fp).2.1.type = ELF_SHT_NOTE →
      (_parseSectHeaderEntry hostLE sh ident fp).2.1.data = Data.note n →
      n.descsz = 0 →
      n.desc = none ∧
      ∀ o ∈ (_parseSectHeaderEntry hostLE sh ident fp).2.2.reads,
        o ∈ fp.reads ∨ (fp.data ≤ o ∧ o < fp.data + shFixedLen ident)
          ∨ ((_parseSectHeaderEntry hostLE sh ident fp).2.1.offset ≤ o
              ∧ o < (_parseSectHeaderEntry hostLE sh ident fp).2.1.offset + 12 + n.namesz)) := by
  constructor
  · rw [parseProgHeaderEntry_eq]
    intro n ht hd hz
    have ht' : (phEntryAt fp._start ident ph.flags fp.data Data.null).type = ELF_PHT_NOTE := ht
    have hd' : phPayloadAt hostLE fp._start (phEntryAt fp._start ident ph.flags fp.data Data.null)
        = Data.note n := hd
    simp only [phPayloadAt, phPayloadReads, ht', ELF_PHT_NOTE, ELF_PHT_INTERP] at hd' ⊢
    simp only [Nat.reduceEqDiff, if_false, if_true, Data.note.injEq] at hd' ⊢
    subst hd'
    have hz' : scalarAt fp._start hostLE
        ((phEntryAt fp._start ident ph.flags fp.data Data.null).offset + 4) 4 = 0 := hz
    refine ⟨by simp [noteAt, hz'], ?_⟩
    intro o ho
    have hoff : (phDecodeAt hostLE fp._start ident ph.flags fp.data).offset
        = (phEntryAt fp._start ident ph.flags fp.data Data.null).offset := rfl
    have hns : (noteAt hostLE fp._start
          (phEntryAt fp._start ident ph.flags fp.data Data.null).offset).namesz
        = scalarAt fp._start hostLE
            (phEntryAt fp._start ident ph.flags fp.data Data.null).offset 4 := rfl
    simp only [hoff, hns]
    simp only [logged_reads, FP.advance, noteReads, hz', Nat.lt_irrefl, if_false,
      List.mem_append, List.not_mem_nil, or_false] at ho
    rcases ho with (ho | ho) | ho
    · exact Or.inl ho
    · exact Or.inr (Or.inl ((mem_span o _ _).1 ho))
    · right; right
      rcases ho with ho | ho | ho | ho <;> have := (mem_span _ _ _).1 ho <;> omega
  · rw [parseSectHeaderEntry_eq]
    intro n ht hd hz
    have ht' : (shEntryAt fp._start ident fp.data Data.null).type = ELF_SHT_NOTE := ht
    have hd' : shPayloadAt hostLE fp._start (shEntryAt fp._start ident fp.data Data.null)
        = Data.note n := hd
    simp only [shPayloadAt, shPayloadReads, ht', ELF_SHT_NOTE, ELF_SHT_STRTAB] at hd' ⊢
    simp only [Nat.reduceEqDiff, if_false, if_true, Data.note.injEq] at hd' ⊢
    subst hd'
    have hz' : scalarAt fp._start hostLE
        ((shEntryAt fp._start ident fp.data Data.null).offset + 4) 4 = 0 := hz
    refine ⟨by simp [noteAt, hz'], ?_⟩
    intro o ho
    have hoff : (shDecodeAt hostLE fp._start ident fp.data).offset
        = (shEntryAt fp._start ident fp.data Data.null).offset := rfl
    have hns : (noteAt hostLE fp._start
          (shEntryAt fp._start ident fp.data Data.null).offset).namesz
        = scalarAt fp._start hostLE
            (shEntryAt fp._start ident fp.data Data.null).offset 4 := rfl
    simp only [hoff, hns]
    simp only [logged_reads, FP.advance, noteReads, hz', Nat.lt_irrefl, if_false,
      List.mem_append, List.not_mem_nil, or_false] at ho
    rcases ho with (ho | ho) | ho
    · exact Or.inl ho
    · exact Or.inr (Or.inl ((mem_span o _ _).1 ho))
    · right; right
      rcases ho with ho | ho | ho | ho <;> have := (mem_span _ _ _).1 ho <;> omega

set_option maxRecDepth 100000 in
/-- Witness of C15 on `emptyDescNote64`: the `PT_NOTE` entry at 64 holds a note
with `descsz` 0; its description is absent and the reads are the 52 bytes of
fields from 64 and the 16 bytes of the note from 120. -/
theorem note_without_description_witness :
    (_parseProgHeaderEntry true default ident64LE (cursorAt emptyDescNote64 64)).2.1.data
      = Data.note ⟨4, 0, 1, [0x47, 0x4E, 0x55, 0], none⟩ ∧
    (⟨4, 0, 1, [0x47, 0x4E, 0x55, 0], none⟩ : ELF_Note).desc = none ∧
    (_parseProgHeaderEntry true default ident64LE (cursorAt emptyDescNote64 64)).2.2.reads
      = span 64 52 ++ span 120 16 :=
  ⟨by decide,
    ((note_without_description true default default ident64LE
      (cursorAt emptyDescNote64 64)).1 ⟨4, 0, 1, [0x47, 0x4E, 0x55, 0], none⟩
      (by decide) (by decide) rfl).1,
    by decide⟩

set_option maxRecDepth 100000 in
/-- C16. On the big-endian file `bigEndianNote64`, decoded on a little-endian
machine, the note's `namesz`, `descsz` and `type`, stored most-significant byte
first as 4, 0 and 1, are decoded least-significant byte first, as `0x04000000`,
0 and `0x01000000`: the byte order is that of the machine, not that of the
file. -/
theorem note_words_host_order :
    (elfParse true (utilReadFile bigEndianNote64)).1.map
        (fun e => (e.header.ident.endianness,
          e.ph.map (fun p => p.data.asNote.map (fun n => (n.namesz, n.descsz, n.type)))))
      = some (ELF_ENDIAN_BIG_ENDIAN, [some (0x04000000, 0, 0x01000000)]) ∧
    (scalarAt bigEndianNote64 false 120 4, scalarAt bigEndianNote64 false 124 4,
      scalarAt bigEndianNote64 false 128 4) = (4, 0, 1) := by
  decide

/-- C17. Interpreter-path payload: the payload of a program entry decoded with
type `PT_INTERP` is a block of `fileSize` bytes: of the `fileSize` bytes of
the buffer at offset `virtualAddr`, those before the first NUL, then NULs. -/
theorem interp_payload (hostLE : Bool) (ph : ELF_PHEntry) (ident : ELF_Ident) (fp : FP)
    (h : (_parseProgHeaderEntry hostLE ph ident fp).2.1.type = ELF_PHT_INTERP) :
    ∃ b, (_parseProgHeaderEntry hostLE ph ident fp).2.1.data = Data.bytes b ∧
      b.length = (_parseProgHeaderEntry hostLE ph ident fp).2.1.fileSize ∧
      b = ((bytesAt fp._start (_parseProgHeaderEntry hostLE ph ident fp).2.1.virtualAddr
              (_parseProgHeaderEntry hostLE ph ident fp).2.1.fileSize).takeWhile
                (fun x => x != 0))
          ++ List.replicate
              ((_parseProgHeaderEntry hostLE ph ident fp).2.1.fileSize
                - ((bytesAt fp._start (_parseProgHeaderEntry hostLE ph ident fp).2.1.virtualAddr
                    (_parseProgHeaderEntry hostLE ph ident fp).2.1.fileSize).takeWhile
                      (fun x => x != 0)).length) 0 := by
  rw [parseProgHeaderEntry_eq] at h ⊢
  have ht : (phEntryAt fp._start ident ph.flags fp.data Data.null).type = ELF_PHT_INTERP := h
  refine ⟨interpPayload fp._start
      (phEntryAt fp._start ident ph.flags fp.data Data.null).virtualAddr
      (phEntryAt fp._start ident ph.flags fp.data Data.null).fileSize, ?_,
    interpPayload_length _ _ _, rfl⟩
  show phPayloadAt hostLE fp._start (phEntryAt fp._start ident ph.flags fp.data Data.null) = _
  unfold phPayloadAt
  rw [if_pos ht, strncpyBytes_eq_interpPayload]

set_option maxRecDepth 100000 in
/-- Witness of C17 on `interp32`: the entry at offset 52 is a `PT_INTERP` whose
eight bytes at 84 are `"/ld\0XYZW"`; its payload is `"/ld"` and five NULs. -/
theorem interp_payload_witness :
    (_parseProgHeaderEntry true default ident32LE (cursorAt interp32 52)).2.1.type
      = ELF_PHT_INTERP ∧
    (_parseProgHeaderEntry true default ident32LE (cursorAt interp32 52)).2.1.data
      = Data.bytes [0x2F, 0x6C, 0x64, 0, 0, 0, 0, 0] := by
  refine ⟨by decide, ?_⟩
  obtain ⟨b, hb, _, he⟩ :=
    interp_payload true default ident32LE (cursorAt interp32 52) (by decide)
  rw [hb, he]
  decide

/-- C18. String-table payload: the payload of a section entry decoded with type
`SHT_STRTAB` is the `size` bytes of the buffer at the entry's `offset`, every
byte as it is, a NUL included. -/
theorem strtab_payload (hostLE : Bool) (sh : ELF_SHEntry) (ident : ELF_Ident) (fp : FP)
    (h : (_parseSectHeaderEntry hostLE sh ident fp).2.1.type = ELF_SHT_STRTAB) :
    (_parseSectHeaderEntry hostLE sh ident fp).2.1.data
      = Data.bytes
          ((List.range (_parseSectHeaderEntry hostLE sh ident fp).2.1.size).map fun i =>
            fp.byte ((_parseSectHeaderEntry hostLE sh ident fp).2.1.offset + i)) := by
  rw [parseSectHeaderEntry_eq] at h ⊢
  have ht : (shEntryAt fp._start ident fp.data Data.null).type = ELF_SHT_STRTAB := h
  show shPayloadAt hostLE fp._start (shEntryAt fp._start ident fp.data Data.null) = _
  unfold shPayloadAt
  rw [if_pos ht]
  rfl

set_option maxRecDepth 100000 in
/-- Witness of C18 on `strtab32`: the section at offset 52 is a `SHT_STRTAB` of
12 bytes at 92; its payload is the twelve bytes `"\0.text\0.bss\0"`. -/
theorem strtab_payload_witness :
    (_parseSectHeaderEntry true default ident32LE (cursorAt strtab32 52)).2.1.type
      = ELF_SHT_STRTAB ∧
    (_parseSectHeaderEntry true default ident32LE (cursorAt strtab32 52)).2.1.data
      = Data.bytes [0, 0x2E, 0x74, 0x65, 0x78, 0x74, 0, 0x2E, 0x62, 0x73, 0x73, 0] :=
  ⟨by decide,
    (strtab_payload true default ident32LE (cursorAt strtab32 52) (by decide)).trans
      (by decide)⟩

set_option maxRecDepth 100000 in
/-- C19, counterexample. The header `oddType52` has the type 5, between 4 and
`0xFE00`; `elfParse` returns an object whose type is 5 again: the value is
kept, no sentinel replaces it. -/
theorem type_out_of_band_kept :
    scalarAt oddType52 true 16 2 = 5 ∧
    (elfParse true (utilReadFile oddType52)).1.map (fun e => e.header.type) = some 5 := by
  decide

/-- C19, amended. On every buffer with the magic whose type `t`, the 2 bytes at
16 in the file's byte order, lies outside all known bands (`4 < t < 0xFE00`),
the decoded type is `t` itself, and among the messages the header decoder adds
the warning naming the type and carrying `t` occurs exactly once, no other
warning naming the type being added. -/
theorem type_out_of_band_warned (header : ELF_Header) (fp : FP)
    (hm : hasMagic fp._start fp.data = true)
    (h1 : 4 < scalarAt fp._start (fp.byte (fp.data + 5) == 1) (fp.data + 16) 2)
    (h2 : scalarAt fp._start (fp.byte (fp.data + 5) == 1) (fp.data + 16) 2 < 0xFE00) :
    (_parseEntryHeader header fp).2.1.type
      = scalarAt fp._start (fp.byte (fp.data + 5) == 1) (fp.data + 16) 2 ∧
    Diag.warn "type" (scalarAt fp._start (fp.byte (fp.data + 5) == 1) (fp.data + 16) 2)
      ∈ (_parseEntryHeader header fp).2.2.diag ∧
    (∀ v, Diag.warn "type" v ∈ (_parseEntryHeader header fp).2.2.diag →
      Diag.warn "type" v ∈ fp.diag
        ∨ v = scalarAt fp._start (fp.byte (fp.data + 5) == 1) (fp.data + 16) 2) ∧
    ∃ new, (_parseEntryHeader header fp).2.2.diag = fp.diag ++ new ∧
      List.count
        (Diag.warn "type" (scalarAt fp._start (fp.byte (fp.data + 5) == 1) (fp.data + 16) 2))
        new = 1 ∧
      ∀ v, Diag.warn "type" v ∈ new →
        v = scalarAt fp._start (fp.byte (fp.data + 5) == 1) (fp.data + 16) 2 := by
  have hle : isLE (identAt fp._start (fp.data + 4)) = (fp.byte (fp.data + 5) == 1) :=
    isLE_identAt _ _
  have hnew : ∀ v, Diag.warn "type" v ∈ headerDiag fp._start fp.data →
      v = scalarAt fp._start (fp.byte (fp.data + 5) == 1) (fp.data + 16) 2 := by
    intro v hv
    simp only [headerDiag, hle, ELF_ET_CORE, ELF_ET_LOOS, h1, h2, and_self, if_true,
      List.mem_append, List.mem_singleton] at hv
    rcases hv with hv | hv | hv
    · exact absurd hv (warn_type_mem_identDiag _ _ _)
    · simpa using hv
    · split at hv <;> simp at hv
  have hcount : List.count
      (Diag.warn "type" (scalarAt fp._start (fp.byte (fp.data + 5) == 1) (fp.data + 16) 2))
      (headerDiag fp._start fp.data) = 1 := by
    simp only [headerDiag, hle, ELF_ET_CORE, ELF_ET_LOOS, h1, h2, and_self, if_true,
      List.count_append, count_warn_type_identDiag, List.count_singleton, beq_self_eq_true,
      Nat.zero_add]
    split <;> simp
  rw [parseEntryHeader_diag header fp hm, parseEntryHeader_eq header fp hm]
  refine ⟨?_, ?_, ?_, headerDiag fp._start fp.data, rfl, hcount, hnew⟩
  · simp only [headerAt, hle]
  · exact List.mem_append_right _ (List.count_pos_iff.1 (by rw [hcount]; decide))
  · intro v hv
    rcases List.mem_append.1 hv with hv | hv
    · exact Or.inl hv
    · exact Or.inr (hnew v hv)

set_option maxRecDepth 100000 in
/-- Witness of the amended C19 on `oddType52`: the type 5 is decoded as 5 and
the one message added is the warning that carries 5. -/
theorem type_out_of_band_warned_witness :
    (_parseEntryHeader default (utilReadFile oddType52)).2.1.type = 5 ∧
    Diag.warn "type" 5 ∈ (_parseEntryHeader default (utilReadFile oddType52)).2.2.diag ∧
    (_parseEntryHeader default (utilReadFile oddType52)).2.2.diag = [Diag.warn "type" 5] :=
  have h := type_out_of_band_warned default (utilReadFile oddType52) (by decide) (by decide)
    (by decide)
  ⟨h.1.trans (by decide), (show scalarAt (utilReadFile oddType52)._start
      ((utilReadFile oddType52).byte ((utilReadFile oddType52).data + 5) == 1)
      ((utilReadFile oddType52).data + 16) 2 = 5 by decide) ▸ h.2.1, by decide⟩

/-- C20. On every buffer with the magic whose type `t`, the 2 bytes at 16 in
the file's byte order, is at most 4 or at least `0xFE00`, the decoded type is
`t` and the header decoder adds no warning about the type; `_ehTypeDump`
prints `OS specific` for a decoded type in `0xFE00..0xFEFF` and
`Processor specific` for one in `0xFF00..0xFFFF`. -/
theorem type_in_band_accepted (header : ELF_Header) (fp : FP)
    (hm : hasMagic fp._start fp.data = true)
    (h : scalarAt fp._start (fp.byte (fp.data + 5) == 1) (fp.data + 16) 2 ≤ 4
      ∨ 0xFE00 ≤ scalarAt fp._start (fp.byte (fp.data + 5) == 1) (fp.data + 16) 2) :
    (_parseEntryHeader header fp).2.1.type
      = scalarAt fp._start (fp.byte (fp.data + 5) == 1) (fp.data + 16) 2 ∧
    (_parseEntryHeader header fp).2.1.type ≤ 0xFFFF ∧
    (∀ v, Diag.warn "type" v ∈ (_parseEntryHeader header fp).2.2.diag →
      Diag.warn "type" v ∈ fp.diag) ∧
    (0xFE00 ≤ (_parseEntryHeader header fp).2.1.type →
      (_parseEntryHeader header fp).2.1.type ≤ 0xFEFF →
      _ehTypeDump (_parseEntryHeader header fp).2.1.type = "OS specific\n") ∧
    (0xFF00 ≤ (_parseEntryHeader header fp).2.1.type →
      _ehTypeDump (_parseEntryHeader header fp).2.1.type = "Processor specific\n") := by
  rw [parseEntryHeader_diag header fp hm, parseEntryHeader_eq header fp hm]
  have hle : isLE (identAt fp._start (fp.data + 4)) = (fp.byte (fp.data + 5) == 1) :=
    isLE_identAt _ _
  have hlt := scalarAt_two_lt fp._start (fp.byte (fp.data + 5) == 1) (fp.data + 16)
  simp only [headerAt, headerDiag, hle, ELF_ET_CORE, ELF_ET_LOOS, List.mem_append, true_and]
  generalize scalarAt fp._start (fp.byte (fp.data + 5) == 1) (fp.data + 16) 2 = t at h hlt ⊢
  refine ⟨by omega, ?_, ?_, ?_⟩
  · intro v hv
    rcases hv with hv | hv | hv | hv
    · exact hv
    · exact absurd hv (warn_type_mem_identDiag _ _ _)
    · rw [if_neg (by omega)] at hv
      simp at hv
    · split at hv <;> simp at hv
  · intro ha hb
    unfold _ehTypeDump
    simp only [ELF_ET_NONE, ELF_ET_RELOCATABLE, ELF_ET_EXECUTABLE, ELF_ET_DYNAMIC, ELF_ET_CORE,
      ELF_ET_LOOS, ELF_ET_HIOS]
    rw [if_neg (by omega), if_neg (by omega), if_neg (by omega), if_neg (by omega),
      if_neg (by omega), if_pos ⟨ha, hb⟩]
  · intro ha
    unfold _ehTypeDump
    simp only [ELF_ET_NONE, ELF_ET_RELOCATABLE, ELF_ET_EXECUTABLE, ELF_ET_DYNAMIC, ELF_ET_CORE,
      ELF_ET_LOOS, ELF_ET_HIOS, ELF_ET_LOPROC, ELF_ET_HIPROC]
    rw [if_neg (by omega), if_neg (by omega), if_neg (by omega), if_neg (by omega),
      if_neg (by omega), if_neg (by omega), if_pos ⟨ha, by omega⟩]

set_option maxRecDepth 100000 in
/-- Witness of C20 on `osType52`: the type `0xFE10` is decoded as `0xFE10`, no
message is printed, and the dump prints `OS specific`. -/
theorem type_in_band_accepted_witness :
    (_parseEntryHeader default (utilReadFile osType52)).2.1.type = 0xFE10 ∧
    (_parseEntryHeader default (utilReadFile osType52)).2.2.diag = [] ∧
    _ehTypeDump (_parseEntryHeader default (utilReadFile osType52)).2.1.type
      = "OS specific\n" :=
  have h := type_in_band_accepted default (utilReadFile osType52) (by decide)
    (Or.inr (by decide))
  ⟨h.1.trans (by decide), by decide, h.2.2.2.1 (by decide) (by decide)⟩

set_option maxRecDepth 100000 in
/-- C21, counterexample. The header `oddIdent52` has the class byte 7, the
endianness byte 9 and the version byte 3; the dump of the object `elfParse`
returns prints each of the three as `invalid`, without the value read from the
file. -/
theorem invalid_rendered_without_value :
    (memByte oddIdent52 4, memByte oddIdent52 5, memByte oddIdent52 6) = (7, 9, 3) ∧
    (elfParse true (utilReadFile oddIdent52)).1.map
        (fun e => (_eiClassDump e.header.ident.class_,
          _eiEndiannessDump e.header.ident.endianness,
          _elfVersionDump e.header.ident.version))
      = some ("invalid\n", "invalid\n", "invalid\n") := by
  decide

/-- C21, amended. On every buffer with the magic: an unrecognized class byte
(above 2), endianness byte (above 2), identification version byte (not 1) or
header version (not 1) is printed by the dump as `invalid`, without the value,
and the value read from the file is carried by the warning the decoder
records; an object type `t` outside the known bands (`4 < t < 0xFE00`) is
printed as `Unknown type` followed by `t`, and is warned about as well. -/
theorem invalid_marker_and_warning (header : ELF_Header) (fp : FP)
    (hm : hasMagic fp._start fp.data = true) :
    (2 < fp.byte (fp.data + 4) →
      _eiClassDump (_parseEntryHeader header fp).2.1.ident.class_ = "invalid\n" ∧
      Diag.warn "class" (fp.byte (fp.data + 4)) ∈ (_parseEntryHeader header fp).2.2.diag) ∧
    (2 < fp.byte (fp.data + 5) →
      _eiEndiannessDump (_parseEntryHeader header fp).2.1.ident.endianness = "invalid\n" ∧
      Diag.warn "endianness" (fp.byte (fp.data + 5))
        ∈ (_parseEntryHeader header fp).2.2.diag) ∧
    (fp.byte (fp.data + 6) ≠ 1 →
      _elfVersionDump (_parseEntryHeader header fp).2.1.ident.version = "invalid\n" ∧
      Diag.warn "version" (fp.byte (fp.data + 6)) ∈ (_parseEntryHeader header fp).2.2.diag) ∧
    (scalarAt fp._start (fp.byte (fp.data + 5) == 1) (fp.data + 20) 4 ≠ 1 →
      _elfVersionDump (_parseEntryHeader header fp).2.1.version = "invalid\n" ∧
      Diag.warn "version" (scalarAt fp._start (fp.byte (fp.data + 5) == 1) (fp.data + 20) 4)
        ∈ (_parseEntryHeader header fp).2.2.diag) ∧
    (4 < scalarAt fp._start (fp.byte (fp.data + 5) == 1) (fp.data + 16) 2 →
      scalarAt fp._start (fp.byte (fp.data + 5) == 1) (fp.data + 16) 2 < 0xFE00 →
      _ehTypeDump (_parseEntryHeader header fp).2.1.type
        = "Unknown type \x27"
          ++ toString (scalarAt fp._start (fp.byte (fp.data + 5) == 1) (fp.data + 16) 2)
          ++ "\x27\n" ∧
      Diag.warn "type" (scalarAt fp._start (fp.byte (fp.data + 5) == 1) (fp.data + 16) 2)
        ∈ (_parseEntryHeader header fp).2.2.diag) := by
  rw [parseEntryHeader_diag header fp hm, parseEntryHeader_eq header fp hm]
  have hle : isLE (identAt fp._start (fp.data + 4)) = (fp.byte (fp.data + 5) == 1) :=
    isLE_identAt _ _
  simp only [List.mem_append]
  refine ⟨?_, ?_, ?_, ?_, ?_⟩
  · intro h
    refine ⟨?_, Or.inr (warn_mem_headerDiag_class _ _ h)⟩
    have h' : 2 < memByte fp._start (fp.data + 4) := h
    simp [headerAt, identAt, rangeChecked, ELF_CLASS_64_BIT, ELF_CLASS_INVALID, h',
      _eiClassDump]
  · intro h
    refine ⟨?_, Or.inr (warn_mem_headerDiag_endianness _ _ h)⟩
    have h' : 2 < memByte fp._start (fp.data + 4 + 1) := h
    simp [headerAt, identAt, rangeChecked, ELF_ENDIAN_BIG_ENDIAN, ELF_ENDIAN_INVALID, h',
      _eiEndiannessDump]
  · intro h
    refine ⟨?_, Or.inr (warn_mem_headerDiag_identVersion _ _ h)⟩
    have h' : memByte fp._start (fp.data + 4 + 2) ≠ 1 := h
    simp [headerAt, identAt, versionChecked, ELF_VERSION_CURRENT, ELF_VERSION_INVALID, h',
      _elfVersionDump]
  · intro h
    refine ⟨?_, Or.inr (warn_mem_headerDiag_version _ _ h)⟩
    simp [headerAt, hle, versionChecked, ELF_VERSION_CURRENT, ELF_VERSION_INVALID, h,
      _elfVersionDump]
  · intro h1 h2
    refine ⟨?_, Or.inr (warn_mem_headerDiag_type _ _ h1 h2)⟩
    simp only [headerAt, hle]
    exact ehTypeDump_unknown _ h1 h2

set_option maxRecDepth 100000 in
/-- Witness of the amended C21 on `oddIdent52`: the class byte 7 is printed as
`invalid` and the warning about the class carries 7. -/
theorem invalid_marker_and_warning_witness :
    _eiClassDump (_parseEntryHeader default (utilReadFile oddIdent52)).2.1.ident.class_
      = "invalid\n" ∧
    Diag.warn "class" 7 ∈ (_parseEntryHeader default (utilReadFile oddIdent52)).2.2.diag :=
  (invalid_marker_and_warning default (utilReadFile oddIdent52) (by decide)).1 (by decide)

set_option maxRecDepth 100000 in
/-- C22, the code evaluated at the failing input. The `PT_NOTE` entry of
`emptyDescNote64`, decoded without any read outside the file, holds the note
named `GNU` of type 1 whose `descsz` is 0, so that its description is NULL.
`_elfNoteDescDump` finds the name equal to `"GNU"` and the type 1 and calls
`_elfNoteDescABIDump`, which reads four words through `note->desc`: the
rendering is undefined (`none`), not the ABI-tag form.  The same note with the
type 3 is rendered, as an empty build-id. -/
theorem gnu_abi_note_null_desc :
    (elfParse true (utilReadFile emptyDescNote64)).1.map (fun e => e.ph.map (fun p => p.data))
      = some [Data.note ⟨4, 0, 1, [0x47, 0x4E, 0x55, 0], none⟩] ∧
    (∀ o ∈ (elfParse true (utilReadFile emptyDescNote64)).2.reads,
      o < (utilReadFile emptyDescNote64).size) ∧
    strcmpEq [0x47, 0x4E, 0x55, 0] [0x47, 0x4E, 0x55] = some true ∧
    _elfNoteDescABIDump true ⟨4, 0, 1, [0x47, 0x4E, 0x55, 0], none⟩ = none ∧
    _elfNoteDescDump true ⟨4, 0, 1, [0x47, 0x4E, 0x55, 0], none⟩ = none ∧
    _elfNoteDescDump true ⟨4, 0, 3, [0x47, 0x4E, 0x55, 0], none⟩ = some "Build ID: " := by
  decide

/-- C23. Build-id rendering: for a note whose description is the block `d` of
`descsz` bytes, `_elfNoteDescBuildIDDump` prints `Build ID: ` followed by
`2 * descsz` characters, of which those at `2 * i` and `2 * i + 1` are the
lowercase hexadecimal digits of the high and of the low half of byte `i`. -/
theorem build_id_rendering (note : ELF_Note) (d : List Nat) (hd : note.desc = some d)
    (hl : d.length = note.descsz) :
    ∃ hex : List Char,
      _elfNoteDescBuildIDDump note = some ("Build ID: " ++ String.mk hex) ∧
      hex.length = 2 * note.descsz ∧
      ∀ i, i < note.descsz →
        hex[2 * i]? = some (hexDigit (d.getD i 0 % 256 / 16)) ∧
        hex[2 * i + 1]? = some (hexDigit (d.getD i 0 % 16)) :=
  ⟨_, buildID_closed note d hd hl, pairs_length _ _ _, fun i hi => pairs_get _ _ _ i hi⟩

/-- Witness of C23: the description `DE AD BE EF` is printed as `deadbeef`. -/
theorem build_id_rendering_witness :
    (∃ hex : List Char,
      _elfNoteDescBuildIDDump ⟨4, 4, 3, [0x47, 0x4E, 0x55, 0], some [0xDE, 0xAD, 0xBE, 0xEF]⟩
        = some ("Build ID: " ++ String.mk hex) ∧ hex.length = 8) ∧
    _elfNoteDescBuildIDDump ⟨4, 4, 3, [0x47, 0x4E, 0x55, 0], some [0xDE, 0xAD, 0xBE, 0xEF]⟩
      = some "Build ID: deadbeef" :=
  ⟨(build_id_rendering ⟨4, 4, 3, [0x47, 0x4E, 0x55, 0], some [0xDE, 0xAD, 0xBE, 0xEF]⟩
      [0xDE, 0xAD, 0xBE, 0xEF] rfl rfl).imp fun _ h => ⟨h.1, h.2.1⟩,
   by decide⟩

/-- C24. Section-name resolution in `_shDump`.  Let the section at `nidx` hold
the block of bytes `strtab`, and let the bytes of `strtab` from the `nameIdx`
of entry `i` be `name`, free of NUL, followed by a NUL.  Then the name printed
for entry `i` is `No name` (and ten spaces) when `name` is empty, that is when
`nameIdx` points at a NUL, in particular for `nameIdx = 0` in a table that
starts with a NUL; otherwise it is `name`: its first 13 characters followed by
`... ` when it is longer than 13, else `name` padded with spaces to 17. -/
theorem section_name_resolution (sh : List ELF_SHEntry) (nidx i : Nat)
    (tab she : ELF_SHEntry) (strtab : List Nat)
    (ht : sh[nidx]? = some tab) (hs : sh[i]? = some she)
    (hb : tab.data = Data.bytes strtab) :
    (∀ name rest, strtab.drop she.nameIdx = name ++ 0 :: rest → 0 ∉ name →
      _shDumpName sh nidx i
        = some (if name = [] then "No name          "
                else if name.length > 13 then chars (name.take 13) ++ "... "
                else padRight 17 (chars name))) ∧
    (she.nameIdx < strtab.length → strtab.getD she.nameIdx 0 = 0 →
      _shDumpName sh nidx i = some "No name          ") ∧
    (she.nameIdx = 0 → strtab.head? = some 0 →
      _shDumpName sh nidx i = some "No name          ") := by
  have main : ∀ name rest, strtab.drop she.nameIdx = name ++ 0 :: rest → 0 ∉ name →
      _shDumpName sh nidx i
        = some (if name = [] then "No name          "
                else if name.length > 13 then chars (name.take 13) ++ "... "
                else padRight 17 (chars name)) := by
    intro name rest hd hn
    unfold _shDumpName
    rw [ht, hs]
    simp only [hb, cstrAt_of_drop _ _ _ _ hd hn]
    by_cases h0 : name = []
    · simp [h0]
    · by_cases h13 : name.length > 13
      · simp [h0, h13]
      · simp [h0, h13]
  refine ⟨main, ?_, ?_⟩
  · intro hlt h0
    have hd : strtab.drop she.nameIdx = [] ++ 0 :: strtab.drop (she.nameIdx + 1) := by
      rw [List.nil_append, List.drop_eq_getElem_cons hlt]
      congr 1
      simpa [List.getD_eq_getElem?_getD, List.getElem?_eq_getElem hlt] using h0
    simpa using main [] _ hd (by simp)
  · intro hi hh
    cases hst : strtab with
    | nil => rw [hst] at hh; simp at hh
    | cons c t =>
      rw [hst] at hh
      simp only [List.head?_cons, Option.some.injEq] at hh
      have hd : strtab.drop she.nameIdx = [] ++ 0 :: t := by
        rw [hi, hst, hh]
        rfl
      simpa using main [] _ hd (by simp)

set_option maxRecDepth 100000 in
/-- Witness of C24 on `twoSections32`: the name of section 0, whose `sh_name`
is 0, is printed as `No name`; that of section 1, whose `sh_name` is 1, as
`.shstrtab` padded to 17 characters. -/
theorem section_name_resolution_witness :
    _shDumpName twoSectionsTable 1 0 = some "No name          " ∧
    _shDumpName twoSectionsTable 1 1 = some ".shstrtab        " :=
  ⟨(section_name_resolution twoSectionsTable 1 0
      (twoSectionsTable.getD 1 default) (twoSectionsTable.getD 0 default)
      [0, 0x2E, 0x73, 0x68, 0x73, 0x74, 0x72, 0x74, 0x61, 0x62, 0]
      (by decide) (by decide) (by decide)).2.2 (by decide) (by decide),
   ((section_name_resolution twoSectionsTable 1 1
      (twoSectionsTable.getD 1 default) (twoSectionsTable.getD 1 default)
      [0, 0x2E, 0x73, 0x68, 0x73, 0x74, 0x72, 0x74, 0x61, 0x62, 0]
      (by decide) (by decide) (by decide)).1
        [0x2E, 0x73, 0x68, 0x73, 0x74, 0x72, 0x74, 0x61, 0x62] [] (by decide) (by decide)).trans
     (by decide)⟩

set_option maxRecDepth 100000 in
/-- C25. In a file system that holds the file `header32LE` at `./elfp` and the
file `oddType52` at `other.elf`, the command line `elfp -a other.elf` opens
`./elfp` and dumps the object decoded from it, not the one in `other.elf`. -/
theorem main_opens_fixed_path :
    (main true twoFiles ["elfp", "-a", "other.elf"]).opened = some "./elfp" ∧
    main true twoFiles ["elfp", "-a", "other.elf"]
      = Outcome.dumped "./elfp" ((elfParse true (utilReadFile header32LE)).1.getD default) 7 ∧
    (elfParse true (utilReadFile oddType52)).1
      ≠ (elfParse true (utilReadFile header32LE)).1 := by
  decide

/-- C26. Command-line selection.  Let `opts` be arguments that are all among
`-a`, `--all`, `-h`, `--header`, `-p`, `--program`, `-s`, `--section`, and `F`
an argument that does not start with `-`.  On `opts` followed by `F` (and by
anything), with `opts` not empty, the loop of `main` ends with `file = F` and
`flags` the bitwise OR of the masks of `opts`, and that is the selection given
to `elfDump` whenever `main` calls it.  With no file name after `opts`, with
`F` first, or with an argument `x` that starts with `-` and is none of the
options after `opts`, `main` prints a message and exits with the status
`EXIT_FAILURE`, which is not 0, before any file is opened. -/
theorem command_line_selection (hostLE : Bool) (fs : String → Option (List Nat))
    (prog : String) (opts : List String) (F : String) (rest : List String)
    (hopts : ∀ o ∈ opts, (optMask o).isSome = true) :
    (F.data[0]? ≠ some '-' → opts ≠ [] →
      mainLoop (opts ++ F :: rest) 0 = Except.ok (some F, orMasks opts) ∧
      (∀ elf, elfParseFile hostLE fs "./elfp" = some (some elf) →
        main hostLE fs (prog :: (opts ++ F :: rest))
          = Outcome.dumped "./elfp" elf (orMasks opts)) ∧
      (∀ sel, (main hostLE fs (prog :: (opts ++ F :: rest))).selection = some sel →
        sel = orMasks opts)) ∧
    main hostLE fs (prog :: opts) = Outcome.exited "must specify a file as input\n\n" ∧
    (F.data[0]? ≠ some '-' →
      main hostLE fs (prog :: F :: rest)
        = Outcome.exited "must specify what information to print\n\n") ∧
    (∀ x, x.data[0]? = some '-' → optMask x = none →
      main hostLE fs (prog :: (opts ++ x :: rest))
        = Outcome.exited ("unknown option \x27" ++ x ++ "\x27\n\n")) ∧
    (∀ msg, (Outcome.exited msg).status = some EXIT_FAILURE ∧
      (Outcome.exited msg).opened = none) ∧
    EXIT_FAILURE ≠ 0 := by
  refine ⟨?_, ?_, ?_, ?_, fun _ => ⟨rfl, rfl⟩, by decide⟩
  · intro hF hne
    have h := mainLoop_opts opts (F :: rest) 0 hopts (by decide)
    have hl : mainLoop (opts ++ F :: rest) 0 = Except.ok (some F, orMasks opts) := by
      rw [h.1, mainLoop_file _ _ _ hF]
      rfl
    have hm : main hostLE fs (prog :: (opts ++ F :: rest))
        = match elfParseFile hostLE fs "./elfp" with
          | none => Outcome.noFile "./elfp"
          | some none => Outcome.noElf "./elfp"
          | some (some elf) => Outcome.dumped "./elfp" elf (orMasks opts) := by
      unfold main
      rw [if_neg (by simp; omega)]
      simp only [List.drop_succ_cons, List.drop_zero, hl]
      rw [if_neg (by simp), if_neg (show orMasks opts ≠ 0 from h.2.2 hne)]
    refine ⟨hl, ?_, ?_⟩
    · intro elf he
      rw [hm, he]
    · intro sel hs
      rw [hm] at hs
      rcases he : elfParseFile hostLE fs "./elfp" with _ | _ | elf <;> rw [he] at hs
      · exact absurd hs (by simp [Outcome.selection])
      · exact absurd hs (by simp [Outcome.selection])
      · exact (Option.some.inj hs).symm
  · unfold main
    by_cases hl : (prog :: opts).length < 2
    · rw [if_pos hl]
    · rw [if_neg hl]
      have h := mainLoop_opts opts [] 0 hopts (by decide)
      rw [List.append_nil] at h
      simp only [List.drop_succ_cons, List.drop_zero, h.1, mainLoop]
      rw [if_pos trivial]
  · intro hF
    unfold main
    rw [if_neg (by simp)]
    simp only [List.drop_succ_cons, List.drop_zero, mainLoop_file _ _ _ hF]
    rw [if_pos trivial, if_neg (by simp)]
  · intro x h0 hx
    unfold main
    rw [if_neg (by simp; omega)]
    have h := mainLoop_opts opts (x :: rest) 0 hopts (by decide)
    simp only [List.drop_succ_cons, List.drop_zero, h.1, mainLoop_unknown _ _ _ h0 hx]

set_option maxRecDepth 100000 in
/-- Witness of C26: `elfp -h --section other.elf` dumps with the selection 5;
`elfp -h --sect other.elf` exits on the unknown option `--sect`. -/
theorem command_line_selection_witness :
    main true twoFiles ["elfp", "-h", "--section", "other.elf"]
      = Outcome.dumped "./elfp" ((elfParse true (utilReadFile header32LE)).1.getD default) 5 ∧
    main true twoFiles ["elfp", "-h", "--sect", "other.elf"]
      = Outcome.exited "unknown option \x27--sect\x27\n\n" :=
  ⟨((command_line_selection true twoFiles "elfp" ["-h", "--section"] "other.elf" []
      (by decide)).1 (by decide) (by decide)).2.1 _ (by decide),
   (command_line_selection true twoFiles "elfp" ["-h"] "other.elf" ["other.elf"]
      (by decide)).2.2.2.1 "--sect" (by decide) (by decide)⟩

set_option maxRecDepth 100000 in
/-- C27, counterexample. The buffers `overlap32 2` and `overlap32 0` differ at
the endianness byte only, 2 in the one and 0 in the other, and their program
entry lies over the header: its `offset`, the four bytes at 4, decodes to
`0x01020100` in the one and to `0x01000100` in the other. -/
theorem endianness_byte_in_entry :
    (overlap32 2).set 5 0 = overlap32 0 ∧
    (elfParse true (utilReadFile (overlap32 2))).1.map
        (fun e => (e.header.ident.endianness, e.ph.map (fun p => p.offset)))
      = some (ELF_ENDIAN_BIG_ENDIAN, [0x01020100]) ∧
    (elfParse true (utilReadFile (overlap32 0))).1.map
        (fun e => (e.header.ident.endianness, e.ph.map (fun p => p.offset)))
      = some (ELF_ENDIAN_INVALID, [0x01000100]) := by
  decide

/-- C27, amended. Take a buffer of at least 52 bytes with the magic and the
endianness byte 2, and a buffer `mem2` that differs from it at the endianness
byte only, where it holds 0 or a value above 2, both decoded without a read
outside the buffer, on heaps that may differ.  Both decode to an object; the
first has the endianness big-endian, and the header of the second is that of
the first with the endianness invalid, every other field being the same; the
tables have the same numbers of entries; and whenever decoding entry `i` of a
table in the first buffer reads no byte at the offset of the endianness byte,
entry `i` is the same in both objects: for a section entry as a whole, for a
program entry apart from its flags, and with its flags when the class is
32-bit or 64-bit. -/
theorem invalid_endianness_as_big (hostLE : Bool) (fp : FP) (mem2 : List Nat) (heap2 : Heap)
    (hs : SMALLEST_POSSIBLE_ELF ≤ fp.size) (hm : hasMagic fp._start fp.data = true)
    (h5 : fp.byte (fp.data + 5) = 2)
    (h5' : memByte mem2 (fp.data + 5) = 0 ∨ 2 < memByte mem2 (fp.data + 5))
    (hag : ∀ o, o ≠ fp.data + 5 → memByte mem2 o = memByte fp._start o)
    (_hin : ∀ o ∈ (elfParse hostLE fp).2.reads, o < fp.size)
    (_hin2 : ∀ o ∈ (elfParse hostLE { fp with _start := mem2, heap := heap2 }).2.reads,
      o < fp.size) :
    ∃ elf1 elf2,
      (elfParse hostLE fp).1 = some elf1 ∧
      (elfParse hostLE { fp with _start := mem2, heap := heap2 }).1 = some elf2 ∧
      elf1.header.ident.endianness = ELF_ENDIAN_BIG_ENDIAN ∧
      elf2.header
        = { elf1.header with
            ident := { elf1.header.ident with endianness := ELF_ENDIAN_INVALID } } ∧
      elf2.ph.length = elf1.ph.length ∧
      elf2.sh.length = elf1.sh.length ∧
      (∀ i, i < elf1.header.progHeaderEntryNum →
        fp.data + 5 ∉ (_parseProgHeaderEntry hostLE (fp.heap.ph.getD i default)
          elf1.header.ident
          (cursorAt fp._start
            (elf1.header.progHeaderOffset + i * elf1.header.progHeaderEntrySize))).2.2.reads →
        (elf2.ph[i]?).map (fun e => { e with flags := 0 })
            = (elf1.ph[i]?).map (fun e => { e with flags := 0 }) ∧
          ((elf1.header.ident.class_ = ELF_CLASS_32_BIT
              ∨ elf1.header.ident.class_ = ELF_CLASS_64_BIT) →
            elf2.ph[i]? = elf1.ph[i]?)) ∧
      (∀ i, i < elf1.header.sectHeaderEntryNum →
        fp.data + 5 ∉ (_parseSectHeaderEntry hostLE (fp.heap.sh.getD i default)
          elf1.header.ident
          (cursorAt fp._start
            (elf1.header.sectHeaderOffset + i * elf1.header.sectHeaderEntrySize))).2.2.reads →
        elf2.sh[i]? = elf1.sh[i]?) := by
  have hm2 : hasMagic mem2 fp.data = true := by
    rw [hasMagic_iff] at hm ⊢
    rw [hag _ (by omega), hag _ (by omega), hag _ (by omega), hag _ (by omega)]
    exact hm
  obtain ⟨he, hh, hle⟩ := headerAt_endianness fp._start mem2 fp.data h5 h5' hag
  have hcl : (headerAt mem2 fp.data).ident.class_ = (headerAt fp._start fp.data).ident.class_ := by
    rw [hh]
  refine ⟨_, _, elfParse_closed hostLE fp hs hm,
    elfParse_closed hostLE { fp with _start := mem2, heap := heap2 } hs hm2, he, hh,
    ?_, ?_, ?_, ?_⟩
  · simp only [List.length_map, List.length_range, hh]
  · simp only [List.length_map, List.length_range, hh]
  · intro i hi hr
    simp only at hi hr ⊢
    rw [(parseProgHeaderEntry_cursorAt hostLE _ _ _ _).2] at hr
    have hi2 : i < (headerAt mem2 fp.data).progHeaderEntryNum := by rw [hh]; exact hi
    rw [getElem?_map_range _ _ _ hi, getElem?_map_range _ _ _ hi2]
    have e1 : (headerAt mem2 fp.data).progHeaderOffset
        = (headerAt fp._start fp.data).progHeaderOffset := by rw [hh]
    have e2 : (headerAt mem2 fp.data).progHeaderEntrySize
        = (headerAt fp._start fp.data).progHeaderEntrySize := by rw [hh]
    have key : ∀ f, phDecodeAt hostLE mem2 (headerAt mem2 fp.data).ident f
          ((headerAt mem2 fp.data).progHeaderOffset
            + i * (headerAt mem2 fp.data).progHeaderEntrySize)
        = phDecodeAt hostLE fp._start (headerAt fp._start fp.data).ident f
          ((headerAt fp._start fp.data).progHeaderOffset
            + i * (headerAt fp._start fp.data).progHeaderEntrySize) := by
      intro f
      rw [phDecodeAt_ident hostLE mem2 _ _ f _ hcl hle, e1, e2]
      refine (phDecodeAt_agree hostLE _ f _ ?_).symm
      intro o ho
      rw [phPayloadReads_flags hostLE _ _ _ (fp.heap.ph.getD i default).flags] at ho
      exact (hag o (fun h => hr (h ▸ ho))).symm
    refine ⟨?_, ?_⟩
    · simp only [Option.map_some']
      rw [key]
      exact congrArg some (phDecodeAt_clearFlags hostLE _ _ _ _ _)
    · intro hc
      rw [key]
      exact congrArg some (phDecodeAt_flags_of_class hostLE _ _ _ _ _ hc)
  · intro i hi hr
    simp only at hi hr ⊢
    rw [(parseSectHeaderEntry_cursorAt hostLE _ _ _ _).2] at hr
    have hi2 : i < (headerAt mem2 fp.data).sectHeaderEntryNum := by rw [hh]; exact hi
    rw [getElem?_map_range _ _ _ hi, getElem?_map_range _ _ _ hi2]
    congr 1
    rw [shDecodeAt_ident hostLE mem2 _ _ _ hcl hle]
    have e1 : (headerAt mem2 fp.data).sectHeaderOffset
        = (headerAt fp._start fp.data).sectHeaderOffset := by rw [hh]
    have e2 : (headerAt mem2 fp.data).sectHeaderEntrySize
        = (headerAt fp._start fp.data).sectHeaderEntrySize := by rw [hh]
    rw [e1, e2]
    refine (shDecodeAt_agree hostLE _ _ ?_).symm
    intro o ho
    exact (hag o (fun h => hr (h ▸ ho))).symm

set_option maxRecDepth 100000 in
/-- Witness of the amended C27 on `bigEndian64` and the same buffer with 0 for
its endianness byte, decoded with another heap: both decode, and the program
tables are equal. -/
theorem invalid_endianness_as_big_witness :
    ∃ elf1 elf2,
      (elfParse true (utilReadFile bigEndian64)).1 = some elf1 ∧
      (elfParse true
        { utilReadFile bigEndian64 with
          _start := (utilReadFile bigEndian64)._start.set 5 0, heap := staleHeap }).1
          = some elf2 ∧
      elf1.header.ident.endianness = ELF_ENDIAN_BIG_ENDIAN ∧
      elf2.header.ident.endianness = ELF_ENDIAN_INVALID ∧
      elf2.ph.length = elf1.ph.length ∧
      elf2.ph[0]? = elf1.ph[0]? := by
  obtain ⟨elf1, elf2, h1, h2, h3, h4, h5, _, h7, _⟩ :=
    invalid_endianness_as_big true (utilReadFile bigEndian64)
      ((utilReadFile bigEndian64)._start.set 5 0) staleHeap (by decide) (by decide) (by decide)
      (Or.inl (by decide))
      (fun o ho => by
        simp only [memByte, List.getD_eq_getElem?_getD]
        have ho5 : (5 : Nat) ≠ o := fun h => ho h.symm
        rw [List.getElem?_set_ne ho5])
      (by decide) (by decide)
  have e1 : elf1 = ((elfParse true (utilReadFile bigEndian64)).1.getD default) := by
    rw [h1]; rfl
  refine ⟨elf1, elf2, h1, h2, h3, by rw [h4], h5, (h7 0 ?_ ?_).2 ?_⟩
  · rw [e1]; decide
  · rw [e1]; decide
  · rw [e1]; decide

/-- C28. With a class normalised to invalid, `READ64` reads 8 bytes, and the
program-entry decoder reads the type (4 bytes at 0), offset, virtual address,
physical address, file size and memory size (8 bytes each, at 4, 12, 20, 28
and 36) and the alignment (4 bytes at 44), 48 bytes in all; the flags are read
at neither place: the entry keeps the flags it had before the call, whatever
the bytes of the buffer.  A class byte of 0 or above 2 is normalised to
invalid. -/
theorem invalid_class_entry (hostLE : Bool) (ph : ELF_PHEntry) (ident : ELF_Ident) (fp : FP)
    (hc : ident.class_ = ELF_CLASS_INVALID) :
    (READ64 ident fp).1
      = scalarAt fp._start (ident.endianness == ELF_ENDIAN_LITTLE_ENDIAN) fp.data 8 ∧
    (READ64 ident fp).2.data = fp.data + 8 ∧
    (_parseProgHeaderEntry hostLE ph ident fp).2.1.type
      = scalarAt fp._start (ident.endianness == ELF_ENDIAN_LITTLE_ENDIAN) fp.data 4 ∧
    (_parseProgHeaderEntry hostLE ph ident fp).2.1.offset
      = scalarAt fp._start (ident.endianness == ELF_ENDIAN_LITTLE_ENDIAN) (fp.data + 4) 8 ∧
    (_parseProgHeaderEntry hostLE ph ident fp).2.1.virtualAddr
      = scalarAt fp._start (ident.endianness == ELF_ENDIAN_LITTLE_ENDIAN) (fp.data + 12) 8 ∧
    (_parseProgHeaderEntry hostLE ph ident fp).2.1.physicalAddr
      = scalarAt fp._start (ident.endianness == ELF_ENDIAN_LITTLE_ENDIAN) (fp.data + 20) 8 ∧
    (_parseProgHeaderEntry hostLE ph ident fp).2.1.fileSize
      = scalarAt fp._start (ident.endianness == ELF_ENDIAN_LITTLE_ENDIAN) (fp.data + 28) 8 ∧
    (_parseProgHeaderEntry hostLE ph ident fp).2.1.memSize
      = scalarAt fp._start (ident.endianness == ELF_ENDIAN_LITTLE_ENDIAN) (fp.data + 36) 8 ∧
    (_parseProgHeaderEntry hostLE ph ident fp).2.1.align
      = scalarAt fp._start (ident.endianness == ELF_ENDIAN_LITTLE_ENDIAN) (fp.data + 44) 4 ∧
    (_parseProgHeaderEntry hostLE ph ident fp).2.2.data = fp.data + 48 ∧
    (∀ fp2 : FP, (_parseProgHeaderEntry hostLE ph ident fp2).2.1.flags = ph.flags) ∧
    (∀ ident0 (fp0 : FP), fp0.byte fp0.data = 0 ∨ 2 < fp0.byte fp0.data →
      (_parseElfIdent ident0 fp0).2.1.class_ = ELF_CLASS_INVALID) := by
  have hw : wordSize ident = 8 := by simp [wordSize, hc, ELF_CLASS_INVALID, ELF_CLASS_32_BIT]
  have hn : ∀ ident0 (fp0 : FP), fp0.byte fp0.data = 0 ∨ 2 < fp0.byte fp0.data →
      (_parseElfIdent ident0 fp0).2.1.class_ = ELF_CLASS_INVALID := by
    intro ident0 fp0 h
    rw [parseElfIdent_eq]
    show rangeChecked (memByte fp0._start fp0.data) ELF_CLASS_64_BIT ELF_CLASS_INVALID
      = ELF_CLASS_INVALID
    unfold rangeChecked
    rcases h with h | h
    · have h' : memByte fp0._start fp0.data = 0 := h
      rw [h']
      rfl
    · exact if_pos h
  refine ⟨?_, ?_, ?_⟩
  · rw [READ64_eq, hw]
    rfl
  · rw [READ64_eq, hw]
    rfl
  · simp only [parseProgHeaderEntry_eq]
    refine ⟨?_, ?_, ?_, ?_, ?_, ?_, ?_, ?_, ?_, hn⟩ <;>
      simp [phDecodeAt, phEntryAt, phFixedLen, hw, isLE, hc, ELF_CLASS_INVALID, ELF_CLASS_64_BIT,
        ELF_CLASS_32_BIT]

set_option maxRecDepth 100000 in
/-- Witness of C28: the entry at 64 of `stapNote64`, decoded with an invalid
class into an entry whose flags are `0xABCD`: the flags stay `0xABCD`, the
offset is the 8 bytes at 68 and the cursor ends at 112. -/
theorem invalid_class_entry_witness :
    (_parseProgHeaderEntry true { (default : ELF_PHEntry) with flags := 0xABCD } identNoClassLE
        (cursorAt stapNote64 64)).2.1.flags = 0xABCD ∧
    (_parseProgHeaderEntry true { (default : ELF_PHEntry) with flags := 0xABCD } identNoClassLE
        (cursorAt stapNote64 64)).2.1.offset = 0x7800000004 ∧
    (_parseProgHeaderEntry true { (default : ELF_PHEntry) with flags := 0xABCD } identNoClassLE
        (cursorAt stapNote64 64)).2.2.data = 112 :=
  have h := invalid_class_entry true { (default : ELF_PHEntry) with flags := 0xABCD }
    identNoClassLE (cursorAt stapNote64 64) rfl
  ⟨h.2.2.2.2.2.2.2.2.2.2.1 _, h.2.2.2.1.trans (by decide), h.2.2.2.2.2.2.2.2.2.1⟩

set_option maxRecDepth 100000 in
/-- C29. On the file `shortInterp32`, whose `PT_INTERP` entry gives the size 3
to the interpreter path `"/ld"`, the payload is the three bytes `"/ld"`: it
holds no NUL, and the string that starts at its first byte runs past its
end. -/
theorem interp_payload_unterminated :
    (elfParse true (utilReadFile shortInterp32)).1.map
        (fun e => e.ph.map (fun p => (p.type, p.fileSize, p.data)))
      = some [(ELF_PHT_INTERP, 3, Data.bytes [0x2F, 0x6C, 0x64])] ∧
    0 ∉ [0x2F, 0x6C, 0x64] ∧
    cstrAt [0x2F, 0x6C, 0x64] 0 = none := by
  decide

set_option maxRecDepth 100000 in
/-- C30. On the file `netbsdNote64`, whose `GNU` note of type 1 has the
operating system 4 (`ELF_NT_GNU_ABI_NETBSD`) and the version 9.0.0, the dump
of the decoded note prints `unknown OS '4'` in place of the name of the
system. -/
theorem abi_tag_netbsd_unknown :
    ELF_NT_GNU_ABI_NETBSD = 4 ∧
    (elfParse true (utilReadFile netbsdNote64)).1.map
        (fun e => e.ph.map (fun p => p.data.asNote.bind (_elfNoteDescDump true)))
      = some [some "Expects unknown OS \x274\x27, ABI v9.0.0"] := by
  decide

set_option maxRecDepth 100000 in
/-- C31. The constants `ELF_PHT_SUNBSS` (`0x6FFFFFA`) and `ELF_PHT_SUNSTACK`
(`0x6FFFFFB`) lie below `ELF_PHT_LOOS` (`0x60000000`), while the five `GNU`
constants lie in the band.  On the file `lowType32`, whose program entry has
the type `0x06FFFFFA`, a value below the band, `_pheTypeDump` prints the
decoded type as `Sun BSS`; the value `0x6FFFFFFA` of the band is printed as
`OS`. -/
theorem sun_types_below_band :
    ELF_PHT_SUNBSS < ELF_PHT_LOOS ∧ ELF_PHT_SUNSTACK < ELF_PHT_LOOS ∧
    (∀ t ∈ [ELF_PHT_GNU_EH_FRAME, ELF_PHT_GNU_STACK, ELF_PHT_GNU_RELRO,
        ELF_PHT_GNU_PROPERTY, ELF_PHT_GNU_SFRAME], ELF_PHT_LOOS ≤ t ∧ t ≤ ELF_PHT_HIOS) ∧
    (elfParse true (utilReadFile lowType32)).1.map
        (fun e => e.ph.map (fun p => (p.type, _pheTypeDump p.type)))
      = some [(0x06FFFFFA, "Sun BSS       ")] ∧
    _pheTypeDump 0x06FFFFFB = "Sun Stack     " ∧
    _pheTypeDump 0x6FFFFFFA = "OS            " := by
  decide

end Claims

end Elfp
